import Mathlib

/-!
RS-274X (Gerber) extended-command reader of gerbview

A shallow embedding of `gerbview/rs274x.cpp` and proofs about it.

Conventions of the embedding.

* A `char` is the `int` value it converts to (`char` is the signed 8-bit type of
  the x86 targets of the program), so a text is a `List Int`.
* The line buffer `char buff[GERBER_BUFZ]` is a `List Int` whose length is the
  capacity of the array; the cursor `char* text` is the index `text - buff`.
  The null test `text &&` of the source is always true for such a cursor.
* Reading a byte outside the array, or indexing a vector outside its size, is
  undefined in C++; the embedding stops there with `Outcome.fault`.
* A `FILE*` is the list of bytes that remain to be read from it.
* Loops that need not terminate run on a fuel counter, one unit per iteration;
  `Outcome.timeout` is the answer when the counter runs out.
* `double` arithmetic, `strtod`, `fopen`, the constant `PCB_INTERNAL_UNIT` and the
  ordering of the macro set are not in the file: they are the fields of `Env`, and
  every statement holds for every `Env`.  `exactEnv` is one to run the code with.
* Message boxes and error dialogs are not part of the state and are left out.
-/

namespace Gerbview

/-! ## Results of a run -/

/-- Result of running a piece of the program. -/
inductive Outcome (α : Type) where
  | ok (a : α)
  | fault
  | timeout
deriving DecidableEq, Repr

namespace Outcome

/-- Sequencing: a fault or a timeout ends the run. -/
def bind {α β : Type} : Outcome α → (α → Outcome β) → Outcome β
  | ok a, f => f a
  | fault, _ => fault
  | timeout, _ => timeout

instance : Monad Outcome where
  pure := Outcome.ok
  bind := Outcome.bind

end Outcome

/-! ## Characters and the line buffer -/

/-- `*p` for `p = buff + i`. -/
def peek (buff : List Int) (i : Nat) : Outcome Int :=
  match buff[i]? with
  | some c => .ok c
  | none => .fault

/-- Conversion of an `int` to `char` (signed, 8 bits, two's complement). -/
def toChar (v : Int) : Int := (v + 128) % 256 - 128

/-- Conversion of a `long` to `int` (32 bits, two's complement). -/
def toInt32 (v : Int) : Int := (v + 2147483648) % 4294967296 - 2147483648

/-- The characters of a Lean string as a C text (without terminator). -/
def chars (s : String) : List Int := s.toList.map (fun c => (c.toNat : Int))

/-- The characters of a Lean string followed by the terminating NUL. -/
def cstring (s : String) : List Int := chars s ++ [0]

/-! ## Command codes -/

/-- `#define CODE( x, y ) ( ((x) << 8) + (y) )` -/
def CODE (x y : Int) : Int := x * 256 + y

def FORMAT_STATEMENT : Int := CODE 70 83
def AXIS_SELECT : Int := CODE 65 83
def MIRROR_IMAGE : Int := CODE 77 73
def MODE_OF_UNITS : Int := CODE 77 79
def INCH : Int := CODE 73 78
def MILLIMETER : Int := CODE 77 77
def OFFSET : Int := CODE 79 70
def SCALE_FACTOR : Int := CODE 83 70
def IMAGE_NAME : Int := CODE 73 78
def IMAGE_JUSTIFY : Int := CODE 73 74
def IMAGE_OFFSET : Int := CODE 73 79
def IMAGE_POLARITY : Int := CODE 73 80
def IMAGE_ROTATION : Int := CODE 73 82
def PLOTTER_FILM : Int := CODE 80 77
def INCLUDE_FILE : Int := CODE 73 70
def AP_DEFINITION : Int := CODE 65 68
def AP_MACRO : Int := CODE 65 77
def LAYER_NAME : Int := CODE 76 78
def LAYER_POLARITY : Int := CODE 76 80
def KNOCKOUT : Int := CODE 75 79
def STEP_AND_REPEAT : Int := CODE 83 80
def ROTATE : Int := CODE 82 79

/-! ## Primitive scanners -/

/-- `static int ReadXCommand( char*& text )`: the code read and the new cursor. -/
def ReadXCommand (buff : List Int) (text : Nat) : Outcome (Int × Nat) :=
  match peek buff text with
  | .ok c1 =>
    if c1 ≠ 0 then
      -- result = *text++ << 8;
      match peek buff (text + 1) with
      | .ok c2 =>
        if c2 ≠ 0 then .ok (c1 * 256 + c2, text + 2)   -- result += *text++;
        else .ok (-1, text + 1)
      | .fault => .fault
      | .timeout => .timeout
    else .ok (-1, text)
  | .fault => .fault
  | .timeout => .timeout

/-- `isspace` of the C locale. -/
def isspace (c : Int) : Bool := c == 32 || (9 ≤ c && c ≤ 13)

/-- `isdigit`. -/
def isdigit (c : Int) : Bool := 48 ≤ c && c ≤ 57

/-- `LONG_MAX` (LP64). -/
def LONG_MAX : Int := 9223372036854775807

/-- `LONG_MIN` (LP64). -/
def LONG_MIN : Int := -9223372036854775808

/-- Leading white space of `strtol`: how many characters are skipped. -/
def strtol.skipSpace : List Int → Nat → Outcome Nat
  | [], _ => .fault
  | c :: cs, n => if isspace c then strtol.skipSpace cs (n + 1) else .ok n

/-- Digit run of `strtol` in base 10: the value read and the number of digits. -/
def strtol.digits : List Int → Nat → Nat → Outcome (Nat × Nat)
  | [], _, _ => .fault
  | c :: cs, acc, n =>
    if isdigit c then strtol.digits cs (acc * 10 + (c - 48).toNat) (n + 1) else .ok (acc, n)

/-- `strtol( s, &end, 10 )` of the C library on the text `s`: the value and `end - s`.
With no digit there is no conversion: the value is 0 and `end = s`.  A value
outside the range of `long` is clamped. -/
def strtol (s : List Int) : Outcome (Int × Nat) :=
  match strtol.skipSpace s 0 with
  | .ok w =>
    let s1 := s.drop w
    let neg : Bool := s1.head? == some 45
    let k : Nat := if s1.head? == some 45 || s1.head? == some 43 then 1 else 0
    match strtol.digits (s1.drop k) 0 0 with
    | .ok (v, n) =>
      if n = 0 then .ok (0, 0)
      else
        let sv : Int := if neg then -(v : Int) else (v : Int)
        .ok (max LONG_MIN (min LONG_MAX sv), w + k + n)
    | .fault => .fault
    | .timeout => .timeout
  | .fault => .fault
  | .timeout => .timeout

/-- `static int ReadInt( char*& text )`: the value and the new cursor. -/
def ReadInt (buff : List Int) (text : Nat) : Outcome (Int × Nat) :=
  if text ≤ buff.length then
    match strtol (buff.drop text) with
    | .ok (v, n) =>
      -- int ret = (int) strtol( text, &text, 10 );
      match peek buff (text + n) with
      | .ok c => if c = 44 then .ok (toInt32 v, text + n + 1) else .ok (toInt32 v, text + n)
      | .fault => .fault
      | .timeout => .timeout
    | .fault => .fault
    | .timeout => .timeout
  else .fault

/-- Value of a string of decimal digits. -/
def digitsValue (ds : List Int) : Nat := ds.foldl (fun acc c => acc * 10 + (c - 48).toNat) 0

/-- The C string at the start of a text: the characters before the first NUL,
or `none` when the text holds no NUL. -/
def cstr : List Int → Option (List Int)
  | [] => none
  | c :: cs => if c = 0 then some [] else (cstr cs).map (fun r => c :: r)

/-! ## The interpreter state -/

/-- Members `x`, `y` of `wxPoint` and `wxSize`. -/
structure wxPoint where
  x : Int
  y : Int
deriving DecidableEq, Repr

/-- The shapes of an aperture (`enum APERTURE_T`, declared with `D_CODE`). -/
inductive APERTURE_T where
  | APT_CIRCLE
  | APT_LINE
  | APT_RECT
  | APT_OVAL
  | APT_POLYGON
  | APT_MACRO
deriving DecidableEq, Repr

/-- The members of `class D_CODE` that the reader writes. -/
structure D_CODE where
  m_Size : wxPoint
  m_Shape : APERTURE_T
  m_Drill : wxPoint
  m_DrillShape : Int
  m_Defined : Bool
deriving DecidableEq, Repr

/-- One parameter of an aperture-macro primitive (`struct DCODE_PARAM`). -/
structure DCODE_PARAM (D : Type) where
  isImmediate : Bool
  value : D
deriving DecidableEq, Repr

/-- One primitive of an aperture macro (`struct AM_PRIMITIVE`). -/
structure AM_PRIMITIVE (D : Type) where
  primitive_id : Int
  params : List (DCODE_PARAM D)
deriving DecidableEq, Repr

/-- An aperture macro (`struct APERTURE_MACRO`). -/
structure APERTURE_MACRO (D : Type) where
  name : List Int
  primitives : List (AM_PRIMITIVE D)
deriving DecidableEq, Repr

/-- The states of the command reader that the file names. -/
inductive CommandState where
  | CMD_IDLE
  | END_BLOCK
  | ENTER_RS274X_CMD
deriving DecidableEq, Repr

/-- The members of `class GERBER` that the reader touches.  `m_Aperture_List` is
the table that `ReturnToolDescr` searches; a `FILE*` is the rest of its stream. -/
structure GERBER (D : Type) where
  m_CommandState : CommandState
  m_NoTrailingZeros : Bool
  m_Relative : Bool
  m_FmtScale : wxPoint
  m_FmtLen : wxPoint
  m_GerbMetric : Bool
  m_Offset : wxPoint
  m_Name : List Int
  m_ImageNegative : Bool
  m_LayerNegative : Bool
  m_As_DCode : Bool
  m_Layer : Int
  m_aperture_macros : List (APERTURE_MACRO D)
  m_FilesPtr : Nat
  m_FilesList : List (List Int)
  m_Current_File : List Int
  m_Aperture_List : List (Int × D_CODE)
deriving DecidableEq, Repr

/-- The line buffer, the cursor into it and the interpreter. -/
structure Reader (D : Type) where
  buff : List Int
  text : Nat
  g : GERBER D
deriving DecidableEq, Repr

/-- The parts of the platform that the reader uses and that lie outside the file:
`double` and its operations, the C library conversion `strtod`, the constant
`PCB_INTERNAL_UNIT`, the file system seen by `fopen`, and `std::set::insert` on the
aperture-macro set (whose ordering is declared elsewhere). -/
structure Env where
  /-- The type `double`. -/
  D : Type
  /-- `strtod( s, &end )` on the C string `s`: the value and `end - s`. -/
  strtod : List Int → D × Nat
  /-- The end pointer of `strtod` stays inside the string. -/
  strtod_le : ∀ s, (strtod s).2 ≤ s.length
  /-- Conversion of an `int` to `double`. -/
  ofInt : Int → D
  /-- The literal `25.4`. -/
  d25_4 : D
  /-- Product of two doubles. -/
  mul : D → D → D
  /-- Quotient of two doubles. -/
  div : D → D → D
  /-- `(int) round( x )`. -/
  roundInt : D → Int
  /-- `(int) x`. -/
  truncInt : D → Int
  /-- The constant `PCB_INTERNAL_UNIT`. -/
  PCB_INTERNAL_UNIT : Int
  /-- `fopen( name, "rt" )`: the content of the file, or `none` when it cannot be opened. -/
  fopen : List Int → Option (List Int)
  /-- `m_aperture_macros.insert( am )`. -/
  macroInsert : APERTURE_MACRO D → List (APERTURE_MACRO D) → List (APERTURE_MACRO D)

/-- `static double ReadDouble( char*& text )`: the value and the new cursor. -/
def ReadDouble (E : Env) (buff : List Int) (text : Nat) : Outcome (E.D × Nat) :=
  match cstr (buff.drop text) with
  | none => .fault
  | some s =>
    -- double ret = strtod( text, &text );
    let r := E.strtod s
    match peek buff (text + r.2) with
    | .ok c => if c = 44 then .ok (r.1, text + r.2 + 1) else .ok (r.1, text + r.2)
    | .fault => .fault
    | .timeout => .timeout

/-! ## The stream and the block terminator scanner -/

/-- The line buffer, the cursor and the stream, as `GetEndOfBlock` leaves them. -/
structure Source where
  buff : List Int
  text : Nat
  file : List Int
deriving DecidableEq, Repr

/-- The characters one `fgets` call with room for `n` of them takes from the stream,
and the stream that remains: the line up to and including its newline, cut at `n`. -/
def fgets.take : Nat → List Int → List Int × List Int
  | 0, s => ([], s)
  | _ + 1, [] => ([], [])
  | n + 1, c :: s =>
    if c = 10 then ([c], s) else ((c :: (fgets.take n s).1), (fgets.take n s).2)

/-- `fgets( buff, GERBER_BUFZ, file )`: `none` for `NULL` (end of file), else the
buffer holding the line and its NUL over the old content, and the remaining stream. -/
def fgets (buff : List Int) (file : List Int) : Option (List Int × List Int) :=
  if buff.length = 0 ∨ file = [] then none
  else
    let r := fgets.take (buff.length - 1) file
    some (r.1 ++ 0 :: buff.drop (r.1.length + 1), r.2)

/-- `bool GetEndOfBlock( char buff[GERBER_BUFZ], char*& text, FILE* gerber_file )`. -/
def GetEndOfBlock : Nat → List Int → Nat → List Int → Outcome (Bool × Source)
  | 0, _, _, _ => .timeout
  | fuel + 1, buff, text, file =>
    match buff[text]? with
    | some c =>
      -- while( (text < buff + GERBER_BUFZ) && *text )
      if c ≠ 0 then
        if c = 42 then .ok (true, ⟨buff, text, file⟩)
        else if c = 37 then .ok (true, ⟨buff, text, file⟩)
        else GetEndOfBlock fuel buff (text + 1) file
      else
        match fgets buff file with
        | none => .ok (false, ⟨buff, text, file⟩)
        | some r => GetEndOfBlock fuel r.1 0 r.2
    | none =>
      match fgets buff file with
      | none => .ok (false, ⟨buff, text, file⟩)
      | some r => GetEndOfBlock fuel r.1 0 r.2

/-! ## The aperture macro reader -/

/-- Modelled from the spec: the enumerators of `AM_PRIMITIVE_ID` are declared outside
this file; their values are the primitive numbers of the RS-274X format. -/
def AMP_CIRCLE : Int := 1
/-- Modelled from the spec: see `AMP_CIRCLE`. -/
def AMP_LINE2 : Int := 2
/-- Modelled from the spec: see `AMP_CIRCLE`. -/
def AMP_LINE20 : Int := 20
/-- Modelled from the spec: see `AMP_CIRCLE`. -/
def AMP_LINE_CENTER : Int := 21
/-- Modelled from the spec: see `AMP_CIRCLE`. -/
def AMP_LINE_LOWER_LEFT : Int := 22
/-- Modelled from the spec: see `AMP_CIRCLE`. -/
def AMP_EOF : Int := 3
/-- Modelled from the spec: see `AMP_CIRCLE`. -/
def AMP_OUTLINE : Int := 4
/-- Modelled from the spec: see `AMP_CIRCLE`. -/
def AMP_POLYGON : Int := 5
/-- Modelled from the spec: see `AMP_CIRCLE`. -/
def AMP_MOIRE : Int := 6
/-- Modelled from the spec: see `AMP_CIRCLE`. -/
def AMP_THERMAL : Int := 7

/-- The name loop of `ReadApertureMacro`, on the text at the cursor:
`while( *text ) { if( *text == '*' ) { ++text; break; } am.name.Append( *text++ ); }`. -/
def ReadApertureMacro.name : List Int → List Int → Nat → Outcome (List Int × Nat)
  | [], _, _ => .fault
  | c :: cs, acc, text =>
    if c = 0 then .ok (acc, text)
    else if c = 42 then .ok (acc, text + 1)
    else ReadApertureMacro.name cs (acc ++ [c]) (text + 1)

/-- The `switch( prim.primitive_id )` of `ReadApertureMacro`. -/
def ReadApertureMacro.paramCount (primitive_id : Int) : Int :=
  if primitive_id = AMP_CIRCLE then 4
  else if primitive_id = AMP_LINE2 ∨ primitive_id = AMP_LINE20 then 7
  else if primitive_id = AMP_LINE_CENTER ∨ primitive_id = AMP_LINE_LOWER_LEFT then 6
  else if primitive_id = AMP_EOF then 0
  else if primitive_id = AMP_OUTLINE then 4
  else if primitive_id = AMP_POLYGON then 4
  else if primitive_id = AMP_MOIRE then 9
  else if primitive_id = AMP_THERMAL then 6
  else 4

/-- The parameter loop of `ReadApertureMacro`, with `paramCount - i` rounds left:
`for( int i=0;  i<paramCount && *text && *text!='*';  ++i )`. -/
def ReadApertureMacro.params (E : Env) (buff : List Int) :
    Nat → Nat → List (DCODE_PARAM E.D) → Outcome (List (DCODE_PARAM E.D) × Nat)
  | 0, text, ps => .ok (ps, text)
  | n + 1, text, ps => do
    let c ← peek buff text
    if c = 0 ∨ c = 42 then return (ps, text)
    else
      -- if( *text == '$' ) { ++text; param.isImmediate = false; }
      let d ← ReadDouble E buff (if c = 36 then text + 1 else text)
      ReadApertureMacro.params E buff n d.2 (ps ++ [⟨decide (c ≠ 36), d.1⟩])

/-- One primitive record of `ReadApertureMacro`, from `ReadInt` to `push_back`. -/
def ReadApertureMacro.primitive (E : Env) (buff : List Int) (text : Nat) :
    Outcome (AM_PRIMITIVE E.D × Nat) := do
  let id ← ReadInt buff text
  let ps ← ReadApertureMacro.params E buff (ReadApertureMacro.paramCount id.1).toNat id.2 []
  if id.1 = AMP_OUTLINE then
    -- paramCount = (int) prim.params[1].value * 2 + 1;
    match ps.1[1]? with
    | none => .fault
    | some p =>
      let qs ← ReadApertureMacro.params E buff (E.truncInt p.value * 2 + 1).toNat ps.2 ps.1
      return (⟨id.1, qs.1⟩, qs.2)
  else return (⟨id.1, ps.1⟩, ps.2)

/-- The `for(;;)` of `ReadApertureMacro`, and the insertion that follows it. -/
def ReadApertureMacro.loop (E : Env) :
    Nat → Reader E.D → APERTURE_MACRO E.D → Outcome (Bool × Reader E.D)
  | 0, _, _ => .timeout
  | fuel + 1, r, am => do
    let c0 ← peek r.buff r.text
    let t1 := if c0 = 42 then r.text + 1 else r.text
    let c1 ← peek r.buff t1
    let t2 := if c1 = 10 then t1 + 1 else t1
    let c2 ← peek r.buff t2
    -- if( !*text ) { text = buff; if( fgets( ... ) == NULL ) return false; }
    let refill : Option (Reader E.D) :=
      if c2 = 0 then
        match fgets r.buff r.g.m_Current_File with
        | none => none
        | some l => some ⟨l.1, 0, { r.g with m_Current_File := l.2 }⟩
      else some { r with text := t2 }
    match refill with
    | none => return (false, { r with text := 0 })
    | some r1 =>
      let c3 ← peek r1.buff r1.text
      if c3 = 37 then
        return (true, { r1 with g := { r1.g with
          m_aperture_macros := E.macroInsert am r1.g.m_aperture_macros } })
      else
        let p ← ReadApertureMacro.primitive E r1.buff r1.text
        ReadApertureMacro.loop E fuel { r1 with text := p.2 }
          { am with primitives := am.primitives ++ [p.1] }

/-- `bool GERBER::ReadApertureMacro( char buff[GERBER_BUFZ], char*& text, FILE* gerber_file )`,
called on the current file of the interpreter. -/
def ReadApertureMacro (E : Env) (fuel : Nat) (r : Reader E.D) : Outcome (Bool × Reader E.D) := do
  let nm ← ReadApertureMacro.name (r.buff.drop r.text) [] r.text
  ReadApertureMacro.loop E fuel { r with text := nm.2 } ⟨nm.1, []⟩

/-! ## The command dispatcher -/

/-- The initialiser of `conv_scale` in `ExecuteRS274XCommand`:
`m_GerbMetric ? PCB_INTERNAL_UNIT / 25.4 : PCB_INTERNAL_UNIT`. -/
def conv_scale (E : Env) (m_GerbMetric : Bool) : E.D :=
  if m_GerbMetric then E.div (E.ofInt E.PCB_INTERNAL_UNIT) E.d25_4
  else E.ofInt E.PCB_INTERNAL_UNIT

/-- `(int) round( ReadDouble( text ) * conv_scale )`: the value and the new cursor. -/
def readLength (E : Env) (scale : E.D) (buff : List Int) (text : Nat) : Outcome (Int × Nat) := do
  let d ← ReadDouble E buff text
  return (E.roundInt (E.mul d.1 scale), d.2)

/-- `while( *text == ' ' ) text++;` on the text at the cursor. -/
def skipBlanks : List Int → Nat → Outcome Nat
  | [], _ => .fault
  | c :: cs, text => if c = 32 then skipBlanks cs (text + 1) else .ok text

/-- Modelled from the spec: `ReturnToolDescr( m_Layer, code )` is defined outside this
file; it looks the D-code number up in the aperture table and creates nothing,
`none` being the `NULL` of a missing slot. -/
def ReturnToolDescr : List (Int × D_CODE) → Int → Option D_CODE
  | [], _ => none
  | (n, d) :: rest, code => if n = code then some d else ReturnToolDescr rest code

/-- Writing through the pointer that `ReturnToolDescr` returned. -/
def storeTool : List (Int × D_CODE) → Int → D_CODE → List (Int × D_CODE)
  | [], _, _ => []
  | (n, d) :: rest, code, v =>
    if n = code then (n, v) :: rest else (n, d) :: storeTool rest code v

/-- The `while( *text != '*' )` of the `FORMAT_STATEMENT` case; `ok` is the local flag. -/
def FormatStatement (E : Env) : Nat → Reader E.D → Bool → Outcome (Bool × Reader E.D)
  | 0, _, _ => .timeout
  | fuel + 1, r, ok => do
    let c ← peek r.buff r.text
    if c = 42 then return (ok, r)
    else if c = 32 then FormatStatement E fuel { r with text := r.text + 1 } ok
    else if c = 76 then       -- 'L'
      FormatStatement E fuel
        { r with text := r.text + 1, g := { r.g with m_NoTrailingZeros := false } } ok
    else if c = 84 then       -- 'T'
      FormatStatement E fuel
        { r with text := r.text + 1, g := { r.g with m_NoTrailingZeros := true } } ok
    else if c = 65 then       -- 'A'
      FormatStatement E fuel { r with text := r.text + 1, g := { r.g with m_Relative := false } } ok
    else if c = 73 then       -- 'I'
      FormatStatement E fuel { r with text := r.text + 1, g := { r.g with m_Relative := true } } ok
    else if c = 78 then       -- 'N': text++; xy_seq_char = *text++;
      let _ ← peek r.buff (r.text + 1)
      FormatStatement E fuel { r with text := r.text + 2 } ok
    else if c = 88 ∨ c = 89 then
      -- code = *(text++); ctmp = *(text++) - '0';
      let c1 ← peek r.buff (r.text + 1)
      let ctmp := toChar (c1 - 48)
      let c2 ← peek r.buff (r.text + 2)
      if c = 88 then
        FormatStatement E fuel { r with text := r.text + 3, g := { r.g with
          m_FmtScale := { r.g.m_FmtScale with x := c2 - 48 },
          m_FmtLen := { r.g.m_FmtLen with x := ctmp + (c2 - 48) } } } ok
      else
        FormatStatement E fuel { r with text := r.text + 3, g := { r.g with
          m_FmtScale := { r.g.m_FmtScale with y := c2 - 48 },
          m_FmtLen := { r.g.m_FmtLen with y := ctmp + (c2 - 48) } } } ok
    else
      -- default: GetEndOfBlock( buff, text, m_Current_File ); ok = FALSE;
      let e ← GetEndOfBlock fuel r.buff r.text r.g.m_Current_File
      FormatStatement E fuel ⟨e.2.buff, e.2.text, { r.g with m_Current_File := e.2.file }⟩ false

/-- The `while( *text != '*' )` of the `OFFSET` case. -/
def OffsetLoop (E : Env) (scale : E.D) : Nat → Reader E.D → Outcome (Reader E.D)
  | 0, _ => .timeout
  | fuel + 1, r => do
    let c ← peek r.buff r.text
    if c = 42 then return r
    else if c = 65 then       -- 'A'
      let v ← readLength E scale r.buff (r.text + 1)
      OffsetLoop E scale fuel
        { r with text := v.2, g := { r.g with m_Offset := { r.g.m_Offset with x := v.1 } } }
    else if c = 66 then       -- 'B'
      let v ← readLength E scale r.buff (r.text + 1)
      OffsetLoop E scale fuel
        { r with text := v.2, g := { r.g with m_Offset := { r.g.m_Offset with y := v.1 } } }
    else OffsetLoop E scale fuel r

/-- The loop of the `IMAGE_NAME` case, on the text at the cursor:
`while( *text != '*' ) { m_Name.Append( *text++ ); }`. -/
def ImageNameLoop : List Int → List Int → Nat → Outcome (List Int × Nat)
  | [], _, _ => .fault
  | c :: cs, acc, text =>
    if c = 42 then .ok (acc, text) else ImageNameLoop cs (acc ++ [c]) (text + 1)

/-- `tolower` of the C locale. -/
def tolower (c : Int) : Int := if 65 ≤ c ∧ c ≤ 90 then c + 32 else c

/-- `strnicmp( text, "NEG", 3 ) == 0`: the comparison stops at the first difference. -/
def startsWithNEG (buff : List Int) (text : Nat) : Outcome Bool := do
  let c0 ← peek buff text
  if tolower c0 ≠ 110 then return false
  else
    let c1 ← peek buff (text + 1)
    if tolower c1 ≠ 101 then return false
    else
      let c2 ← peek buff (text + 2)
      return decide (tolower c2 = 103)

/-- The characters that `strtok( line, "*%%\n\r" )` treats as delimiters. -/
def isDelimiter (c : Int) : Bool := c == 42 || c == 37 || c == 10 || c == 13

/-- The string left in `line` by `strcpy( line, text ); strtok( line, "*%%\n\r" );`:
the leading delimiters stay, the first token is cut at the delimiter that ends it. -/
def includeName (s : List Int) : List Int :=
  s.takeWhile isDelimiter ++ (s.dropWhile isDelimiter).takeWhile (fun c => !isDelimiter c)

/-- The `INCLUDE_FILE` case: the flag `ok` and the interpreter. -/
def IncludeFile (E : Env) (r : Reader E.D) : Outcome (Bool × Reader E.D) :=
  if r.g.m_FilesPtr ≥ 10 then .ok (false, r)
  else
    match cstr (r.buff.drop r.text) with
    | none => .fault
    | some s =>
      -- m_FilesList[m_FilesPtr] = m_Current_File;
      if r.g.m_FilesPtr < r.g.m_FilesList.length then
        let files := r.g.m_FilesList.set r.g.m_FilesPtr r.g.m_Current_File
        match E.fopen (includeName s) with
        | none =>
          -- ok = FALSE; m_Current_File = m_FilesList[m_FilesPtr];
          .ok (false, { r with g := { r.g with m_FilesList := files } })
        | some f =>
          .ok (true, { r with g := { r.g with
            m_FilesList := files, m_Current_File := f, m_FilesPtr := r.g.m_FilesPtr + 1 } })
      else .fault

/-- The optional fields of a circle after its size: `X` drill, `X` second drill. -/
def ApDefinition.circle (E : Env) (scale : E.D) (buff : List Int) (text : Nat) (d : D_CODE) :
    Outcome (D_CODE × Nat) := do
  let d := { d with m_Shape := APERTURE_T.APT_CIRCLE }
  let t ← skipBlanks (buff.drop text) text
  let c ← peek buff t
  let s1 ← (if c = 88 then do
      let v ← readLength E scale buff (t + 1)
      return ({ d with m_Drill := ⟨v.1, v.1⟩, m_DrillShape := 1 }, v.2)
    else return (d, t) : Outcome (D_CODE × Nat))
  let t ← skipBlanks (buff.drop s1.2) s1.2
  let c ← peek buff t
  let s2 ← (if c = 88 then do
      let v ← readLength E scale buff (t + 1)
      return ({ s1.1 with m_Drill := { s1.1.m_Drill with y := v.1 }, m_DrillShape := 2 }, v.2)
    else return (s1.1, t) : Outcome (D_CODE × Nat))
  return ({ s2.1 with m_Defined := true }, s2.2)

/-- The optional fields of an oval or a rectangle after its size:
`X` second size, `X` drill, `Y` second drill. -/
def ApDefinition.ovalRect (E : Env) (scale : E.D) (buff : List Int) (text : Nat) (ctmp : Int)
    (d : D_CODE) : Outcome (D_CODE × Nat) := do
  let d := { d with m_Shape := if ctmp = 79 then APERTURE_T.APT_OVAL else APERTURE_T.APT_RECT }
  let t ← skipBlanks (buff.drop text) text
  let c ← peek buff t
  let s1 ← (if c = 88 then do
      let v ← readLength E scale buff (t + 1)
      return ({ d with m_Size := { d.m_Size with y := v.1 } }, v.2)
    else return (d, t) : Outcome (D_CODE × Nat))
  let t ← skipBlanks (buff.drop s1.2) s1.2
  let c ← peek buff t
  let s2 ← (if c = 88 then do
      let v ← readLength E scale buff (t + 1)
      return ({ s1.1 with m_Drill := ⟨v.1, v.1⟩, m_DrillShape := 1 }, v.2)
    else return (s1.1, t) : Outcome (D_CODE × Nat))
  let t ← skipBlanks (buff.drop s2.2) s2.2
  let c ← peek buff t
  let s3 ← (if c = 89 then do
      let v ← readLength E scale buff (t + 1)
      return ({ s2.1 with m_Drill := { s2.1.m_Drill with y := v.1 }, m_DrillShape := 2 }, v.2)
    else return (s2.1, t) : Outcome (D_CODE × Nat))
  return ({ s3.1 with m_Defined := true }, s3.2)

/-- The `AP_DEFINITION` case: the flag `ok` and the interpreter. -/
def ApDefinition (E : Env) (scale : E.D) (r : Reader E.D) : Outcome (Bool × Reader E.D) := do
  let c ← peek r.buff r.text
  if c ≠ 68 then return (false, r)
  else
    -- m_As_DCode = TRUE; text++; code = ReadInt( text ); ctmp = *text;
    let code ← ReadInt r.buff (r.text + 1)
    let ctmp ← peek r.buff code.2
    let g := { r.g with m_As_DCode := true }
    match ReturnToolDescr g.m_Aperture_List code.1 with
    | none => return (true, { r with text := code.2, g := g })
    | some dcode =>
      let c1 ← peek r.buff (code.2 + 1)
      if c1 = 44 then
        -- text += 2; dcode->m_Size.x = dcode->m_Size.y = (int) round( ReadDouble( text ) * conv_scale );
        let v ← readLength E scale r.buff (code.2 + 2)
        let dcode := { dcode with m_Size := ⟨v.1, v.1⟩ }
        let res ← (if ctmp = 67 then ApDefinition.circle E scale r.buff v.2 dcode
          else if ctmp = 79 ∨ ctmp = 82 then ApDefinition.ovalRect E scale r.buff v.2 ctmp dcode
          else if ctmp = 80 then
            return ({ dcode with m_Shape := APERTURE_T.APT_POLYGON, m_Defined := true }, v.2)
          else return (dcode, v.2) : Outcome (D_CODE × Nat))
        return (true, { r with text := res.2, g := { g with
          m_Aperture_List := storeTool g.m_Aperture_List code.1 res.1 } })
      else return (true, { r with text := code.2, g := g })

/-- The `switch( command )` of `ExecuteRS274XCommand`: the flag `ok` and the
interpreter when the switch is left. -/
def ExecuteRS274XCommand.cases (E : Env) (fuel : Nat) (command : Int) (r : Reader E.D) :
    Outcome (Bool × Reader E.D) :=
  let scale := conv_scale E r.g.m_GerbMetric
  if command = FORMAT_STATEMENT then FormatStatement E fuel r true
  else if command = AXIS_SELECT ∨ command = MIRROR_IMAGE then .ok (false, r)
  else if command = MODE_OF_UNITS then do
    let code ← ReadXCommand r.buff r.text
    let metric := if code.1 = INCH then false
      else if code.1 = MILLIMETER then true else r.g.m_GerbMetric
    return (true, { r with text := code.2, g := { r.g with m_GerbMetric := metric } })
  else if command = OFFSET then do
    -- m_Offset.x = m_Offset.y = 0;
    let r1 ← OffsetLoop E scale fuel { r with g := { r.g with m_Offset := ⟨0, 0⟩ } }
    return (true, r1)
  else if command = SCALE_FACTOR ∨ command = IMAGE_JUSTIFY ∨ command = IMAGE_ROTATION
      ∨ command = IMAGE_OFFSET ∨ command = PLOTTER_FILM ∨ command = LAYER_NAME
      ∨ command = KNOCKOUT ∨ command = STEP_AND_REPEAT ∨ command = ROTATE then
    .ok (true, r)
  else if command = IMAGE_NAME then do
    let nm ← ImageNameLoop (r.buff.drop r.text) [] r.text
    return (true, { r with text := nm.2, g := { r.g with m_Name := nm.1 } })
  else if command = IMAGE_POLARITY then do
    let neg ← startsWithNEG r.buff r.text
    return (true, { r with g := { r.g with m_ImageNegative := neg } })
  else if command = LAYER_POLARITY then do
    let c ← peek r.buff r.text
    return (true, { r with g := { r.g with m_LayerNegative := decide (c = 67) } })
  else if command = AP_MACRO then do
    -- the value that ReadApertureMacro returns is not used
    let m ← ReadApertureMacro E fuel r
    return (true, m.2)
  else if command = INCLUDE_FILE then IncludeFile E r
  else if command = AP_DEFINITION then ApDefinition E scale r
  else .ok (false, r)

/-- `bool GERBER::ExecuteRS274XCommand( int command, char buff[GERBER_BUFZ], char*& text )`. -/
def ExecuteRS274XCommand (E : Env) (fuel : Nat) (command : Int) (r : Reader E.D) :
    Outcome (Bool × Reader E.D) := do
  let s ← ExecuteRS274XCommand.cases E fuel command r
  -- ok = GetEndOfBlock( buff, text, m_Current_File );  return ok;
  let e ← GetEndOfBlock fuel s.2.buff s.2.text s.2.g.m_Current_File
  return (e.1, ⟨e.2.buff, e.2.text, { s.2.g with m_Current_File := e.2.file }⟩)

/-! ## The command-stream driver -/

/-- The `for(;;)` of `ReadRS274XCommand`; `ok` is the local flag. -/
def ReadRS274XCommand.loop (E : Env) : Nat → Reader E.D → Bool → Outcome (Bool × Reader E.D)
  | 0, _, _ => .timeout
  | fuel + 1, r, ok => do
    let c ← peek r.buff r.text
    if c ≠ 0 then
      if c = 37 then          -- '%': end of command
        return (ok, { r with text := r.text + 1,
                             g := { r.g with m_CommandState := CommandState.CMD_IDLE } })
      else if c = 32 ∨ c = 13 ∨ c = 10 ∨ c = 42 then
        ReadRS274XCommand.loop E fuel { r with text := r.text + 1 } ok
      else
        let code ← ReadXCommand r.buff r.text
        let x ← ExecuteRS274XCommand E fuel code.1 { r with text := code.2 }
        if !x.1 then return (false, x.2)
        else ReadRS274XCommand.loop E fuel x.2 x.1
    else
      -- end of current line, read another one.
      match fgets r.buff r.g.m_Current_File with
      | none => return (false, r)
      | some l => ReadRS274XCommand.loop E fuel ⟨l.1, 0, { r.g with m_Current_File := l.2 }⟩ ok

/-- `bool GERBER::ReadRS274XCommand( WinEDA_GerberFrame* frame, wxDC* DC,
char buff[GERBER_BUFZ], char*& text )`. -/
def ReadRS274XCommand (E : Env) (fuel : Nat) (r : Reader E.D) : Outcome (Bool × Reader E.D) :=
  ReadRS274XCommand.loop E fuel { r with text := r.text + 1 } true

/-! ## An executable platform

Doubles are taken to be the rationals they stand for (no rounding error) and
`strtod` reads decimal notation; this instance runs the reader on concrete texts. -/

/-- A run of decimal digits and the text after it. -/
def takeDigits : List Int → List Int × List Int
  | [] => ([], [])
  | c :: cs => if isdigit c then (c :: (takeDigits cs).1, (takeDigits cs).2) else ([], c :: cs)

/-- The text after an optional sign. -/
def dropSign (s : List Int) : List Int :=
  if s.head? == some 45 || s.head? == some 43 then s.tail else s

/-- The exponent part of a decimal number: its value and the text after it. -/
def Exact.exponent (s : List Int) : Int × List Int :=
  if s.head? == some 101 || s.head? == some 69 then
    let ed := takeDigits (dropSign s.tail)
    if ed.1 = [] then (0, s)
    else if s.tail.head? == some 45 then (-(digitsValue ed.1 : Int), ed.2)
    else ((digitsValue ed.1 : Int), ed.2)
  else (0, s)

/-- Decimal `strtod` with exact value: white space, sign, digits, fraction, exponent. -/
def Exact.strtod (s : List Int) : ℚ × Nat :=
  let s1 := s.dropWhile isspace
  let ip := takeDigits (dropSign s1)
  let fp := if ip.2.head? == some 46 then takeDigits ip.2.tail else ([], ip.2)
  if ip.1 = [] ∧ fp.1 = [] then (0, 0)
  else
    let m : ℚ := (digitsValue (ip.1 ++ fp.1) : ℚ) / 10 ^ fp.1.length
    let ex := Exact.exponent fp.2
    ((if s1.head? == some 45 then -m else m) * 10 ^ ex.1, s.length - ex.2.length)

/-- Rounding to the nearest integer, halves away from zero. -/
def Exact.roundInt (x : ℚ) : Int := if 0 ≤ x then ⌊x + 1 / 2⌋ else -⌊-x + 1 / 2⌋

/-- Rounding towards zero. -/
def Exact.truncInt (x : ℚ) : Int := if 0 ≤ x then ⌊x⌋ else -⌊-x⌋

/-- Insertion into a set of macros ordered by name: a name already present stays. -/
def Exact.macroInsert (am : APERTURE_MACRO ℚ) (s : List (APERTURE_MACRO ℚ)) :
    List (APERTURE_MACRO ℚ) :=
  if s.any (fun m => m.name == am.name) then s else s ++ [am]

/-- The platform with exact decimal arithmetic over the file system `fs`. -/
@[reducible] def exactEnv (fs : List Int → Option (List Int)) : Env where
  D := ℚ
  strtod := Exact.strtod
  strtod_le := by
    intro s
    dsimp only [Exact.strtod]
    split_ifs
    all_goals first | exact Nat.zero_le _ | exact Nat.sub_le _ _
  ofInt := fun n => (n : ℚ)
  d25_4 := 254 / 10
  mul := fun a b => a * b
  div := fun a b => a / b
  roundInt := Exact.roundInt
  truncInt := Exact.truncInt
  PCB_INTERNAL_UNIT := 10000
  fopen := fs
  macroInsert := Exact.macroInsert

/-- An interpreter before its first command, reading the stream `file`. -/
def GERBER.init (D : Type) (file : List Int) : GERBER D where
  m_CommandState := CommandState.ENTER_RS274X_CMD
  m_NoTrailingZeros := false
  m_Relative := false
  m_FmtScale := ⟨0, 0⟩
  m_FmtLen := ⟨0, 0⟩
  m_GerbMetric := false
  m_Offset := ⟨0, 0⟩
  m_Name := []
  m_ImageNegative := false
  m_LayerNegative := false
  m_As_DCode := false
  m_Layer := 0
  m_aperture_macros := []
  m_FilesPtr := 0
  m_FilesList := List.replicate 10 []
  m_Current_File := file
  m_Aperture_List := []

/-- The empty file system: no file can be opened. -/
def noFiles : List Int → Option (List Int) := fun _ => none

/-! ## Notions used to state the properties -/

/-- The value of a digit string after an optional sign. -/
def signedValue (sign ds : List Int) : Int :=
  if sign = [45] then -(digitsValue ds : Int) else (digitsValue ds : Int)

/-- The offset of the first `*` or `%` in the C string at the start of a text:
the characters before it are neither NUL nor a terminator; `none` when the string
holds no terminator. -/
def findTerminator : List Int → Option Nat
  | [] => none
  | c :: cs =>
    if c = 0 then none
    else if c = 42 ∨ c = 37 then some 0
    else (findTerminator cs).map (fun k => k + 1)

/-- The later lines of the stream: the buffer and the remaining stream after each of
the next `n` successful `fgets` calls. -/
def refills : Nat → List Int → List Int → List (List Int × List Int)
  | 0, _, _ => []
  | n + 1, buff, file =>
    match fgets buff file with
    | none => []
    | some r => r :: refills n r.1 r.2

/-- The command codes that the switch of `ExecuteRS274XCommand` has a case for. -/
def handledCodes : List Int :=
  [FORMAT_STATEMENT, AXIS_SELECT, MIRROR_IMAGE, MODE_OF_UNITS, OFFSET, SCALE_FACTOR,
   IMAGE_JUSTIFY, IMAGE_ROTATION, IMAGE_OFFSET, PLOTTER_FILM, LAYER_NAME, KNOCKOUT,
   STEP_AND_REPEAT, ROTATE, IMAGE_NAME, IMAGE_POLARITY, LAYER_POLARITY, AP_MACRO,
   INCLUDE_FILE, AP_DEFINITION]

/-- A line holds a terminator. -/
def hasTerminator (r : List Int × List Int) : Bool := (findTerminator r.1).isSome

/-- A text `nt` is a numeral of value `v` for `strtod`: it is not empty, holds no NUL,
does not begin with `*` or `$`, and `strtod` reads exactly `nt`, with value `v`,
whenever a comma or a `*` follows it. -/
structure IsNumeral (E : Env) (nt : List Int) (v : E.D) : Prop where
  ne : nt ≠ []
  noNul : ∀ x ∈ nt, x ≠ 0
  head : nt.head? ≠ some 42 ∧ nt.head? ≠ some 36
  reads : ∀ (c : Int) (tail : List Int), c = 44 ∨ c = 42 →
    E.strtod (nt ++ c :: tail) = (v, nt.length)

/-- The codes that the dispatcher recognises and ignores. -/
def ignoredCodes : List Int :=
  [SCALE_FACTOR, IMAGE_JUSTIFY, IMAGE_ROTATION, IMAGE_OFFSET, PLOTTER_FILM, LAYER_NAME,
   KNOCKOUT, STEP_AND_REPEAT, ROTATE]

/-- A file system with the single file "a", which holds "M02*". -/
def oneFile : List Int → Option (List Int) :=
  fun name => if name = [97] then some [77, 48, 50, 42] else none

/-! ## Written forms of macro primitives -/

/-- One parameter of a macro primitive as it is written: an optional `$`, a numeral,
and the value of that numeral. -/
structure ParamText (D : Type) where
  isVar : Bool
  num : List Int
  value : D

/-- The characters of a parameter. -/
def ParamText.text {D : Type} (p : ParamText D) : List Int :=
  if p.isVar then 36 :: p.num else p.num

/-- The record that a parameter is to give: immediate unless it has the `$`. -/
def ParamText.param {D : Type} (p : ParamText D) : DCODE_PARAM D := ⟨!p.isVar, p.value⟩

/-- The characters of a parameter list: each parameter follows a comma. -/
def paramsText {D : Type} : List (ParamText D) → List Int
  | [] => []
  | p :: ps => 44 :: (p.text ++ paramsText ps)

/-- What follows a primitive number or a parameter: a comma or a `*`, and a NUL
further on in the buffer. -/
def FieldEnd (q : List Int) : Prop :=
  ∃ c tl, q = c :: tl ∧ (c = 44 ∨ c = 42) ∧ (0 : Int) ∈ tl

/-- The comma that `ReadInt` and `ReadDouble` skip after their number, if there is one. -/
def commaLen (q : List Int) : Nat := if q.head? = some 44 then 1 else 0

/-- The primitive kinds whose number of parameters is fixed by the table. -/
def fixedKinds : List Int :=
  [AMP_CIRCLE, AMP_LINE2, AMP_LINE20, AMP_LINE_CENTER, AMP_LINE_LOWER_LEFT, AMP_EOF,
   AMP_POLYGON, AMP_MOIRE, AMP_THERMAL]

/-- One primitive as it is written in a macro body: its number `id` and its
parameters, each after a comma. -/
structure PrimText (D : Type) where
  id : List Int
  params : List (ParamText D)

/-- The characters of a primitive, without the `*` that ends it. -/
def PrimText.text {D : Type} (p : PrimText D) : List Int := p.id ++ paramsText p.params

/-- The record that the written primitive stands for. -/
def PrimText.record {D : Type} (p : PrimText D) : AM_PRIMITIVE D :=
  ⟨(digitsValue p.id : Int), p.params.map ParamText.param⟩

/-- The number of parameters that the reader takes for the written primitive: the
table count of its kind and, for an outline, `2 * n + 1` more, `n` being the integer
value of the second parameter. -/
def PrimText.count (E : Env) (p : PrimText E.D) : Nat :=
  (ReadApertureMacro.paramCount (digitsValue p.id)).toNat +
    (if (digitsValue p.id : Int) = AMP_OUTLINE then
      match p.params[1]? with
      | some q => (E.truncInt q.value * 2 + 1).toNat
      | none => 0
    else 0)

/-- A well-formed written primitive: a decimal number that fits an `int`, then as many
numeric parameters as the reader takes for it. -/
structure PrimText.WellFormed (E : Env) (p : PrimText E.D) : Prop where
  ne : p.id ≠ []
  digits : ∀ d ∈ p.id, isdigit d = true
  fits : (digitsValue p.id : Int) ≤ 2147483647
  numerals : ∀ q ∈ p.params, IsNumeral E q.num q.value
  count : p.params.length = p.count E

/-- The layout of the rest of a macro body: `MacroBody e buff t file ps` says that from
index `t` of the line buffer `buff`, with `file` the stream that follows, the text
holds the primitives `ps`, each ended by `*`, possibly on several lines, and then
ends with `%` (`e = true`) or with the end of the stream (`e = false`). -/
inductive MacroBody {D : Type} : Bool → List Int → Nat → List Int → List (PrimText D) → Prop
  /-- The `%` that closes the macro is at the cursor. -/
  | percent (buff : List Int) (t : Nat) (file tail : List Int)
      (h : buff.drop t = 37 :: tail) : MacroBody true buff t file []
  /-- The line ends at the cursor and the stream has no further line. -/
  | exhausted (buff : List Int) (t : Nat) (file nl stale : List Int)
      (h : buff.drop t = nl ++ 0 :: stale) (hnl : nl = [] ∨ nl = [10])
      (hf : fgets buff file = none) : MacroBody false buff t file []
  /-- A primitive and its `*` are at the cursor; the body goes on after the `*`. -/
  | prim (e : Bool) (buff : List Int) (t : Nat) (file : List Int) (p : PrimText D)
      (ps : List (PrimText D)) (rest : List Int)
      (h : buff.drop t = p.text ++ 42 :: rest) (h0 : (0 : Int) ∈ rest)
      (hrest : MacroBody e buff (t + p.text.length + 1) file ps) :
      MacroBody e buff t file (p :: ps)
  /-- The line ends at the cursor; the body goes on at the start of the next line,
  which is not blank. -/
  | line (e : Bool) (buff : List Int) (t : Nat) (file nl stale : List Int)
      (r : List Int × List Int) (ps : List (PrimText D))
      (h : buff.drop t = nl ++ 0 :: stale) (hnl : nl = [] ∨ nl = [10])
      (hf : fgets buff file = some r) (hstart : r.1.head? ≠ some 10 ∧ r.1.head? ≠ some 0)
      (hrest : MacroBody e r.1 0 r.2 ps) : MacroBody e buff t file ps

/-! ## Written forms of Offset commands -/

/-- A text `nt` is a number of value `v` inside an Offset command: it holds no NUL and
`strtod` reads exactly `nt`, with value `v`, whenever `A`, `B` or `*` follows it. -/
structure IsOffsetNumber (E : Env) (nt : List Int) (v : E.D) : Prop where
  noNul : ∀ x ∈ nt, x ≠ 0
  reads : ∀ (c : Int) (tail : List Int), c = 65 ∨ c = 66 ∨ c = 42 →
    E.strtod (nt ++ c :: tail) = (v, nt.length)

/-- One field of an Offset command as it is written: the axis letter (`B` or `A`), a
number, and the value of that number. -/
structure OffsetField (D : Type) where
  axisB : Bool
  num : List Int
  value : D

/-- The characters of an Offset field. -/
def OffsetField.text {D : Type} (f : OffsetField D) : List Int :=
  (if f.axisB then 66 else 65) :: f.num

/-- The characters of a sequence of Offset fields. -/
def offsetText {D : Type} : List (OffsetField D) → List Int
  | [] => []
  | f :: fs => f.text ++ offsetText fs

/-- The offset that the fields `fs` give to an axis (`b = true` for `B`), `d` when no
field names the axis: the rounded scaled value of the last field that names it. -/
def axisOffset (E : Env) (scale : E.D) (b : Bool) (d : Int) (fs : List (OffsetField E.D)) :
    Int :=
  match (fs.filter (fun f => f.axisB == b)).getLast? with
  | none => d
  | some f => E.roundInt (E.mul f.value scale)

/-! ## Written forms of command blocks -/

/-- One command of a block as it is written and as the switch of the dispatcher treats
it: the two characters of its code, the text `args` that follows up to the terminator
of the command, the number `used` of characters of that text over which the switch
moves the cursor, and the change `effect` that the switch makes to the interpreter. -/
structure BlockCommand (D : Type) where
  c1 : Int
  c2 : Int
  args : List Int
  used : Nat
  effect : GERBER D → GERBER D

/-- The characters of a command, without its terminator. -/
def BlockCommand.text {D : Type} (c : BlockCommand D) : List Int := c.c1 :: c.c2 :: c.args

@[simp] theorem Outcome.ok_bind {α β : Type} (a : α) (f : α → Outcome β) :
    (Outcome.ok a >>= f) = f a := rfl

@[simp] theorem Outcome.fault_bind {α β : Type} (f : α → Outcome β) :
    ((Outcome.fault : Outcome α) >>= f) = Outcome.fault := rfl

@[simp] theorem Outcome.timeout_bind {α β : Type} (f : α → Outcome β) :
    ((Outcome.timeout : Outcome α) >>= f) = Outcome.timeout := rfl

@[simp] theorem Outcome.pure_eq {α : Type} (a : α) : (pure a : Outcome α) = Outcome.ok a := rfl

theorem Outcome.bind_eq_ok {α β : Type} {x : Outcome α} {f : α → Outcome β} {b : β}
    (h : (x >>= f) = Outcome.ok b) : ∃ a, x = Outcome.ok a ∧ f a = Outcome.ok b := by
  cases x with
  | ok a => exact ⟨a, rfl, h⟩
  | fault => cases h
  | timeout => cases h

theorem peek_of_getElem? {buff : List Int} {i : Nat} {c : Int} (h : buff[i]? = some c) :
    peek buff i = Outcome.ok c := by
  simp [peek, h]

theorem peek_eq_ok {buff : List Int} {i : Nat} {c : Int} (h : peek buff i = Outcome.ok c) :
    buff[i]? = some c := by
  unfold peek at h
  split at h
  · rename_i d hd
    cases h
    exact hd
  · cases h

theorem drop_of_getElem? {buff : List Int} {i : Nat} {c : Int} (h : buff[i]? = some c) :
    buff.drop i = c :: buff.drop (i + 1) := by
  obtain ⟨hlt, rfl⟩ := List.getElem?_eq_some_iff.mp h
  exact List.drop_eq_getElem_cons hlt

theorem drop_of_getElem?_none {buff : List Int} {i : Nat} (h : buff[i]? = none) :
    buff.drop i = [] := by
  rw [List.getElem?_eq_none_iff] at h
  exact List.drop_of_length_le h

theorem toInt32_of_fits {v : Int} (h1 : -2147483648 ≤ v) (h2 : v ≤ 2147483647) :
    toInt32 v = v := by
  unfold toInt32
  omega

theorem toChar_of_fits {v : Int} (h1 : -128 ≤ v) (h2 : v ≤ 127) : toChar v = v := by
  unfold toChar
  omega

/-! ## ReadXCommand -/

/-- C1: when the two characters at the cursor are non-NUL 7-bit characters `c1`, `c2`,
`ReadXCommand` returns `c1 * 256 + c2`, the packed code `CODE c1 c2`, which lies in
`0..65535`, and advances the cursor by exactly two characters. -/
theorem ReadXCommand_packs (buff : List Int) (text : Nat) (c1 c2 : Int)
    (h1 : buff[text]? = some c1) (h2 : buff[text + 1]? = some c2)
    (hc1 : 0 < c1 ∧ c1 < 128) (hc2 : 0 < c2 ∧ c2 < 128) :
    ReadXCommand buff text = Outcome.ok (c1 * 256 + c2, text + 2)
      ∧ c1 * 256 + c2 = CODE c1 c2 ∧ 0 ≤ c1 * 256 + c2 ∧ c1 * 256 + c2 ≤ 65535 := by
  have n1 : c1 ≠ 0 := by omega
  have n2 : c2 ≠ 0 := by omega
  refine ⟨?_, rfl, by omega, by omega⟩
  simp [ReadXCommand, peek, h1, h2, n1, n2]

/-- The text "FS*" gives the code of the format statement, two characters further. -/
theorem ReadXCommand_packs_witness :
    ReadXCommand (cstring "FS*") 0 = Outcome.ok (70 * 256 + 83, 0 + 2)
      ∧ (70 : Int) * 256 + 83 = CODE 70 83 ∧ (0 : Int) ≤ 70 * 256 + 83
      ∧ (70 : Int) * 256 + 83 ≤ 65535 :=
  ReadXCommand_packs (cstring "FS*") 0 70 83 (by decide) (by decide) (by decide) (by decide)

/-- C2: when `n` non-NUL characters, `n` being 0 or 1, stand between the cursor and the
terminating NUL of the buffer, `ReadXCommand` returns -1 and leaves the cursor on
that NUL (at `text + n`), not past it. -/
theorem ReadXCommand_short (buff : List Int) (text n : Nat) (hn : n ≤ 1)
    (hnul : buff[text + n]? = some 0)
    (hpre : ∀ i, i < n → ∃ c, buff[text + i]? = some c ∧ c ≠ 0) :
    ReadXCommand buff text = Outcome.ok (-1, text + n) := by
  rcases Nat.le_one_iff_eq_zero_or_eq_one.mp hn with rfl | rfl
  · simp only [Nat.add_zero] at hnul
    simp [ReadXCommand, peek, hnul]
  · obtain ⟨c, hc, hc0⟩ := hpre 0 (by decide)
    simp only [Nat.add_zero] at hc
    simp [ReadXCommand, peek, hnul, hc, hc0]

/-- With the single character "F" left, the read fails with the cursor on the NUL. -/
theorem ReadXCommand_short_witness :
    ReadXCommand (cstring "F") 0 = Outcome.ok (-1, 0 + 1) :=
  ReadXCommand_short (cstring "F") 0 1 (by decide) (by decide)
    (fun i hi => by
      have hi0 : i = 0 := by omega
      subst hi0
      exact ⟨70, by decide, by decide⟩)

/-! ## ReadInt -/

theorem strtol.skipSpace_run (ws : List Int) (c : Int) (rest : List Int) (n : Nat)
    (hws : ∀ w ∈ ws, isspace w = true) (hc : isspace c = false) :
    strtol.skipSpace (ws ++ c :: rest) n = Outcome.ok (n + ws.length) := by
  induction ws generalizing n with
  | nil => simp [strtol.skipSpace, hc]
  | cons w ws ih =>
    have hw : isspace w = true := hws w (List.mem_cons_self _ _)
    have hrest : ∀ v ∈ ws, isspace v = true := fun v hv => hws v (List.mem_cons_of_mem _ hv)
    rw [List.cons_append, strtol.skipSpace, if_pos hw, ih (n + 1) hrest, List.length_cons]
    congr 1
    omega

theorem strtol.digits_run (ds : List Int) (c : Int) (rest : List Int) (acc n : Nat)
    (hds : ∀ d ∈ ds, isdigit d = true) (hc : isdigit c = false) :
    strtol.digits (ds ++ c :: rest) acc n
      = Outcome.ok (ds.foldl (fun a d => a * 10 + (d - 48).toNat) acc, n + ds.length) := by
  induction ds generalizing acc n with
  | nil => simp [strtol.digits, hc]
  | cons d ds ih =>
    have hd : isdigit d = true := hds d (List.mem_cons_self _ _)
    have hrest : ∀ v ∈ ds, isdigit v = true := fun v hv => hds v (List.mem_cons_of_mem _ hv)
    rw [List.cons_append, strtol.digits, if_pos hd, ih _ (n + 1) hrest, List.length_cons,
      List.foldl_cons]
    congr 2
    omega

theorem isspace_of_isdigit {c : Int} (h : isdigit c = true) : isspace c = false := by
  simp only [isdigit, Bool.and_eq_true, decide_eq_true_eq] at h
  simp only [isspace, Bool.or_eq_false_iff, Bool.and_eq_false_iff, beq_eq_false_iff_ne,
    decide_eq_false_iff_not]
  omega

/-- What `strtol` does with white space, an optional sign, a digit run and a next
character that is no digit. -/
theorem strtol_number (ws sign ds rest : List Int) (c : Int)
    (hws : ∀ w ∈ ws, isspace w = true) (hsign : sign = [] ∨ sign = [43] ∨ sign = [45])
    (hne : ds ≠ []) (hds : ∀ d ∈ ds, isdigit d = true) (hc : isdigit c = false) :
    strtol (ws ++ (sign ++ (ds ++ c :: rest)))
      = Outcome.ok (max LONG_MIN (min LONG_MAX
          (if sign = [45] then -(digitsValue ds : Int) else (digitsValue ds : Int))),
          ws.length + sign.length + ds.length) := by
  obtain ⟨d, ds1, rfl⟩ := List.exists_cons_of_ne_nil hne
  have hd : isdigit d = true := hds d (List.mem_cons_self _ _)
  have hdig := strtol.digits_run (d :: ds1) c rest 0 0 hds hc
  have hdn : d ≠ 45 ∧ d ≠ 43 := by
    simp only [isdigit, Bool.and_eq_true, decide_eq_true_eq] at hd
    constructor <;> omega
  rcases hsign with rfl | rfl | rfl
  · have hsp := strtol.skipSpace_run ws d (ds1 ++ c :: rest) 0 hws (isspace_of_isdigit hd)
    simp only [List.nil_append, List.cons_append] at hsp hdig ⊢
    simp [strtol, hsp, hdig, hdn.1, hdn.2, digitsValue]
  · have hsp := strtol.skipSpace_run ws 43 ((d :: ds1) ++ c :: rest) 0 hws (by decide)
    simp only [List.cons_append, List.nil_append] at hsp hdig ⊢
    simp [strtol, hsp, hdig, digitsValue]
  · have hsp := strtol.skipSpace_run ws 45 ((d :: ds1) ++ c :: rest) 0 hws (by decide)
    simp only [List.cons_append, List.nil_append] at hsp hdig ⊢
    simp [strtol, hsp, hdig, digitsValue]

/-- C3: on a text made of an optional sign, a non-empty digit string `ds` whose signed
value fits in an `int`, and a next character `c` that is no digit, `ReadInt` returns
the signed value; the cursor ends after the digits, and one further when `c` is a
comma (on the first character of the rest), else it stays on `c`. -/
theorem ReadInt_decimal (pre sign ds rest : List Int) (c : Int)
    (hsign : sign = [] ∨ sign = [43] ∨ sign = [45])
    (hne : ds ≠ []) (hds : ∀ d ∈ ds, isdigit d = true) (hc : isdigit c = false)
    (hfit : -2147483648 ≤ signedValue sign ds ∧ signedValue sign ds ≤ 2147483647) :
    ReadInt (pre ++ (sign ++ (ds ++ c :: rest))) pre.length
      = Outcome.ok (signedValue sign ds,
          pre.length + sign.length + ds.length + (if c = 44 then 1 else 0)) := by
  have hst := strtol_number [] sign ds rest c (by simp) hsign hne hds hc
  simp only [List.nil_append, List.length_nil, Nat.zero_add] at hst
  have hclamp : max LONG_MIN (min LONG_MAX (signedValue sign ds)) = signedValue sign ds := by
    simp only [LONG_MIN, LONG_MAX]
    omega
  have hpk : peek (pre ++ (sign ++ (ds ++ c :: rest))) (pre.length + (sign.length + ds.length))
      = Outcome.ok c := by
    apply peek_of_getElem?
    rw [List.getElem?_append_right (by omega), Nat.add_sub_cancel_left,
      List.getElem?_append_right (by omega), Nat.add_sub_cancel_left,
      List.getElem?_append_right (by omega), Nat.sub_self]
    simp
  unfold signedValue at hclamp hfit ⊢
  simp only [ReadInt, List.length_append, List.drop_left, hst, hclamp, hpk,
    toInt32_of_fits hfit.1 hfit.2]
  by_cases h44 : c = 44
  · simp [h44]
    omega
  · simp [h44]
    omega

/-- The text "123,abc" gives 123 with the cursor on the letter a. -/
theorem ReadInt_decimal_witness :
    ReadInt ([] ++ ([] ++ ([49, 50, 51] ++ 44 :: [97, 98, 99, 0]))) 0
      = Outcome.ok (123, 4) :=
  ReadInt_decimal [] [] [49, 50, 51] [97, 98, 99, 0] 44 (by decide) (by decide) (by decide)
    (by decide) (by decide)

/-- With no digit after the white space and the sign, `strtol` converts nothing:
the value is 0 and the end pointer is the start of the text. -/
theorem strtol_no_digits (ws sign rest : List Int) (c : Int)
    (hws : ∀ w ∈ ws, isspace w = true) (hsign : sign = [] ∨ sign = [43] ∨ sign = [45])
    (hc : isdigit c = false) (hc0 : sign = [] → isspace c = false ∧ c ≠ 43 ∧ c ≠ 45) :
    strtol (ws ++ (sign ++ c :: rest)) = Outcome.ok (0, 0) := by
  have hdig : strtol.digits (c :: rest) 0 0 = Outcome.ok (0, 0) := by
    simp [strtol.digits, hc]
  rcases hsign with rfl | rfl | rfl
  · obtain ⟨h1, h2, h3⟩ := hc0 rfl
    have hsp := strtol.skipSpace_run ws c rest 0 hws h1
    simp only [List.nil_append] at hsp ⊢
    simp [strtol, hsp, hdig, h2, h3]
  · have hsp := strtol.skipSpace_run ws 43 (c :: rest) 0 hws (by decide)
    simp only [List.cons_append, List.nil_append] at hsp ⊢
    simp [strtol, hsp, hdig]
  · have hsp := strtol.skipSpace_run ws 45 (c :: rest) 0 hws (by decide)
    simp only [List.cons_append, List.nil_append] at hsp ⊢
    simp [strtol, hsp, hdig]

/-- C4 (as amended): on a text that does not begin with a decimal integer (white space
`ws`, an optional sign, then a character `c` that is no digit), `ReadInt` returns 0
and leaves the cursor where it was, except that a comma standing at the cursor is
consumed: the cursor is then one character further. -/
theorem ReadInt_no_digits (pre ws sign rest : List Int) (c : Int)
    (hws : ∀ w ∈ ws, isspace w = true) (hsign : sign = [] ∨ sign = [43] ∨ sign = [45])
    (hc : isdigit c = false) (hc0 : sign = [] → isspace c = false ∧ c ≠ 43 ∧ c ≠ 45) :
    ReadInt (pre ++ (ws ++ (sign ++ c :: rest))) pre.length
      = Outcome.ok (0, if ws = [] ∧ sign = [] ∧ c = 44 then pre.length + 1 else pre.length) := by
  have hst := strtol_no_digits ws sign rest c hws hsign hc hc0
  have h0 : toInt32 0 = 0 := by decide
  have hpk : ∀ x : Int, (ws ++ (sign ++ c :: rest))[0]? = some x →
      peek (pre ++ (ws ++ (sign ++ c :: rest))) (pre.length + 0) = Outcome.ok x := by
    intro x hx
    apply peek_of_getElem?
    rw [List.getElem?_append_right (by omega), Nat.add_sub_cancel_left]
    exact hx
  cases ws with
  | cons w ws1 =>
    have hw : isspace w = true := hws w (List.mem_cons_self _ _)
    have hw44 : w ≠ 44 := by
      intro h
      rw [h] at hw
      exact absurd hw (by decide)
    have hp := hpk w (by simp)
    simp only [ReadInt, List.length_append, List.drop_left, hst, hp, h0]
    simp [hw44]
  | nil =>
    rcases hsign with rfl | rfl | rfl
    · have hp := hpk c (by simp)
      simp only [ReadInt, List.length_append, List.drop_left, hst, hp, h0]
      by_cases h44 : c = 44
      · simp [h44]
      · simp [h44]
    · have hp := hpk 43 (by simp)
      simp only [ReadInt, List.length_append, List.drop_left, hst, hp, h0]
      simp
    · have hp := hpk 45 (by simp)
      simp only [ReadInt, List.length_append, List.drop_left, hst, hp, h0]
      simp

/-- The text "abc" gives 0 with the cursor left on the letter a. -/
theorem ReadInt_no_digits_witness :
    ReadInt ([] ++ ([] ++ ([] ++ 97 :: [98, 99, 0]))) 0
      = Outcome.ok (0, if ([] : List Int) = [] ∧ ([] : List Int) = [] ∧ (97 : Int) = 44
          then 0 + 1 else 0) :=
  ReadInt_no_digits [] [] [] [98, 99, 0] 97 (by decide) (by decide) (by decide)
    (fun _ => by decide)

/-- The text ",abc" begins with no decimal integer (its first character, a comma, is
neither white space, nor a sign, nor a digit), yet `ReadInt` moves the cursor from
the comma to the letter a. -/
theorem ReadInt_no_digits_comma :
    (cstring ",abc")[0]? = some 44 ∧ isspace 44 = false ∧ isdigit 44 = false
      ∧ ReadInt (cstring ",abc") 0 = Outcome.ok (0, 1)
      ∧ ReadInt (cstring ",abc") 0 ≠ Outcome.ok (0, 0) := by
  decide

/-! ## GetEndOfBlock -/

theorem fgets.take_length (n : Nat) (s : List Int) : (fgets.take n s).1.length ≤ n := by
  induction n generalizing s with
  | zero => simp [fgets.take]
  | succ n ih =>
    cases s with
    | nil => simp [fgets.take]
    | cons c s =>
      by_cases h : c = 10
      · simp [fgets.take, h]
      · simp only [fgets.take, h, if_false, List.length_cons]
        exact Nat.succ_le_succ (ih s)

theorem fgets.take_rest (n : Nat) (s : List Int) (hn : 0 < n) (hs : s ≠ []) :
    (fgets.take n s).2.length < s.length := by
  induction n generalizing s with
  | zero => omega
  | succ n ih =>
    cases s with
    | nil => exact absurd rfl hs
    | cons c s =>
      by_cases h : c = 10
      · simp [fgets.take, h]
      · simp only [fgets.take, h, if_false, List.length_cons]
        cases n with
        | zero => simp [fgets.take]
        | succ m =>
          cases s with
          | nil => simp [fgets.take]
          | cons d s => exact Nat.lt_succ_of_lt (ih (d :: s) (Nat.succ_pos m) (by simp))

theorem fgets_eq_none {buff file : List Int} (hcap : 2 ≤ buff.length)
    (h : fgets buff file = none) : file = [] := by
  unfold fgets at h
  split at h
  · rename_i h0
    rcases h0 with h0 | h0
    · omega
    · exact h0
  · cases h

theorem fgets_eq_some {buff file : List Int} {r : List Int × List Int} (hcap : 2 ≤ buff.length)
    (h : fgets buff file = some r) : r.1.length = buff.length ∧ r.2.length < file.length := by
  unfold fgets at h
  split at h
  · cases h
  · rename_i h0
    have hne : file ≠ [] := fun hf => h0 (Or.inr hf)
    have hlen := fgets.take_length (buff.length - 1) file
    have hlt := fgets.take_rest (buff.length - 1) file (by omega) hne
    simp only [Option.some.injEq] at h
    subst h
    refine ⟨?_, hlt⟩
    simp only [List.length_append, List.length_cons, List.length_drop]
    omega

theorem findTerminator_lt {s : List Int} {k : Nat} (h : findTerminator s = some k) :
    k < s.length := by
  induction s generalizing k with
  | nil => simp [findTerminator] at h
  | cons c cs ih =>
    unfold findTerminator at h
    split at h
    · cases h
    · split at h
      · cases h
        simp
      · cases hcs : findTerminator cs with
        | none => simp [hcs] at h
        | some j =>
          simp only [hcs, Option.map_some', Option.some.injEq] at h
          subst h
          simp only [List.length_cons]
          exact Nat.succ_lt_succ (ih hcs)

/-- The offset found by `findTerminator` is that of the first terminator of the string. -/
theorem findTerminator_first {s : List Int} {k : Nat} (h : findTerminator s = some k) :
    (∃ c, s[k]? = some c ∧ (c = 42 ∨ c = 37))
      ∧ ∀ j, j < k → ∃ d, s[j]? = some d ∧ d ≠ 0 ∧ d ≠ 42 ∧ d ≠ 37 := by
  induction s generalizing k with
  | nil => simp [findTerminator] at h
  | cons c cs ih =>
    unfold findTerminator at h
    split at h
    · cases h
    · rename_i hc0
      split at h
      · rename_i hct
        cases h
        exact ⟨⟨c, by simp, hct⟩, fun j hj => absurd hj (Nat.not_lt_zero j)⟩
      · rename_i hct
        cases hcs : findTerminator cs with
        | none => simp [hcs] at h
        | some i =>
          simp only [hcs, Option.map_some', Option.some.injEq] at h
          subst h
          obtain ⟨hfound, hbefore⟩ := ih hcs
          refine ⟨by simpa using hfound, ?_⟩
          intro j hj
          cases j with
          | zero => exact ⟨c, by simp, hc0, fun h => hct (Or.inl h), fun h => hct (Or.inr h)⟩
          | succ j => simpa using hbefore j (by omega)

/-- As many `fgets` calls as the stream has characters reach its end: asking for one
more line adds nothing, so `refills file.length buff file` lists every later line. -/
theorem refills_stable : ∀ (n : Nat) (buff file : List Int), 2 ≤ buff.length →
    file.length ≤ n → refills (n + 1) buff file = refills n buff file := by
  intro n
  induction n with
  | zero =>
    intro buff file _ hn
    have hfile : file = [] := List.length_eq_zero.mp (Nat.le_zero.mp hn)
    subst hfile
    simp [refills, fgets]
  | succ n ih =>
    intro buff file hcap hn
    rw [refills, refills]
    cases hfg : fgets buff file with
    | none => rfl
    | some r =>
      obtain ⟨hlen, hlt⟩ := fgets_eq_some hcap hfg
      simp only
      rw [ih r.1 r.2 (by omega) (by omega)]

/-- A terminator in the string at the cursor is reached without reading the stream. -/
theorem GetEndOfBlock_found (buff : List Int) (file : List Int) (k : Nat) :
    ∀ (fuel text : Nat), findTerminator (buff.drop text) = some k → k < fuel →
      GetEndOfBlock fuel buff text file = Outcome.ok (true, ⟨buff, text + k, file⟩) := by
  induction k with
  | zero =>
    intro fuel text h hk
    obtain ⟨m, rfl⟩ : ∃ m, fuel = m + 1 := ⟨fuel - 1, by omega⟩
    cases hb : buff[text]? with
    | none => simp [drop_of_getElem?_none hb, findTerminator] at h
    | some c =>
      rw [drop_of_getElem? hb] at h
      unfold findTerminator at h
      split at h
      · cases h
      · rename_i hc0
        split at h
        · rename_i hct
          rcases hct with rfl | rfl
          · simp [GetEndOfBlock, hb]
          · simp [GetEndOfBlock, hb]
        · cases hcs : findTerminator (buff.drop (text + 1)) with
          | none => simp [hcs] at h
          | some j => simp [hcs] at h
  | succ k ih =>
    intro fuel text h hk
    obtain ⟨m, rfl⟩ : ∃ m, fuel = m + 1 := ⟨fuel - 1, by omega⟩
    cases hb : buff[text]? with
    | none => simp [drop_of_getElem?_none hb, findTerminator] at h
    | some c =>
      rw [drop_of_getElem? hb] at h
      unfold findTerminator at h
      split at h
      · cases h
      · rename_i hc0
        split at h
        · cases h
        · rename_i hct
          cases hcs : findTerminator (buff.drop (text + 1)) with
          | none => simp [hcs] at h
          | some j =>
            simp only [hcs, Option.map_some', Option.some.injEq] at h
            have hjk : j = k := by omega
            subst hjk
            have h42 : c ≠ 42 := fun h => hct (Or.inl h)
            have h37 : c ≠ 37 := fun h => hct (Or.inr h)
            have := ih m (text + 1) hcs (by omega)
            rw [GetEndOfBlock]
            simp only [hb, hc0, h42, h37, this, ne_eq, not_false_eq_true, if_true, if_false]
            congr 3
            omega

/-- With no terminator in the string at the cursor, the scan reaches the end of the
string after `j` steps and the next step reads a line. -/
theorem GetEndOfBlock_refill (buff : List Int) (file : List Int) :
    ∀ (s : List Int) (text : Nat), buff.drop text = s → findTerminator s = none →
      ∃ j, j ≤ buff.length - text ∧ ∀ fuel, GetEndOfBlock (fuel + j + 1) buff text file =
        match fgets buff file with
        | none => Outcome.ok (false, ⟨buff, text + j, file⟩)
        | some r => GetEndOfBlock fuel r.1 0 r.2 := by
  intro s
  induction s with
  | nil =>
    intro text hs _
    have hb : buff[text]? = none := by
      rw [List.getElem?_eq_none_iff]
      by_contra hlt
      have := List.drop_eq_getElem_cons (Nat.lt_of_not_le hlt)
      rw [hs] at this
      cases this
    refine ⟨0, Nat.zero_le _, fun fuel => ?_⟩
    rw [Nat.add_zero, GetEndOfBlock]
    simp only [hb, Nat.add_zero]
  | cons c cs ih =>
    intro text hs h
    have hlt : text < buff.length := by
      by_contra hge
      rw [List.drop_of_length_le (Nat.le_of_not_lt hge)] at hs
      cases hs
    have hdrop := List.drop_eq_getElem_cons hlt
    rw [hs] at hdrop
    have hc : buff[text] = c := by
      injection hdrop with h1 h2
      exact h1.symm
    have hcs : buff.drop (text + 1) = cs := by
      injection hdrop with h1 h2
      exact h2.symm
    have hb : buff[text]? = some c := by
      rw [List.getElem?_eq_some_iff]
      exact ⟨hlt, hc⟩
    unfold findTerminator at h
    split at h
    · rename_i hc0
      refine ⟨0, Nat.zero_le _, fun fuel => ?_⟩
      rw [Nat.add_zero, GetEndOfBlock]
      simp only [hb, hc0, ne_eq, not_true_eq_false, if_false, Nat.add_zero]
    · rename_i hc0
      split at h
      · cases h
      · rename_i hct
        have h42 : c ≠ 42 := fun h => hct (Or.inl h)
        have h37 : c ≠ 37 := fun h => hct (Or.inr h)
        have hnone : findTerminator cs = none := by
          cases hf : findTerminator cs with
          | none => rfl
          | some j => simp [hf] at h
        obtain ⟨j, hj, hrun⟩ := ih (text + 1) hcs hnone
        refine ⟨j + 1, by omega, fun fuel => ?_⟩
        have := hrun fuel
        rw [show fuel + (j + 1) + 1 = (fuel + j + 1) + 1 by omega, GetEndOfBlock]
        simp only [hb, hc0, h42, h37, ne_eq, not_false_eq_true, if_true, if_false]
        rw [this, show text + (j + 1) = text + 1 + j by omega]

/-- With no terminator in the string at the cursor, the scan goes on through the later
lines: it stops in the first one that holds a terminator, or fails at the end of
the stream. -/
theorem GetEndOfBlock_later : ∀ (n : Nat) (buff : List Int) (text : Nat) (file : List Int)
    (fuel : Nat), 2 ≤ buff.length → file.length ≤ n →
    (buff.length + 1 - text) + 1 + n * (buff.length + 2) ≤ fuel →
    findTerminator (buff.drop text) = none →
    match (refills n buff file).find? hasTerminator with
    | some r => GetEndOfBlock fuel buff text file
        = Outcome.ok (true, ⟨r.1, (findTerminator r.1).getD 0, r.2⟩)
    | none => ∃ b t, GetEndOfBlock fuel buff text file = Outcome.ok (false, ⟨b, t, []⟩) := by
  intro n
  induction n with
  | zero =>
    intro buff text file fuel hcap hn hfuel hnone
    have hfile : file = [] := List.length_eq_zero.mp (Nat.le_zero.mp hn)
    subst hfile
    obtain ⟨j, hj, hrun⟩ := GetEndOfBlock_refill buff [] (buff.drop text) text rfl hnone
    have hfg : fgets buff [] = none := by simp [fgets]
    obtain ⟨m, rfl⟩ : ∃ m, fuel = m + j + 1 := ⟨fuel - j - 1, by omega⟩
    simp only [refills, List.find?_nil]
    refine ⟨buff, text + j, ?_⟩
    rw [hrun m, hfg]
  | succ n ih =>
    intro buff text file fuel hcap hn hfuel hnone
    obtain ⟨j, hj, hrun⟩ := GetEndOfBlock_refill buff file (buff.drop text) text rfl hnone
    obtain ⟨m, rfl⟩ : ∃ m, fuel = m + j + 1 := ⟨fuel - j - 1, by omega⟩
    have hm : (n + 1) * (buff.length + 2) ≤ m := by omega
    rw [Nat.succ_mul] at hm
    cases hfg : fgets buff file with
    | none =>
      have hfile := fgets_eq_none hcap hfg
      subst hfile
      simp only [refills, hfg, List.find?_nil]
      refine ⟨buff, text + j, ?_⟩
      rw [hrun m, hfg]
    | some r =>
      obtain ⟨hlen, hlt⟩ := fgets_eq_some hcap hfg
      have hstep : GetEndOfBlock (m + j + 1) buff text file = GetEndOfBlock m r.1 0 r.2 := by
        rw [hrun m, hfg]
      simp only [refills, hfg]
      cases hr : findTerminator r.1 with
      | some k =>
        have hp : hasTerminator r = true := by simp [hasTerminator, hr]
        rw [List.find?_cons_of_pos _ hp]
        have hk := findTerminator_lt hr
        have := GetEndOfBlock_found r.1 r.2 k m 0 (by simpa using hr) (by omega)
        simp only [hstep, this, hr, Option.getD_some, Nat.zero_add]
      | none =>
        have hp : ¬ hasTerminator r = true := by simp [hasTerminator, hr]
        rw [List.find?_cons_of_neg _ hp]
        have := ih r.1 0 r.2 m (by omega) (by omega) (by rw [hlen]; omega) (by simpa using hr)
        rw [hstep]
        exact this

/-- C5: with a buffer of at least two characters and enough fuel, `GetEndOfBlock`
returns, and it returns true exactly when a `*` or `%` stands in the string at the
cursor or in a later line of the stream.  A terminator at offset `k` of the string
at the cursor (`k = 0` when the cursor is already on one) leaves the cursor on it
with the buffer and the stream untouched; otherwise the cursor rests on the first
terminator of the first later line that holds one; false comes with the stream
exhausted. -/
theorem GetEndOfBlock_finds (buff : List Int) (text : Nat) (file : List Int) (fuel : Nat)
    (hcap : 2 ≤ buff.length) (hfuel : (buff.length + 2) * (file.length + 1) ≤ fuel) :
    ∃ res, GetEndOfBlock fuel buff text file = Outcome.ok res
      ∧ (res.1 = true ↔ ((findTerminator (buff.drop text)).isSome
            ∨ ∃ r ∈ refills file.length buff file, (findTerminator r.1).isSome))
      ∧ (∀ k, findTerminator (buff.drop text) = some k → res = (true, ⟨buff, text + k, file⟩))
      ∧ (findTerminator (buff.drop text) = none →
          ∀ r k, (refills file.length buff file).find? hasTerminator = some r →
            findTerminator r.1 = some k → res = (true, ⟨r.1, k, r.2⟩))
      ∧ (res.1 = false → res.2.file = []) := by
  have hmul : (buff.length + 2) * (file.length + 1)
      = file.length * (buff.length + 2) + (buff.length + 2) := by
    rw [Nat.mul_succ, Nat.mul_comm]
  cases hcur : findTerminator (buff.drop text) with
  | some k =>
    have hk := findTerminator_lt hcur
    have hklen : k < buff.length + 2 := by
      simp only [List.length_drop] at hk
      omega
    have hrun := GetEndOfBlock_found buff file k fuel text hcur (by omega)
    refine ⟨_, hrun, by simp, ?_, by simp, by simp⟩
    intro k1 hk1
    cases hk1
    rfl
  | none =>
    have hlater := GetEndOfBlock_later file.length buff text file fuel hcap (Nat.le_refl _)
      (by omega) hcur
    cases hfind : (refills file.length buff file).find? hasTerminator with
    | some r =>
      rw [hfind] at hlater
      have hp : hasTerminator r = true := List.find?_some hfind
      have hmem : r ∈ refills file.length buff file := List.mem_of_find?_eq_some hfind
      refine ⟨_, hlater, ?_, by simp, ?_, by simp⟩
      · simp only [true_iff]
        exact Or.inr ⟨r, hmem, hp⟩
      · intro _ r1 k hr1 hk
        cases hr1
        simp [hk]
    | none =>
      rw [hfind] at hlater
      obtain ⟨b, t, hrun⟩ := hlater
      rw [List.find?_eq_none] at hfind
      refine ⟨_, hrun, ?_, by simp, by simp, by simp⟩
      simp only [Bool.false_eq_true, Option.isSome_none, false_or, false_iff, not_exists,
        not_and]
      intro r hr
      have := hfind r hr
      simpa [hasTerminator] using this

/-- In a buffer of three characters holding "ab", with "cd", a newline and "x*y" still
in the stream, the scan ends on the `*` of the line "x*" (read in two-character
pieces), with "y" left in the stream. -/
theorem GetEndOfBlock_finds_witness :
    GetEndOfBlock 40 (cstring "ab") 0 (chars "cd\nx*y")
      = Outcome.ok (true, ⟨cstring "x*", 1, chars "y"⟩) := by
  obtain ⟨res, hrun, _, _, hlater, _⟩ :=
    GetEndOfBlock_finds (cstring "ab") 0 (chars "cd\nx*y") 40 (by decide) (by decide)
  rw [hrun, hlater (by decide) (cstring "x*", chars "y") 1 (by decide) (by decide)]

/-! ## ReadRS274XCommand -/

/-- C7 (the code at the failing inputs): with a `*` after the command, the dispatcher
returns true for `AXIS_SELECT`, for `MIRROR_IMAGE`, for the unknown code of "ZZ" and
for the sentinel -1 of a failed code read, because the result of `GetEndOfBlock`
replaces the flag that these cases cleared. -/
theorem ExecuteRS274XCommand_unsupported_returns_true :
    ExecuteRS274XCommand (exactEnv noFiles) 9 AXIS_SELECT ⟨cstring "%AS*%", 3, GERBER.init ℚ []⟩
        = Outcome.ok (true, ⟨cstring "%AS*%", 3, GERBER.init ℚ []⟩)
      ∧ ExecuteRS274XCommand (exactEnv noFiles) 9 MIRROR_IMAGE
          ⟨cstring "%MIA0B1*%", 3, GERBER.init ℚ []⟩
        = Outcome.ok (true, ⟨cstring "%MIA0B1*%", 7, GERBER.init ℚ []⟩)
      ∧ ExecuteRS274XCommand (exactEnv noFiles) 9 (CODE 90 90)
          ⟨cstring "%ZZ*%", 3, GERBER.init ℚ []⟩
        = Outcome.ok (true, ⟨cstring "%ZZ*%", 3, GERBER.init ℚ []⟩)
      ∧ ExecuteRS274XCommand (exactEnv noFiles) 9 (-1) ⟨cstring "%Z", 2, GERBER.init ℚ [42]⟩
        = Outcome.ok (true, ⟨[42, 0, 0], 0, GERBER.init ℚ []⟩)
      ∧ ExecuteRS274XCommand.cases (exactEnv noFiles) 9 AXIS_SELECT
          ⟨cstring "%AS*%", 3, GERBER.init ℚ []⟩
        = Outcome.ok (false, ⟨cstring "%AS*%", 3, GERBER.init ℚ []⟩) := by
  decide

/-! ## Resynchronisation after an unknown command -/

/-- A code without a case of its own takes the default branch of the switch. -/
theorem ExecuteRS274XCommand.cases_unknown (E : Env) (fuel : Nat) (command : Int)
    (r : Reader E.D) (h : command ∉ handledCodes) :
    ExecuteRS274XCommand.cases E fuel command r = Outcome.ok (false, r) := by
  simp only [handledCodes, List.mem_cons, List.mem_singleton, List.not_mem_nil, or_false,
    not_or] at h
  obtain ⟨h1, h2, h3, h4, h5, h6, h7, h8, h9, h10, h11, h12, h13, h14, h15, h16, h17, h18,
    h19, h20⟩ := h
  simp only [ExecuteRS274XCommand.cases, h1, h2, h3, h4, h5, h6, h7, h8, h9, h10, h11, h12,
    h13, h14, h15, h16, h17, h18, h19, h20, if_false, or_self]

theorem findTerminator_junk (junk rest : List Int)
    (hjunk : ∀ j ∈ junk, j ≠ 0 ∧ j ≠ 42 ∧ j ≠ 37) :
    findTerminator (junk ++ 42 :: rest) = some junk.length := by
  induction junk with
  | nil => simp [findTerminator]
  | cons j junk ih =>
    obtain ⟨h0, h42, h37⟩ := hjunk j (List.mem_cons_self _ _)
    have hrest := ih (fun x hx => hjunk x (List.mem_cons_of_mem _ hx))
    simp [findTerminator, h0, h42, h37, hrest]

/-- C8: when the driver stands on an unknown two-character code that is followed,
after characters `junk` that are neither NUL nor terminators, by a `*`, it does
not abort: it goes on from the character after that `*`, with the interpreter
unchanged and its flag still true, so that the command that follows is dispatched
as it would be anywhere else in a block. -/
theorem ReadRS274XCommand_resync (E : Env) (fuel : Nat) (pre junk rest : List Int)
    (c1 c2 : Int) (g : GERBER E.D)
    (hc1 : c1 ≠ 0 ∧ c1 ≠ 37 ∧ c1 ≠ 32 ∧ c1 ≠ 13 ∧ c1 ≠ 10 ∧ c1 ≠ 42) (hc2 : c2 ≠ 0)
    (hunknown : CODE c1 c2 ∉ handledCodes)
    (hjunk : ∀ j ∈ junk, j ≠ 0 ∧ j ≠ 42 ∧ j ≠ 37) (hfuel : junk.length ≤ fuel) :
    ReadRS274XCommand.loop E (fuel + 2)
        ⟨pre ++ (c1 :: c2 :: (junk ++ 42 :: rest)), pre.length, g⟩ true
      = ReadRS274XCommand.loop E fuel
        ⟨pre ++ (c1 :: c2 :: (junk ++ 42 :: rest)), pre.length + 2 + junk.length + 1, g⟩
        true := by
  obtain ⟨n0, n37, n32, n13, n10, n42⟩ := hc1
  generalize hb : pre ++ (c1 :: c2 :: (junk ++ 42 :: rest)) = buff
  have hg1 : buff[pre.length]? = some c1 := by
    rw [← hb, List.getElem?_append_right (Nat.le_refl _), Nat.sub_self]
    simp
  have hg2 : buff[pre.length + 1]? = some c2 := by
    rw [← hb, List.getElem?_append_right (by omega), Nat.add_sub_cancel_left]
    simp
  have hdrop : buff.drop (pre.length + 2) = junk ++ 42 :: rest := by
    rw [← hb, List.drop_append]
    rfl
  have hstar : buff[pre.length + 2 + junk.length]? = some 42 := by
    rw [← List.getElem?_drop, hdrop, List.getElem?_append_right (Nat.le_refl _), Nat.sub_self]
    simp
  have hread : ReadXCommand buff pre.length = Outcome.ok (CODE c1 c2, pre.length + 2) := by
    simp [ReadXCommand, peek, hg1, hg2, n0, hc2, CODE]
  have hscan := GetEndOfBlock_found buff g.m_Current_File junk.length (fuel + 1)
    (pre.length + 2) (by rw [hdrop]; exact findTerminator_junk junk rest hjunk) (by omega)
  have hexec : ExecuteRS274XCommand E (fuel + 1) (CODE c1 c2) ⟨buff, pre.length + 2, g⟩
      = Outcome.ok (true, ⟨buff, pre.length + 2 + junk.length, g⟩) := by
    simp only [ExecuteRS274XCommand, ExecuteRS274XCommand.cases_unknown E _ _ _ hunknown,
      Outcome.ok_bind, hscan, Outcome.pure_eq]
  rw [ReadRS274XCommand.loop]
  simp only [peek_of_getElem? hg1, Outcome.ok_bind, n0, n37, n32, n13, n10, n42, ne_eq,
    not_false_eq_true, if_true, if_false, or_self, hread, hexec, Bool.not_true,
    Bool.false_eq_true]
  rw [ReadRS274XCommand.loop]
  simp only [peek_of_getElem? hstar, Outcome.ok_bind, ne_eq, if_true, if_false]
  simp

/-- The block "%ZZ*MOMM*%": the unknown code ZZ is skipped, the command MOMM after the
`*` sets the metric flag and the block parse returns true. -/
theorem ReadRS274XCommand_resync_witness :
    ReadRS274XCommand (exactEnv noFiles) 10
        ⟨[37] ++ (90 :: 90 :: ([] ++ 42 :: [77, 79, 77, 77, 42, 37, 0])), 0, GERBER.init ℚ []⟩
      = Outcome.ok (true, ⟨cstring "%ZZ*MOMM*%", 10,
          { GERBER.init ℚ [] with m_CommandState := CommandState.CMD_IDLE,
                                  m_GerbMetric := true }⟩) :=
  (ReadRS274XCommand_resync (exactEnv noFiles) 8 [37] [] [77, 79, 77, 77, 42, 37, 0] 90 90
    (GERBER.init ℚ []) (by decide) (by decide) (by decide) (by decide) (by decide)).trans
    (by decide)

/-! ## Format Statement -/

theorem FormatStatement_star (E : Env) (n : Nat) (buff : List Int) (text : Nat)
    (g : GERBER E.D) (ok : Bool) (h : buff[text]? = some 42) :
    FormatStatement E (n + 1) ⟨buff, text, g⟩ ok = Outcome.ok (ok, ⟨buff, text, g⟩) := by
  rw [FormatStatement]
  simp [peek, h]

theorem FormatStatement_L (E : Env) (n : Nat) (buff : List Int) (text : Nat)
    (g : GERBER E.D) (ok : Bool) (h : buff[text]? = some 76) :
    FormatStatement E (n + 1) ⟨buff, text, g⟩ ok
      = FormatStatement E n ⟨buff, text + 1, { g with m_NoTrailingZeros := false }⟩ ok := by
  rw [FormatStatement]
  simp [peek, h]

theorem FormatStatement_T (E : Env) (n : Nat) (buff : List Int) (text : Nat)
    (g : GERBER E.D) (ok : Bool) (h : buff[text]? = some 84) :
    FormatStatement E (n + 1) ⟨buff, text, g⟩ ok
      = FormatStatement E n ⟨buff, text + 1, { g with m_NoTrailingZeros := true }⟩ ok := by
  rw [FormatStatement]
  simp [peek, h]

theorem FormatStatement_A (E : Env) (n : Nat) (buff : List Int) (text : Nat)
    (g : GERBER E.D) (ok : Bool) (h : buff[text]? = some 65) :
    FormatStatement E (n + 1) ⟨buff, text, g⟩ ok
      = FormatStatement E n ⟨buff, text + 1, { g with m_Relative := false }⟩ ok := by
  rw [FormatStatement]
  simp [peek, h]

theorem FormatStatement_I (E : Env) (n : Nat) (buff : List Int) (text : Nat)
    (g : GERBER E.D) (ok : Bool) (h : buff[text]? = some 73) :
    FormatStatement E (n + 1) ⟨buff, text, g⟩ ok
      = FormatStatement E n ⟨buff, text + 1, { g with m_Relative := true }⟩ ok := by
  rw [FormatStatement]
  simp [peek, h]

theorem FormatStatement_X (E : Env) (n : Nat) (buff : List Int) (text : Nat)
    (g : GERBER E.D) (ok : Bool) (c1 c2 : Int) (h : buff[text]? = some 88)
    (h1 : buff[text + 1]? = some c1) (h2 : buff[text + 2]? = some c2) :
    FormatStatement E (n + 1) ⟨buff, text, g⟩ ok
      = FormatStatement E n ⟨buff, text + 3, { g with
          m_FmtScale := { g.m_FmtScale with x := c2 - 48 },
          m_FmtLen := { g.m_FmtLen with x := toChar (c1 - 48) + (c2 - 48) } }⟩ ok := by
  rw [FormatStatement]
  simp [peek, h, h1, h2]

theorem FormatStatement_Y (E : Env) (n : Nat) (buff : List Int) (text : Nat)
    (g : GERBER E.D) (ok : Bool) (c1 c2 : Int) (h : buff[text]? = some 89)
    (h1 : buff[text + 1]? = some c1) (h2 : buff[text + 2]? = some c2) :
    FormatStatement E (n + 1) ⟨buff, text, g⟩ ok
      = FormatStatement E n ⟨buff, text + 3, { g with
          m_FmtScale := { g.m_FmtScale with y := c2 - 48 },
          m_FmtLen := { g.m_FmtLen with y := toChar (c1 - 48) + (c2 - 48) } }⟩ ok := by
  rw [FormatStatement]
  simp [peek, h, h1, h2]

/-- With the cursor on a terminator, `GetEndOfBlock` returns true and changes nothing. -/
theorem GetEndOfBlock_on_terminator (n : Nat) (buff : List Int) (text : Nat) (file : List Int)
    (c : Int) (h : buff[text]? = some c) (hc : c = 42 ∨ c = 37) :
    GetEndOfBlock (n + 1) buff text file = Outcome.ok (true, ⟨buff, text, file⟩) := by
  rw [GetEndOfBlock]
  rcases hc with rfl | rfl <;> simp [h]

/-- C9: dispatching `FORMAT_STATEMENT` on the text `z m X a b Y c d *`, where `z` is
`L` or `T`, `m` is `A` or `I` and `a b c d` are decimal digits, returns true with the
cursor on the `*` and with `m_NoTrailingZeros` true exactly for `T`, `m_Relative`
true exactly for `I`, `m_FmtScale = (b, d)` and `m_FmtLen = (a + b, c + d)`, so the
integer digits are `a` and `c`; every other member keeps its value, and the four
members written do not depend on the prior state.  (For `b` and `d` the result
holds for any character value, digit or not.) -/
theorem FormatStatement_result (E : Env) (fuel : Nat) (r : Reader E.D) (z m a b c d : Int)
    (rest : List Int)
    (htext : r.buff.drop r.text
      = z :: m :: 88 :: (48 + a) :: (48 + b) :: 89 :: (48 + c) :: (48 + d) :: 42 :: rest)
    (hz : z = 76 ∨ z = 84) (hm : m = 65 ∨ m = 73)
    (ha : 0 ≤ a ∧ a ≤ 9) (hc : 0 ≤ c ∧ c ≤ 9) (hfuel : 5 ≤ fuel) :
    ExecuteRS274XCommand E fuel FORMAT_STATEMENT r
      = Outcome.ok (true, { r with text := r.text + 8, g := { r.g with
          m_NoTrailingZeros := decide (z = 84), m_Relative := decide (m = 73),
          m_FmtScale := ⟨b, d⟩, m_FmtLen := ⟨a + b, c + d⟩ } }) := by
  obtain ⟨n, rfl⟩ : ∃ n, fuel = n + 1 + 1 + 1 + 1 + 1 := ⟨fuel - 5, by omega⟩
  obtain ⟨buff, text, g⟩ := r
  simp only at htext
  have hget : ∀ i : Nat, buff[text + i]?
      = (z :: m :: 88 :: (48 + a) :: (48 + b) :: 89 :: (48 + c) :: (48 + d) :: 42 :: rest)[i]? := by
    intro i
    rw [← htext, List.getElem?_drop]
  have h0 := hget 0
  have h1 := hget 1
  have h2 := hget 2
  have h3 := hget 3
  have h4 := hget 4
  have h5 := hget 5
  have h6 := hget 6
  have h7 := hget 7
  have h8 := hget 8
  simp only [Nat.add_zero, List.getElem?_cons_zero, List.getElem?_cons_succ]
    at h0 h1 h2 h3 h4 h5 h6 h7 h8
  have ta : toChar a = a := toChar_of_fits (by omega) (by omega)
  have tc : toChar c = c := toChar_of_fits (by omega) (by omega)
  have hend := GetEndOfBlock_on_terminator (n + 1 + 1 + 1 + 1) buff (text + 8)
    g.m_Current_File 42 h8 (Or.inl rfl)
  have hX := fun g1 => FormatStatement_X E (n + 1 + 1) buff (text + 2) g1 true _ _ h2 h3 h4
  have hY := fun g1 => FormatStatement_Y E (n + 1) buff (text + 5) g1 true _ _ h5 h6 h7
  have hS := fun g1 => FormatStatement_star E n buff (text + 8) g1 true h8
  simp only [ExecuteRS274XCommand, ExecuteRS274XCommand.cases, if_true]
  rcases hz with rfl | rfl <;> rcases hm with rfl | rfl
  · rw [FormatStatement_L E _ buff text g true h0, FormatStatement_A E _ buff (text + 1) _ true h1,
      hX, hY, hS]
    simp [hend, ta, tc]
  · rw [FormatStatement_L E _ buff text g true h0, FormatStatement_I E _ buff (text + 1) _ true h1,
      hX, hY, hS]
    simp [hend, ta, tc]
  · rw [FormatStatement_T E _ buff text g true h0, FormatStatement_A E _ buff (text + 1) _ true h1,
      hX, hY, hS]
    simp [hend, ta, tc]
  · rw [FormatStatement_T E _ buff text g true h0, FormatStatement_I E _ buff (text + 1) _ true h1,
      hX, hY, hS]
    simp [hend, ta, tc]

/-- The text "FSLAX24Y24*": leading zeros omitted, absolute coordinates, 4 decimal
digits and 6 - 4 = 2 integer digits on both axes. -/
theorem FormatStatement_result_witness :
    ExecuteRS274XCommand (exactEnv noFiles) 5 FORMAT_STATEMENT
        ⟨cstring "%FSLAX24Y24*%", 3, GERBER.init ℚ []⟩
      = Outcome.ok (true, ⟨cstring "%FSLAX24Y24*%", 11, { GERBER.init ℚ [] with
          m_NoTrailingZeros := false, m_Relative := false,
          m_FmtScale := ⟨4, 4⟩, m_FmtLen := ⟨6, 6⟩ }⟩) :=
  FormatStatement_result (exactEnv noFiles) 5 ⟨cstring "%FSLAX24Y24*%", 3, GERBER.init ℚ []⟩
    76 65 2 4 2 4 [37, 0] (by decide) (by decide) (by decide) (by decide) (by decide)
    (by decide)

/-! ## Mode of Units -/

/-- The `MODE_OF_UNITS` case on a two-character token followed by `*`. -/
theorem ModeOfUnits_dispatch (E : Env) (n : Nat) (buff : List Int) (text : Nat)
    (g : GERBER E.D) (c1 c2 : Int) (h1 : buff[text]? = some c1)
    (h2 : buff[text + 1]? = some c2) (h3 : buff[text + 2]? = some 42)
    (n1 : c1 ≠ 0) (n2 : c2 ≠ 0) :
    ExecuteRS274XCommand E (n + 1) MODE_OF_UNITS ⟨buff, text, g⟩
      = Outcome.ok (true, ⟨buff, text + 2, { g with m_GerbMetric :=
          (if (CODE c1 c2 = INCH) then false
           else if (CODE c1 c2 = MILLIMETER) then true else g.m_GerbMetric) }⟩) := by
  have hread : ReadXCommand buff text = Outcome.ok (CODE c1 c2, text + 2) := by
    simp [ReadXCommand, peek, h1, h2, n1, n2, CODE]
  have hend := fun f => GetEndOfBlock_on_terminator n buff (text + 2) f 42 h3 (Or.inl rfl)
  have hcase : ExecuteRS274XCommand.cases E (n + 1) MODE_OF_UNITS ⟨buff, text, g⟩
      = Outcome.ok (true, ⟨buff, text + 2, { g with m_GerbMetric :=
          (if (CODE c1 c2 = INCH) then false
           else if (CODE c1 c2 = MILLIMETER) then true else g.m_GerbMetric) }⟩) := by
    have d1 : MODE_OF_UNITS ≠ FORMAT_STATEMENT := by decide
    have d2 : MODE_OF_UNITS ≠ AXIS_SELECT := by decide
    have d3 : MODE_OF_UNITS ≠ MIRROR_IMAGE := by decide
    simp only [ExecuteRS274XCommand.cases, d1, d2, d3, if_false, or_self, if_true, hread,
      Outcome.ok_bind, Outcome.pure_eq]
  simp only [ExecuteRS274XCommand, hcase, Outcome.ok_bind, hend, Outcome.pure_eq]

/-- The driver steps over a `*`. -/
theorem ReadRS274XCommand.loop_star (E : Env) (n : Nat) (buff : List Int) (text : Nat)
    (g : GERBER E.D) (ok : Bool) (h : buff[text]? = some 42) :
    ReadRS274XCommand.loop E (n + 1) ⟨buff, text, g⟩ ok
      = ReadRS274XCommand.loop E n ⟨buff, text + 1, g⟩ ok := by
  rw [ReadRS274XCommand.loop]
  simp [peek, h]

/-- The driver dispatches the command at the cursor and goes on when it succeeds. -/
theorem ReadRS274XCommand.loop_command (E : Env) (n : Nat) (buff : List Int) (text : Nat)
    (g : GERBER E.D) (ok : Bool) (c : Int) (code : Int) (t2 : Nat) (r1 : Reader E.D)
    (h : buff[text]? = some c)
    (hc : c ≠ 0 ∧ c ≠ 37 ∧ c ≠ 32 ∧ c ≠ 13 ∧ c ≠ 10 ∧ c ≠ 42)
    (hread : ReadXCommand buff text = Outcome.ok (code, t2))
    (hexec : ExecuteRS274XCommand E n code ⟨buff, t2, g⟩ = Outcome.ok (true, r1)) :
    ReadRS274XCommand.loop E (n + 1) ⟨buff, text, g⟩ ok
      = ReadRS274XCommand.loop E n r1 true := by
  obtain ⟨n0, n37, n32, n13, n10, n42⟩ := hc
  rw [ReadRS274XCommand.loop]
  simp only [peek_of_getElem? h, Outcome.ok_bind, n0, n37, n32, n13, n10, n42, ne_eq,
    not_false_eq_true, if_true, if_false, or_self, hread, hexec, Bool.not_true,
    Bool.false_eq_true]

/-- C10: for every prior state, dispatching `MODE_OF_UNITS` on "MM*" leaves the metric
flag true and on "IN*" leaves it false; a token `c1 c2` that is neither leaves the
flag as it was; and the driver, after "MOIN*MOMM*", goes on with the metric flag
true, for which the scale that the next command computes is
`PCB_INTERNAL_UNIT / 25.4`, whatever the flag and the scale were before. -/
theorem ModeOfUnits_own_token (E : Env) (n : Nat) (pre rest : List Int) (g : GERBER E.D)
    (c1 c2 : Int) (n1 : c1 ≠ 0) (n2 : c2 ≠ 0)
    (hIN : CODE c1 c2 ≠ INCH) (hMM : CODE c1 c2 ≠ MILLIMETER) :
    ExecuteRS274XCommand E (n + 1) MODE_OF_UNITS ⟨pre ++ 77 :: 77 :: 42 :: rest, pre.length, g⟩
        = Outcome.ok (true, ⟨pre ++ 77 :: 77 :: 42 :: rest, pre.length + 2,
            { g with m_GerbMetric := true }⟩)
      ∧ ExecuteRS274XCommand E (n + 1) MODE_OF_UNITS
          ⟨pre ++ 73 :: 78 :: 42 :: rest, pre.length, g⟩
        = Outcome.ok (true, ⟨pre ++ 73 :: 78 :: 42 :: rest, pre.length + 2,
            { g with m_GerbMetric := false }⟩)
      ∧ ExecuteRS274XCommand E (n + 1) MODE_OF_UNITS
          ⟨pre ++ c1 :: c2 :: 42 :: rest, pre.length, g⟩
        = Outcome.ok (true, ⟨pre ++ c1 :: c2 :: 42 :: rest, pre.length + 2, g⟩)
      ∧ ReadRS274XCommand.loop E (n + 4)
          ⟨pre ++ (77 :: 79 :: 73 :: 78 :: 42 :: 77 :: 79 :: 77 :: 77 :: 42 :: rest),
            pre.length, g⟩ true
        = ReadRS274XCommand.loop E n
          ⟨pre ++ (77 :: 79 :: 73 :: 78 :: 42 :: 77 :: 79 :: 77 :: 77 :: 42 :: rest),
            pre.length + 10, { g with m_GerbMetric := true }⟩ true
      ∧ conv_scale E ({ g with m_GerbMetric := true } : GERBER E.D).m_GerbMetric
        = E.div (E.ofInt E.PCB_INTERNAL_UNIT) E.d25_4 := by
  have hget : ∀ (l : List Int) (i : Nat) (c : Int), l[i]? = some c →
      ∀ t : Nat, t = pre.length + i → (pre ++ l)[t]? = some c := by
    intro l i c hl t ht
    rw [ht, List.getElem?_append_right (by omega), Nat.add_sub_cancel_left]
    exact hl
  refine ⟨?_, ?_, ?_, ?_, rfl⟩
  · have h := ModeOfUnits_dispatch E n (pre ++ 77 :: 77 :: 42 :: rest) pre.length g 77 77
      (hget _ 0 _ (by simp) _ rfl) (hget _ 1 _ (by simp) _ rfl) (hget _ 2 _ (by simp) _ rfl)
      (by decide) (by decide)
    rw [h]
    rfl
  · have h := ModeOfUnits_dispatch E n (pre ++ 73 :: 78 :: 42 :: rest) pre.length g 73 78
      (hget _ 0 _ (by simp) _ rfl) (hget _ 1 _ (by simp) _ rfl) (hget _ 2 _ (by simp) _ rfl)
      (by decide) (by decide)
    rw [h]
    rfl
  · have h := ModeOfUnits_dispatch E n (pre ++ c1 :: c2 :: 42 :: rest) pre.length g c1 c2
      (hget _ 0 _ (by simp) _ rfl) (hget _ 1 _ (by simp) _ rfl) (hget _ 2 _ (by simp) _ rfl)
      n1 n2
    rw [h]
    simp only [hIN, hMM, if_false]
  · generalize hb : pre ++ (77 :: 79 :: 73 :: 78 :: 42 :: 77 :: 79 :: 77 :: 77 :: 42 :: rest)
      = buff
    have hg : ∀ (i : Nat) (c : Int),
        (77 :: 79 :: 73 :: 78 :: 42 :: 77 :: 79 :: 77 :: 77 :: 42 :: rest)[i]? = some c →
        ∀ t : Nat, t = pre.length + i → buff[t]? = some c := by
      intro i c hl t ht
      rw [← hb]
      exact hget _ i c hl t ht
    have hread : ∀ t : Nat, buff[t]? = some 77 → buff[t + 1]? = some 79 →
        ReadXCommand buff t = Outcome.ok (MODE_OF_UNITS, t + 2) := by
      intro t h1 h2
      simp [ReadXCommand, peek, h1, h2, MODE_OF_UNITS, CODE]
    have a0 := hg 0 77 (by simp) pre.length rfl
    have a1 := hg 1 79 (by simp) (pre.length + 1) rfl
    have a2 := hg 2 73 (by simp) (pre.length + 2) rfl
    have a3 := hg 3 78 (by simp) (pre.length + 2 + 1) (by omega)
    have a4 := hg 4 42 (by simp) (pre.length + 2 + 2) (by omega)
    have a5 := hg 5 77 (by simp) (pre.length + 2 + 2 + 1) (by omega)
    have a6 := hg 6 79 (by simp) (pre.length + 2 + 2 + 1 + 1) (by omega)
    have a7 := hg 7 77 (by simp) (pre.length + 2 + 2 + 1 + 2) (by omega)
    have a8 := hg 8 77 (by simp) (pre.length + 2 + 2 + 1 + 2 + 1) (by omega)
    have a9 := hg 9 42 (by simp) (pre.length + 2 + 2 + 1 + 2 + 2) (by omega)
    have e1 := ModeOfUnits_dispatch E (n + 2) buff (pre.length + 2) g 73 78
      a2 a3 a4 (by decide) (by decide)
    have e2 := ModeOfUnits_dispatch E n buff (pre.length + 2 + 2 + 1 + 2)
      { g with m_GerbMetric := false } 77 77 a7 a8 a9 (by decide) (by decide)
    have q1 : CODE 73 78 = INCH := by decide
    have q2 : CODE 77 77 ≠ INCH := by decide
    have q3 : CODE 77 77 = MILLIMETER := by decide
    rw [if_pos q1] at e1
    rw [if_neg q2, if_pos q3] at e2
    refine (ReadRS274XCommand.loop_command E (n + 3) buff pre.length g true 77 _ _ _ a0
      (by decide) (hread _ a0 a1) e1).trans ?_
    refine (ReadRS274XCommand.loop_star E (n + 2) buff (pre.length + 2 + 2) _ true a4).trans ?_
    refine (ReadRS274XCommand.loop_command E (n + 1) buff (pre.length + 2 + 2 + 1) _ true 77
      _ _ _ a5 (by decide) (hread _ a5 a6) e2).trans ?_
    exact ReadRS274XCommand.loop_star E n buff (pre.length + 2 + 2 + 1 + 2 + 2) _ true a9

/-- The block "%MOIN*MOMM*%" read from a state whose metric flag was false: the flag
ends true and the block parse returns true. -/
theorem ModeOfUnits_own_token_witness :
    ReadRS274XCommand (exactEnv noFiles) 6
        ⟨[37] ++ (77 :: 79 :: 73 :: 78 :: 42 :: 77 :: 79 :: 77 :: 77 :: 42 :: [37, 0]), 0,
          GERBER.init ℚ []⟩
      = Outcome.ok (true, ⟨cstring "%MOIN*MOMM*%", 12,
          { GERBER.init ℚ [] with m_CommandState := CommandState.CMD_IDLE,
                                  m_GerbMetric := true }⟩) :=
  (ModeOfUnits_own_token (exactEnv noFiles) 2 [37] [37, 0] (GERBER.init ℚ []) 88 89
    (by decide) (by decide) (by decide) (by decide)).2.2.2.1.trans (by decide)

/-! ## Helper facts on positions in the buffer -/

theorem drop_append_step {buff a b : List Int} {t : Nat} (h : buff.drop t = a ++ b) :
    buff.drop (t + a.length) = b := by
  rw [← List.drop_drop, h, List.drop_left]

theorem getElem?_of_drop {buff b : List Int} {t : Nat} {c : Int} (h : buff.drop t = c :: b) :
    buff[t]? = some c := by
  have := List.getElem?_drop buff t 0
  rw [h] at this
  simpa using this.symm

theorem drop_succ_of_drop {buff b : List Int} {t : Nat} {c : Int} (h : buff.drop t = c :: b) :
    buff.drop (t + 1) = b := by
  have := drop_append_step (a := [c]) (b := b) (by simpa using h)
  simpa using this

theorem le_length_of_drop {buff b : List Int} {t : Nat} {c : Int} (h : buff.drop t = c :: b) :
    t ≤ buff.length := by
  by_contra hlt
  rw [List.drop_of_length_le (by omega)] at h
  cases h

theorem cstr_append (a b : List Int) (ha : ∀ x ∈ a, x ≠ 0) :
    cstr (a ++ b) = (cstr b).map (fun s => a ++ s) := by
  induction a with
  | nil => simp
  | cons x a ih =>
    have hx : x ≠ 0 := ha x (List.mem_cons_self _ _)
    have := ih (fun y hy => ha y (List.mem_cons_of_mem _ hy))
    rw [List.cons_append, cstr, if_neg hx, this, Option.map_map]
    rfl

theorem cstr_of_mem (l : List Int) (h : (0 : Int) ∈ l) : ∃ s, cstr l = some s := by
  induction l with
  | nil => cases h
  | cons x l ih =>
    by_cases hx : x = 0
    · exact ⟨[], by simp [cstr, hx]⟩
    · have hmem : (0 : Int) ∈ l := by
        rcases List.mem_cons.mp h with h0 | h0
        · exact absurd h0.symm hx
        · exact h0
      obtain ⟨s, hs⟩ := ih hmem
      exact ⟨x :: s, by simp [cstr, hx, hs]⟩

/-- `ReadInt` on a digit string followed by a character that is no digit. -/
theorem ReadInt_digits (buff : List Int) (t : Nat) (ds rest : List Int) (c : Int)
    (h : buff.drop t = ds ++ c :: rest)
    (hne : ds ≠ []) (hds : ∀ d ∈ ds, isdigit d = true) (hc : isdigit c = false)
    (hfit : (digitsValue ds : Int) ≤ 2147483647) :
    ReadInt buff t
      = Outcome.ok ((digitsValue ds : Int), t + ds.length + (if c = 44 then 1 else 0)) := by
  have hst := strtol_number [] [] ds rest c (by simp) (Or.inl rfl) hne hds hc
  simp only [List.nil_append, List.length_nil, Nat.zero_add, List.nil_eq, reduceCtorEq,
    if_false] at hst
  have hle : t ≤ buff.length := by
    obtain ⟨d, ds1, rfl⟩ := List.exists_cons_of_ne_nil hne
    exact le_length_of_drop (by simpa using h)
  have hclamp : max LONG_MIN (min LONG_MAX (digitsValue ds : Int)) = (digitsValue ds : Int) := by
    simp only [LONG_MIN, LONG_MAX]
    omega
  have hpk : peek buff (t + ds.length) = Outcome.ok c :=
    peek_of_getElem? (getElem?_of_drop (drop_append_step h))
  simp only [ReadInt, hle, if_true, h, hst, hclamp, hpk,
    toInt32_of_fits (v := (digitsValue ds : Int)) (by omega) hfit]
  by_cases h44 : c = 44 <;> simp [h44]

/-- `ReadDouble` on a numeral followed by a comma or a `*`. -/
theorem ReadDouble_numeral (E : Env) (buff : List Int) (t : Nat) (nt tail : List Int)
    (c : Int) (v : E.D) (h : buff.drop t = nt ++ c :: tail) (hv : IsNumeral E nt v)
    (hc : c = 44 ∨ c = 42) (hnul : (0 : Int) ∈ tail) :
    ReadDouble E buff t = Outcome.ok (v, t + nt.length + (if c = 44 then 1 else 0)) := by
  obtain ⟨s, hs⟩ := cstr_of_mem tail hnul
  have hc0 : c ≠ 0 := by rcases hc with rfl | rfl <;> decide
  have hcs : cstr (buff.drop t) = some (nt ++ c :: s) := by
    rw [h, cstr_append nt _ hv.noNul]
    simp [cstr, hc0, hs]
  have hpk : peek buff (t + nt.length) = Outcome.ok c :=
    peek_of_getElem? (getElem?_of_drop (drop_append_step h))
  simp only [ReadDouble, hcs, hv.reads c s hc, hpk]
  by_cases h44 : c = 44 <;> simp [h44]

/-- The switch leaves an ignored command with the flag set and nothing changed. -/
theorem ExecuteRS274XCommand.cases_ignored (E : Env) (fuel : Nat) (command : Int)
    (r : Reader E.D) (h : command ∈ ignoredCodes) :
    ExecuteRS274XCommand.cases E fuel command r = Outcome.ok (true, r) := by
  simp only [ignoredCodes, List.mem_cons, List.mem_singleton, List.not_mem_nil, or_false] at h
  rcases h with rfl | rfl | rfl | rfl | rfl | rfl | rfl | rfl | rfl <;>
    simp [ExecuteRS274XCommand.cases, SCALE_FACTOR, IMAGE_JUSTIFY, IMAGE_ROTATION, IMAGE_OFFSET,
      PLOTTER_FILM, LAYER_NAME, KNOCKOUT, STEP_AND_REPEAT, ROTATE, FORMAT_STATEMENT,
      AXIS_SELECT, MIRROR_IMAGE, MODE_OF_UNITS, OFFSET, CODE]

/-- The end of every dispatch: the scan to a terminator that stands in the buffer. -/
theorem ExecuteRS274XCommand_of_cases (E : Env) (fuel : Nat) (command : Int)
    (r s : Reader E.D) (ok : Bool) (k : Nat)
    (hcases : ExecuteRS274XCommand.cases E fuel command r = Outcome.ok (ok, s))
    (hterm : findTerminator (s.buff.drop s.text) = some k) (hfuel : k < fuel) :
    ExecuteRS274XCommand E fuel command r
      = Outcome.ok (true, { s with text := s.text + k }) := by
  have hscan := GetEndOfBlock_found s.buff s.g.m_Current_File k fuel s.text hterm hfuel
  simp only [ExecuteRS274XCommand, hcases, Outcome.ok_bind, hscan, Outcome.pure_eq]

/-- C19: for each of the codes SF, IJ, IR, IO, PM, LN, KO, SP, RO, when a `*` or `%`
stands in the text at offset `k` from the cursor, `ExecuteRS274XCommand` returns true
and the interpreter, the buffer and the stream are what they were: only the cursor
has moved, onto that terminator. -/
theorem ExecuteRS274XCommand_ignored (E : Env) (fuel : Nat) (command : Int) (r : Reader E.D)
    (k : Nat) (hcmd : command ∈ ignoredCodes)
    (hterm : findTerminator (r.buff.drop r.text) = some k) (hfuel : k < fuel) :
    ExecuteRS274XCommand E fuel command r
      = Outcome.ok (true, { r with text := r.text + k }) :=
  ExecuteRS274XCommand_of_cases E fuel command r r true k
    (ExecuteRS274XCommand.cases_ignored E fuel command r hcmd) hterm hfuel

/-- The command "SF" with the text "A1B1*": true, the cursor on the `*`, nothing else
changed. -/
theorem ExecuteRS274XCommand_ignored_witness :
    ExecuteRS274XCommand (exactEnv noFiles) 5 SCALE_FACTOR
        ⟨cstring "%SFA1B1*%", 3, GERBER.init ℚ []⟩
      = Outcome.ok (true, ⟨cstring "%SFA1B1*%", 3 + 4, GERBER.init ℚ []⟩) :=
  ExecuteRS274XCommand_ignored (exactEnv noFiles) 5 SCALE_FACTOR
    ⟨cstring "%SFA1B1*%", 3, GERBER.init ℚ []⟩ 4 (by decide) (by decide) (by decide)

/-! ## Aperture definitions -/

theorem ExecuteRS274XCommand.cases_AP_DEFINITION (E : Env) (fuel : Nat) (r : Reader E.D) :
    ExecuteRS274XCommand.cases E fuel AP_DEFINITION r
      = ApDefinition E (conv_scale E r.g.m_GerbMetric) r := by
  simp [ExecuteRS274XCommand.cases, AP_DEFINITION, SCALE_FACTOR, IMAGE_JUSTIFY, IMAGE_ROTATION,
    IMAGE_OFFSET, PLOTTER_FILM, LAYER_NAME, KNOCKOUT, STEP_AND_REPEAT, ROTATE,
    FORMAT_STATEMENT, AXIS_SELECT, MIRROR_IMAGE, MODE_OF_UNITS, OFFSET, IMAGE_NAME,
    IMAGE_POLARITY, LAYER_POLARITY, AP_MACRO, INCLUDE_FILE, CODE]

theorem ReturnToolDescr_storeTool_same (tbl : List (Int × D_CODE)) (n : Int) (d v : D_CODE)
    (h : ReturnToolDescr tbl n = some d) : ReturnToolDescr (storeTool tbl n v) n = some v := by
  induction tbl with
  | nil => simp [ReturnToolDescr] at h
  | cons e tbl ih =>
    obtain ⟨m, x⟩ := e
    by_cases hm : m = n
    · simp [storeTool, ReturnToolDescr, hm]
    · simp only [ReturnToolDescr, hm, if_false] at h
      simp [storeTool, ReturnToolDescr, hm, ih h]

theorem ReturnToolDescr_storeTool_other (tbl : List (Int × D_CODE)) (n m : Int) (v : D_CODE)
    (h : m ≠ n) : ReturnToolDescr (storeTool tbl n v) m = ReturnToolDescr tbl m := by
  induction tbl with
  | nil => simp [storeTool]
  | cons e tbl ih =>
    obtain ⟨i, x⟩ := e
    by_cases hi : i = n
    · subst hi
      have : ¬ i = m := fun h1 => h h1.symm
      simp [storeTool, ReturnToolDescr, this]
    · by_cases him : i = m
      · subst him
        simp [storeTool, ReturnToolDescr, hi]
      · simp [storeTool, ReturnToolDescr, hi, him, ih]

/-- The D-code numbers of the table are not touched by a write through a slot pointer. -/
theorem storeTool_keys (tbl : List (Int × D_CODE)) (n : Int) (v : D_CODE) :
    (storeTool tbl n v).map Prod.fst = tbl.map Prod.fst := by
  induction tbl with
  | nil => simp [storeTool]
  | cons e tbl ih =>
    obtain ⟨i, x⟩ := e
    by_cases hi : i = n
    · simp [storeTool, hi]
    · simp [storeTool, hi, ih]

/-- The `AP_DEFINITION` case on "D" and the digits of a number without a slot. -/
theorem ApDefinition_missing (E : Env) (scale : E.D) (buff : List Int) (text : Nat)
    (g : GERBER E.D) (ds rest : List Int)
    (c : Int) (htext : buff.drop text = 68 :: (ds ++ c :: rest))
    (hne : ds ≠ []) (hds : ∀ d ∈ ds, isdigit d = true) (hc : isdigit c = false)
    (hfit : (digitsValue ds : Int) ≤ 2147483647)
    (hin : c = 44 → rest ≠ [])
    (hslot : ReturnToolDescr g.m_Aperture_List (digitsValue ds) = none) :
    ApDefinition E scale ⟨buff, text, g⟩
      = Outcome.ok (true, ⟨buff, text + 1 + ds.length + (if c = 44 then 1 else 0),
          { g with m_As_DCode := true }⟩) := by
  have h0 := peek_of_getElem? (getElem?_of_drop htext)
  have hd1 := drop_succ_of_drop htext
  have hint := ReadInt_digits buff (text + 1) ds rest c hd1 hne hds hc hfit
  have hd2 : buff.drop (text + 1 + ds.length) = c :: rest := drop_append_step hd1
  have hpk : ∃ x, peek buff (text + 1 + ds.length + (if c = 44 then 1 else 0))
      = Outcome.ok x := by
    by_cases h44 : c = 44
    · obtain ⟨y, ys, hy⟩ := List.exists_cons_of_ne_nil (hin h44)
      have := drop_succ_of_drop hd2
      rw [hy] at this
      exact ⟨y, by simpa [h44] using peek_of_getElem? (getElem?_of_drop this)⟩
    · exact ⟨c, by simpa [h44] using peek_of_getElem? (getElem?_of_drop hd2)⟩
  obtain ⟨x, hx⟩ := hpk
  simp only [ApDefinition, h0, Outcome.ok_bind, ne_eq, not_true_eq_false, if_false, hint, hx,
    hslot, Outcome.pure_eq]

theorem findTerminator_comma {rest : List Int} {k : Nat}
    (h : findTerminator (44 :: rest) = some k) :
    ∃ j, findTerminator rest = some j ∧ k = j + 1 := by
  unfold findTerminator at h
  simp only [show (44 : Int) ≠ 0 by decide, if_false,
    show ¬ ((44 : Int) = 42 ∨ (44 : Int) = 37) by decide] at h
  cases hr : findTerminator rest with
  | none => simp [hr] at h
  | some j =>
    simp only [hr, Option.map_some', Option.some.injEq] at h
    exact ⟨j, rfl, h.symm⟩

/-- C12: `ExecuteRS274XCommand( AP_DEFINITION )` on a text "D", digits of a number
that has no slot in the aperture table, and further characters up to a terminator
returns true with the aperture table (and all the interpreter but the flag
`m_As_DCode`) unchanged; on a text that does not start with `D` it changes nothing
at all in the interpreter. -/
theorem ExecuteRS274XCommand_AP_missing_slot (E : Env) (fuel : Nat) (g : GERBER E.D)
    (buff : List Int) (text : Nat) (ds rest : List Int) (c : Int) (k : Nat)
    (buff0 : List Int) (text0 : Nat) (c0 : Int) (rest0 : List Int) (j : Nat)
    (htext : buff.drop text = 68 :: (ds ++ c :: rest))
    (hne : ds ≠ []) (hds : ∀ d ∈ ds, isdigit d = true) (hc : isdigit c = false)
    (hfit : (digitsValue ds : Int) ≤ 2147483647)
    (hslot : ReturnToolDescr g.m_Aperture_List (digitsValue ds) = none)
    (hterm : findTerminator (c :: rest) = some k) (hfuel : k < fuel)
    (htext0 : buff0.drop text0 = c0 :: rest0) (hc0 : c0 ≠ 68)
    (hterm0 : findTerminator (c0 :: rest0) = some j) (hfuel0 : j < fuel) :
    ExecuteRS274XCommand E fuel AP_DEFINITION ⟨buff, text, g⟩
        = Outcome.ok (true, ⟨buff, text + 1 + ds.length + k, { g with m_As_DCode := true }⟩)
      ∧ ExecuteRS274XCommand E fuel AP_DEFINITION ⟨buff0, text0, g⟩
        = Outcome.ok (true, ⟨buff0, text0 + j, g⟩) := by
  constructor
  · have hd2 : buff.drop (text + 1 + ds.length) = c :: rest :=
      drop_append_step (drop_succ_of_drop htext)
    by_cases h44 : c = 44
    · subst h44
      obtain ⟨i, hi, hk⟩ := findTerminator_comma hterm
      have hin : (44 : Int) = 44 → rest ≠ [] := by
        intro _ hr
        rw [hr] at hi
        simp [findTerminator] at hi
      have hcase := (ExecuteRS274XCommand.cases_AP_DEFINITION E fuel ⟨buff, text, g⟩).trans
        (ApDefinition_missing E (conv_scale E g.m_GerbMetric) buff text g ds rest 44
          htext hne hds hc hfit hin hslot)
      have hd3 : buff.drop (text + 1 + ds.length + 1) = rest := drop_succ_of_drop hd2
      have := ExecuteRS274XCommand_of_cases E fuel AP_DEFINITION _ _ true i hcase
        (by simpa [hd3] using hi) (by omega)
      rw [this]
      simp only [if_true, Outcome.ok.injEq, Prod.mk.injEq, true_and, Reader.mk.injEq, and_true]
      omega
    · have hin : c = 44 → rest ≠ [] := fun h => absurd h h44
      have hcase := (ExecuteRS274XCommand.cases_AP_DEFINITION E fuel ⟨buff, text, g⟩).trans
        (ApDefinition_missing E (conv_scale E g.m_GerbMetric) buff text g ds rest c
          htext hne hds hc hfit hin hslot)
      have := ExecuteRS274XCommand_of_cases E fuel AP_DEFINITION _ _ true k hcase
        (by simpa [h44, hd2] using hterm) hfuel
      rw [this]
      simp [h44]
  · have hcase : ExecuteRS274XCommand.cases E fuel AP_DEFINITION ⟨buff0, text0, g⟩
        = Outcome.ok (false, ⟨buff0, text0, g⟩) := by
      rw [ExecuteRS274XCommand.cases_AP_DEFINITION]
      simp [ApDefinition, peek_of_getElem? (getElem?_of_drop htext0), hc0]
    exact ExecuteRS274XCommand_of_cases E fuel AP_DEFINITION _ _ false j hcase
      (by simpa [htext0] using hterm0) hfuel0

/-- The text "D10C,0.010*" with an empty aperture table, and the text "C,0.010*". -/
theorem ExecuteRS274XCommand_AP_missing_slot_witness :
    ExecuteRS274XCommand (exactEnv noFiles) 9 AP_DEFINITION
        ⟨cstring "%ADD10C,0.010*%", 3, GERBER.init ℚ []⟩
        = Outcome.ok (true, ⟨cstring "%ADD10C,0.010*%", 3 + 1 + 2 + 7,
            { GERBER.init ℚ [] with m_As_DCode := true }⟩)
      ∧ ExecuteRS274XCommand (exactEnv noFiles) 9 AP_DEFINITION
          ⟨cstring "%ADC,0.010*%", 3, GERBER.init ℚ []⟩
        = Outcome.ok (true, ⟨cstring "%ADC,0.010*%", 3 + 7, GERBER.init ℚ []⟩) :=
  ExecuteRS274XCommand_AP_missing_slot (exactEnv noFiles) 9 (GERBER.init ℚ [])
    (cstring "%ADD10C,0.010*%") 3 [49, 48] (chars ",0.010*%" ++ [0]) 67 7
    (cstring "%ADC,0.010*%") 3 67 (chars ",0.010*%" ++ [0]) 7
    (by decide) (by decide) (by decide) (by decide) (by decide) (by decide) (by decide)
    (by decide) (by decide) (by decide) (by decide) (by decide)

theorem skipBlanks_none (rest : List Int) (c : Int) (t : Nat) (h : c ≠ 32) :
    skipBlanks (c :: rest) t = Outcome.ok t := by
  simp [skipBlanks, h]

/-- The circle case when the size is followed at once by the `*`. -/
theorem ApDefinition.circle_plain (E : Env) (scale : E.D) (buff : List Int) (t : Nat)
    (d : D_CODE) (rest : List Int) (h : buff.drop t = 42 :: rest) :
    ApDefinition.circle E scale buff t d
      = Outcome.ok ({ d with m_Shape := APERTURE_T.APT_CIRCLE, m_Defined := true }, t) := by
  have hsk : skipBlanks (buff.drop t) t = Outcome.ok t := by
    rw [h]
    exact skipBlanks_none rest 42 t (by decide)
  have hpk := peek_of_getElem? (getElem?_of_drop h)
  simp [ApDefinition.circle, hsk, hpk]

/-- C11: dispatching `AP_DEFINITION` on "D", the digits of a number `n` that has a slot
`dcode` in the aperture table, "C,", a numeral of value `v` and `*` returns true and
leaves the slot of `n` with shape circle, size `(s, s)` for
`s = (int) round( v * conv_scale )`, defined, and the drill members of `dcode`; the
slot of every other number `m` is what it was, as are the numbers of the table. -/
theorem ExecuteRS274XCommand_AP_circle (E : Env) (fuel : Nat) (g : GERBER E.D)
    (buff : List Int) (text : Nat) (ds vt rest : List Int) (v : E.D) (dcode : D_CODE)
    (htext : buff.drop text = 68 :: (ds ++ 67 :: 44 :: (vt ++ 42 :: rest)))
    (hne : ds ≠ []) (hds : ∀ d ∈ ds, isdigit d = true)
    (hfit : (digitsValue ds : Int) ≤ 2147483647)
    (hslot : ReturnToolDescr g.m_Aperture_List (digitsValue ds) = some dcode)
    (hv : IsNumeral E vt v) (hnul : (0 : Int) ∈ rest) (hfuel : 1 ≤ fuel) :
    ExecuteRS274XCommand E fuel AP_DEFINITION ⟨buff, text, g⟩
        = Outcome.ok (true, ⟨buff, text + 1 + ds.length + 2 + vt.length,
            { g with m_As_DCode := true,
                     m_Aperture_List := storeTool g.m_Aperture_List (digitsValue ds)
                       { dcode with
                         m_Size := ⟨E.roundInt (E.mul v (conv_scale E g.m_GerbMetric)),
                                    E.roundInt (E.mul v (conv_scale E g.m_GerbMetric))⟩,
                         m_Shape := APERTURE_T.APT_CIRCLE, m_Defined := true } }⟩)
      ∧ ReturnToolDescr (storeTool g.m_Aperture_List (digitsValue ds)
            { dcode with
              m_Size := ⟨E.roundInt (E.mul v (conv_scale E g.m_GerbMetric)),
                         E.roundInt (E.mul v (conv_scale E g.m_GerbMetric))⟩,
              m_Shape := APERTURE_T.APT_CIRCLE, m_Defined := true }) (digitsValue ds)
          = some { dcode with
              m_Size := ⟨E.roundInt (E.mul v (conv_scale E g.m_GerbMetric)),
                         E.roundInt (E.mul v (conv_scale E g.m_GerbMetric))⟩,
              m_Shape := APERTURE_T.APT_CIRCLE, m_Defined := true }
      ∧ (∀ (m : Int) (x : D_CODE), m ≠ (digitsValue ds : Int) →
          ReturnToolDescr (storeTool g.m_Aperture_List (digitsValue ds) x) m
            = ReturnToolDescr g.m_Aperture_List m)
      ∧ (∀ x : D_CODE, (storeTool g.m_Aperture_List (digitsValue ds) x).map Prod.fst
            = g.m_Aperture_List.map Prod.fst) := by
  refine ⟨?_, ReturnToolDescr_storeTool_same _ _ _ _ hslot,
    fun m x hm => ReturnToolDescr_storeTool_other _ _ _ _ hm,
    fun x => storeTool_keys _ _ _⟩
  have h0 := peek_of_getElem? (getElem?_of_drop htext)
  have hd1 := drop_succ_of_drop htext
  have hint := ReadInt_digits buff (text + 1) ds (44 :: (vt ++ 42 :: rest)) 67 hd1 hne hds
    (by decide) hfit
  simp only [show ¬ ((67 : Int) = 44) by decide, if_false, Nat.add_zero] at hint
  have hd2 : buff.drop (text + 1 + ds.length) = 67 :: 44 :: (vt ++ 42 :: rest) :=
    drop_append_step hd1
  have hp2 := peek_of_getElem? (getElem?_of_drop hd2)
  have hd3 := drop_succ_of_drop hd2
  have hp3 := peek_of_getElem? (getElem?_of_drop hd3)
  have hd4 : buff.drop (text + 1 + ds.length + 2) = vt ++ 42 :: rest := drop_succ_of_drop hd3
  have hrd := ReadDouble_numeral E buff (text + 1 + ds.length + 2) vt rest 42 v hd4 hv
    (Or.inr rfl) hnul
  simp only [show ¬ ((42 : Int) = 44) by decide, if_false, Nat.add_zero] at hrd
  have hd5 : buff.drop (text + 1 + ds.length + 2 + vt.length) = 42 :: rest :=
    drop_append_step hd4
  have hcirc := fun d => ApDefinition.circle_plain E (conv_scale E g.m_GerbMetric) buff
    (text + 1 + ds.length + 2 + vt.length) d rest hd5
  have hcase : ExecuteRS274XCommand.cases E fuel AP_DEFINITION ⟨buff, text, g⟩
      = Outcome.ok (true, ⟨buff, text + 1 + ds.length + 2 + vt.length,
            { g with m_As_DCode := true,
                     m_Aperture_List := storeTool g.m_Aperture_List (digitsValue ds)
                       { dcode with
                         m_Size := ⟨E.roundInt (E.mul v (conv_scale E g.m_GerbMetric)),
                                    E.roundInt (E.mul v (conv_scale E g.m_GerbMetric))⟩,
                         m_Shape := APERTURE_T.APT_CIRCLE, m_Defined := true } }⟩) := by
    rw [ExecuteRS274XCommand.cases_AP_DEFINITION]
    simp only [ApDefinition, h0, Outcome.ok_bind, ne_eq, not_true_eq_false, if_false, hint,
      hp2, hslot, hp3, if_true, readLength, hrd, Outcome.pure_eq, hcirc]
  have hterm : findTerminator (buff.drop (text + 1 + ds.length + 2 + vt.length)) = some 0 := by
    rw [hd5]
    simp [findTerminator]
  have := ExecuteRS274XCommand_of_cases E fuel AP_DEFINITION _ _ true 0 hcase hterm (by omega)
  rw [this]
  rfl

/-! ## Numerals of the executable platform -/

theorem takeDigits_run (ds : List Int) (c : Int) (tail : List Int)
    (hds : ∀ d ∈ ds, isdigit d = true) (hc : isdigit c = false) :
    takeDigits (ds ++ c :: tail) = (ds, c :: tail) := by
  induction ds with
  | nil => simp [takeDigits, hc]
  | cons d ds ih =>
    have hd : isdigit d = true := hds d (List.mem_cons_self _ _)
    have := ih (fun x hx => hds x (List.mem_cons_of_mem _ hx))
    rw [List.cons_append, takeDigits, if_pos hd, this]

/-- A non-empty string of decimal digits is a numeral of the executable platform. -/
theorem exact_numeral_digits (fs : List Int → Option (List Int)) (ds : List Int)
    (hne : ds ≠ []) (hds : ∀ d ∈ ds, isdigit d = true) :
    IsNumeral (exactEnv fs) ds ((digitsValue ds : ℚ)) := by
  obtain ⟨d, ds1, rfl⟩ := List.exists_cons_of_ne_nil hne
  have hd : isdigit d = true := hds d (List.mem_cons_self _ _)
  have hdr : 48 ≤ d ∧ d ≤ 57 := by
    simpa [isdigit] using hd
  refine ⟨hne, ?_, ?_, ?_⟩
  · intro x hx h0
    have := hds x hx
    rw [h0] at this
    exact absurd this (by decide)
  · simp only [List.head?_cons, ne_eq, Option.some.injEq]
    constructor <;> omega
  · intro c tail hc
    have hcd : isdigit c = false := by rcases hc with rfl | rfl <;> decide
    have hsp : isspace d = false := isspace_of_isdigit hd
    have hdw : List.dropWhile isspace ((d :: ds1) ++ c :: tail) = (d :: ds1) ++ c :: tail := by
      rw [List.cons_append, List.dropWhile_cons_of_neg (by simp [hsp])]
    have hsg : dropSign ((d :: ds1) ++ c :: tail) = (d :: ds1) ++ c :: tail := by
      have h1 : d ≠ 45 := by omega
      have h2 : d ≠ 43 := by omega
      simp [dropSign, h1, h2]
    have htd := takeDigits_run (d :: ds1) c tail hds hcd
    have hc46 : c ≠ 46 := by rcases hc with rfl | rfl <;> decide
    have hce : c ≠ 101 ∧ c ≠ 69 := by rcases hc with rfl | rfl <;> decide
    have hex : Exact.exponent (c :: tail) = (0, c :: tail) := by
      simp [Exact.exponent, hce.1, hce.2]
    have h45 : d ≠ 45 := by omega
    show Exact.strtod ((d :: ds1) ++ c :: tail) = _
    simp only [Exact.strtod, hdw, hsg, htd, List.head?_cons, beq_iff_eq, Option.some.injEq,
      hc46, if_false, hex]
    simp [h45]
    omega

/-- The text "0.010" is a numeral of value 1/100 of the executable platform. -/
theorem exact_numeral_0_010 (fs : List Int → Option (List Int)) :
    IsNumeral (exactEnv fs) [48, 46, 48, 49, 48] (1 / 100 : ℚ) := by
  refine ⟨by decide, by decide, by decide, ?_⟩
  intro c tail hc
  show Exact.strtod ([48, 46, 48, 49, 48] ++ c :: tail) = _
  rcases hc with rfl | rfl <;>
    simp [Exact.strtod, takeDigits, dropSign, isdigit, isspace, Exact.exponent, digitsValue] <;>
    norm_num

/-- The block "%ADD10C,0.010*%" with a slot for the number 10, in inches with
`PCB_INTERNAL_UNIT = 10000`: the slot becomes a defined circle of size (100, 100);
its drill members keep their values. -/
theorem ExecuteRS274XCommand_AP_circle_witness :
    ExecuteRS274XCommand (exactEnv noFiles) 1 AP_DEFINITION
        ⟨cstring "%ADD10C,0.010*%", 3, { GERBER.init ℚ [] with
          m_Aperture_List := [(10, ⟨⟨0, 0⟩, APERTURE_T.APT_LINE, ⟨7, 8⟩, 9, false⟩)] }⟩
      = Outcome.ok (true, ⟨cstring "%ADD10C,0.010*%", 13, { GERBER.init ℚ [] with
          m_As_DCode := true,
          m_Aperture_List := [(10, ⟨⟨100, 100⟩, APERTURE_T.APT_CIRCLE, ⟨7, 8⟩, 9, true⟩)] }⟩) :=
  (ExecuteRS274XCommand_AP_circle (exactEnv noFiles) 1
    { GERBER.init ℚ [] with
      m_Aperture_List := [(10, ⟨⟨0, 0⟩, APERTURE_T.APT_LINE, ⟨7, 8⟩, 9, false⟩)] }
    (cstring "%ADD10C,0.010*%") 3 [49, 48] [48, 46, 48, 49, 48] [37, 0] (1 / 100)
    ⟨⟨0, 0⟩, APERTURE_T.APT_LINE, ⟨7, 8⟩, 9, false⟩
    (by decide) (by decide) (by decide) (by decide) (by decide)
    (exact_numeral_0_010 noFiles) (by decide) (by decide)).1.trans
    (by with_unfolding_all decide)

/-! ## Include files -/

theorem ExecuteRS274XCommand.cases_INCLUDE_FILE (E : Env) (fuel : Nat) (r : Reader E.D) :
    ExecuteRS274XCommand.cases E fuel INCLUDE_FILE r = IncludeFile E r := by
  simp [ExecuteRS274XCommand.cases, INCLUDE_FILE, SCALE_FACTOR, IMAGE_JUSTIFY, IMAGE_ROTATION,
    IMAGE_OFFSET, PLOTTER_FILM, LAYER_NAME, KNOCKOUT, STEP_AND_REPEAT, ROTATE,
    FORMAT_STATEMENT, AXIS_SELECT, MIRROR_IMAGE, MODE_OF_UNITS, OFFSET, IMAGE_NAME,
    IMAGE_POLARITY, LAYER_POLARITY, AP_MACRO, CODE]

theorem fgets.take_append (n : Nat) (s : List Int) :
    (fgets.take n s).1 ++ (fgets.take n s).2 = s := by
  induction n generalizing s with
  | zero => simp [fgets.take]
  | succ n ih =>
    cases s with
    | nil => simp [fgets.take]
    | cons c s =>
      by_cases h : c = 10
      · simp [fgets.take, h]
      · simp [fgets.take, h, ih s]

/-- What `fgets` leaves in the stream is the end of what it found there. -/
theorem fgets_suffix {buff file : List Int} {r : List Int × List Int}
    (h : fgets buff file = some r) : ∃ l, file = l ++ r.2 := by
  unfold fgets at h
  split at h
  · cases h
  · simp only [Option.some.injEq] at h
    subst h
    exact ⟨_, (fgets.take_append _ _).symm⟩

/-- `GetEndOfBlock` only reads the stream forward. -/
theorem GetEndOfBlock_suffix : ∀ (fuel : Nat) (buff : List Int) (text : Nat) (file : List Int)
    (res : Bool × Source), GetEndOfBlock fuel buff text file = Outcome.ok res →
    ∃ l, file = l ++ res.2.file := by
  intro fuel
  induction fuel with
  | zero =>
    intro buff text file res h
    simp [GetEndOfBlock] at h
  | succ fuel ih =>
    intro buff text file res h
    have hrefill : (match fgets buff file with
        | none => Outcome.ok (false, (⟨buff, text, file⟩ : Source))
        | some r => GetEndOfBlock fuel r.1 0 r.2) = Outcome.ok res →
        ∃ l, file = l ++ res.2.file := by
      intro h
      cases hfg : fgets buff file with
      | none =>
        rw [hfg] at h
        cases h
        exact ⟨[], rfl⟩
      | some r =>
        rw [hfg] at h
        obtain ⟨l1, hl1⟩ := fgets_suffix hfg
        obtain ⟨l2, hl2⟩ := ih _ _ _ _ h
        exact ⟨l1 ++ l2, by rw [hl1, hl2, List.append_assoc]⟩
    rw [GetEndOfBlock] at h
    split at h
    · split at h
      · split at h
        · cases h
          exact ⟨[], rfl⟩
        · split at h
          · cases h
            exact ⟨[], rfl⟩
          · exact ih _ _ _ _ h
      · exact hrefill h
    · exact hrefill h

/-- The `INCLUDE_FILE` case when the file cannot be opened. -/
theorem IncludeFile_open_failure (E : Env) (r : Reader E.D) (s : List Int)
    (hdepth : r.g.m_FilesPtr < 10) (hcap : r.g.m_FilesPtr < r.g.m_FilesList.length)
    (hs : cstr (r.buff.drop r.text) = some s) (hopen : E.fopen (includeName s) = none) :
    IncludeFile E r = Outcome.ok (false, { r with g := { r.g with
      m_FilesList := r.g.m_FilesList.set r.g.m_FilesPtr r.g.m_Current_File } }) := by
  have hd : ¬ r.g.m_FilesPtr ≥ 10 := by omega
  simp only [IncludeFile, hd, if_false, hs, hcap, if_true, hopen]

/-- C18: in a state of include depth below 10 (with room in `m_FilesList` at that
depth), an `INCLUDE_FILE` command whose file cannot be opened leaves the include
depth as it was and the current stream the same stream: untouched when the command
text holds its terminator (the dispatch then returns true with the cursor on it),
and in any case only read further by the final scan to the end of the block. -/
theorem ExecuteRS274XCommand_include_open_failure (E : Env) (fuel : Nat) (r : Reader E.D)
    (s : List Int) (hdepth : r.g.m_FilesPtr < 10)
    (hcap : r.g.m_FilesPtr < r.g.m_FilesList.length)
    (hs : cstr (r.buff.drop r.text) = some s) (hopen : E.fopen (includeName s) = none) :
    (∀ k, findTerminator (r.buff.drop r.text) = some k → k < fuel →
        ExecuteRS274XCommand E fuel INCLUDE_FILE r
          = Outcome.ok (true, { r with text := r.text + k, g := { r.g with
              m_FilesList := r.g.m_FilesList.set r.g.m_FilesPtr r.g.m_Current_File } }))
      ∧ (∀ res, ExecuteRS274XCommand E fuel INCLUDE_FILE r = Outcome.ok res →
          res.2.g.m_FilesPtr = r.g.m_FilesPtr
            ∧ ∃ l, r.g.m_Current_File = l ++ res.2.g.m_Current_File) := by
  have hcase := (ExecuteRS274XCommand.cases_INCLUDE_FILE E fuel r).trans
    (IncludeFile_open_failure E r s hdepth hcap hs hopen)
  constructor
  · intro k hterm hfuel
    exact ExecuteRS274XCommand_of_cases E fuel INCLUDE_FILE r _ false k hcase hterm hfuel
  · intro res h
    unfold ExecuteRS274XCommand at h
    rw [hcase] at h
    simp only [Outcome.ok_bind] at h
    obtain ⟨e, he, h⟩ := Outcome.bind_eq_ok h
    simp only [Outcome.pure_eq, Outcome.ok.injEq] at h
    subst h
    exact ⟨rfl, GetEndOfBlock_suffix _ _ _ _ _ he⟩

/-- The command "IFnofile*" where no file can be opened, read from a stream that
still holds "M02*": the flag of success is returned true, the stream and the depth
are unchanged. -/
theorem ExecuteRS274XCommand_include_open_failure_witness :
    ExecuteRS274XCommand (exactEnv noFiles) 8 INCLUDE_FILE
        ⟨cstring "%IFnofile*%", 3, GERBER.init ℚ (chars "M02*")⟩
      = Outcome.ok (true, ⟨cstring "%IFnofile*%", 3 + 6, { GERBER.init ℚ (chars "M02*") with
          m_FilesList := (GERBER.init ℚ (chars "M02*")).m_FilesList.set 0 (chars "M02*") }⟩) :=
  (ExecuteRS274XCommand_include_open_failure (exactEnv noFiles) 8
    ⟨cstring "%IFnofile*%", 3, GERBER.init ℚ (chars "M02*")⟩ (chars "nofile*%")
    (by decide) (by decide) (by decide) rfl).1 6 (by decide) (by decide)

/-- C17 (the eleventh include): the block "%IFa*IFa*...*%" with eleven
includes of an openable file, read from an empty include stack, is read to its end:
ten includes push the stream that was current and the depth ends at 10, and the
eleventh, met at depth 10, changes neither the current stream, nor the stack, nor
the depth, but `ExecuteRS274XCommand` returns true for it, not false: the switch
leaves the flag false and the result of `GetEndOfBlock` replaces it. -/
theorem ExecuteRS274XCommand_include_full_returns_true :
    ExecuteRS274XCommand.cases (exactEnv oneFile) 9 INCLUDE_FILE
        ⟨cstring "%IFa*%", 3, { GERBER.init ℚ [] with m_FilesPtr := 10 }⟩
        = Outcome.ok (false, ⟨cstring "%IFa*%", 3, { GERBER.init ℚ [] with m_FilesPtr := 10 }⟩)
      ∧ ExecuteRS274XCommand (exactEnv oneFile) 9 INCLUDE_FILE
          ⟨cstring "%IFa*%", 3, { GERBER.init ℚ [] with m_FilesPtr := 10 }⟩
        = Outcome.ok (true, ⟨cstring "%IFa*%", 4, { GERBER.init ℚ [] with m_FilesPtr := 10 }⟩)
      ∧ ReadRS274XCommand (exactEnv oneFile) 30
          ⟨cstring "%IFa*IFa*IFa*IFa*IFa*IFa*IFa*IFa*IFa*IFa*IFa*%", 0, GERBER.init ℚ [88]⟩
        = Outcome.ok (true, ⟨cstring "%IFa*IFa*IFa*IFa*IFa*IFa*IFa*IFa*IFa*IFa*IFa*%", 46,
            { GERBER.init ℚ [88] with
              m_CommandState := CommandState.CMD_IDLE,
              m_FilesPtr := 10,
              m_Current_File := [77, 48, 50, 42],
              m_FilesList := [88] :: List.replicate 9 [77, 48, 50, 42] }⟩) := by
  decide

set_option maxRecDepth 20000 in
/-- C20 (the fourth field of a rectangle): with a slot for the number 10, in inches with
`PCB_INTERNAL_UNIT = 10000`, the rectangle "D10R,0.1X0.2X0.05*" gets size
(1000, 2000), drill (500, 500) and drill shape 1, but "D10R,0.1X0.2X0.05X0.03*" gets
the same drill (500, 500) and drill shape 1: the fourth field is read only after the
letter `Y`, as in "D10R,0.1X0.2X0.05Y0.03*", whereas the circle
"D10C,0.1X0.05X0.03*" gets drill (500, 300) and drill shape 2 from its `X` fields. -/
theorem ExecuteRS274XCommand_AP_rect_fourth_field :
    ExecuteRS274XCommand (exactEnv noFiles) 9 AP_DEFINITION
        ⟨cstring "%ADD10R,0.1X0.2X0.05*%", 3, { GERBER.init ℚ [] with
          m_Aperture_List := [(10, ⟨⟨0, 0⟩, APERTURE_T.APT_LINE, ⟨0, 0⟩, 0, false⟩)] }⟩
        = Outcome.ok (true, ⟨cstring "%ADD10R,0.1X0.2X0.05*%", 20, { GERBER.init ℚ [] with
            m_As_DCode := true,
            m_Aperture_List :=
              [(10, ⟨⟨1000, 2000⟩, APERTURE_T.APT_RECT, ⟨500, 500⟩, 1, true⟩)] }⟩)
      ∧ ExecuteRS274XCommand (exactEnv noFiles) 9 AP_DEFINITION
          ⟨cstring "%ADD10R,0.1X0.2X0.05X0.03*%", 3, { GERBER.init ℚ [] with
            m_Aperture_List := [(10, ⟨⟨0, 0⟩, APERTURE_T.APT_LINE, ⟨0, 0⟩, 0, false⟩)] }⟩
        = Outcome.ok (true, ⟨cstring "%ADD10R,0.1X0.2X0.05X0.03*%", 25, { GERBER.init ℚ [] with
            m_As_DCode := true,
            m_Aperture_List :=
              [(10, ⟨⟨1000, 2000⟩, APERTURE_T.APT_RECT, ⟨500, 500⟩, 1, true⟩)] }⟩)
      ∧ ExecuteRS274XCommand (exactEnv noFiles) 9 AP_DEFINITION
          ⟨cstring "%ADD10R,0.1X0.2X0.05Y0.03*%", 3, { GERBER.init ℚ [] with
            m_Aperture_List := [(10, ⟨⟨0, 0⟩, APERTURE_T.APT_LINE, ⟨0, 0⟩, 0, false⟩)] }⟩
        = Outcome.ok (true, ⟨cstring "%ADD10R,0.1X0.2X0.05Y0.03*%", 25, { GERBER.init ℚ [] with
            m_As_DCode := true,
            m_Aperture_List :=
              [(10, ⟨⟨1000, 2000⟩, APERTURE_T.APT_RECT, ⟨500, 300⟩, 2, true⟩)] }⟩)
      ∧ ExecuteRS274XCommand (exactEnv noFiles) 9 AP_DEFINITION
          ⟨cstring "%ADD10C,0.1X0.05X0.03*%", 3, { GERBER.init ℚ [] with
            m_Aperture_List := [(10, ⟨⟨0, 0⟩, APERTURE_T.APT_LINE, ⟨0, 0⟩, 0, false⟩)] }⟩
        = Outcome.ok (true, ⟨cstring "%ADD10C,0.1X0.05X0.03*%", 21, { GERBER.init ℚ [] with
            m_As_DCode := true,
            m_Aperture_List :=
              [(10, ⟨⟨1000, 1000⟩, APERTURE_T.APT_CIRCLE, ⟨500, 300⟩, 2, true⟩)] }⟩) := by
  with_unfolding_all decide

/-! ## Parameters of macro primitives -/

theorem FieldEnd.cons_sep (sep : Int) (rest : List Int) (hsep : sep = 44 ∨ sep = 42)
    (hnul : (0 : Int) ∈ rest) : FieldEnd (sep :: rest) :=
  ⟨sep, rest, rfl, hsep, hnul⟩

theorem FieldEnd.mem_zero {q : List Int} (h : FieldEnd q) : (0 : Int) ∈ q := by
  obtain ⟨c, tl, rfl, _, h0⟩ := h
  exact List.mem_cons_of_mem _ h0

theorem FieldEnd.params_append {D : Type} (ps : List (ParamText D)) {q : List Int}
    (h : FieldEnd q) : FieldEnd (paramsText ps ++ q) := by
  cases ps with
  | nil => simpa [paramsText] using h
  | cons p ps =>
    refine ⟨44, p.text ++ paramsText ps ++ q, by simp [paramsText], Or.inl rfl, ?_⟩
    exact List.mem_append_right _ h.mem_zero

theorem ReadDouble_field (E : Env) (buff : List Int) (t : Nat) (nt q : List Int) (v : E.D)
    (h : buff.drop t = nt ++ q) (hv : IsNumeral E nt v) (hq : FieldEnd q) :
    ReadDouble E buff t = Outcome.ok (v, t + nt.length + commaLen q) := by
  obtain ⟨c, tl, rfl, hc, h0⟩ := hq
  have := ReadDouble_numeral E buff t nt tl c v h hv hc h0
  rw [this]
  simp [commaLen]

/-- One round of the parameter loop on a well-written parameter. -/
theorem ReadApertureMacro.params_step (E : Env) (buff : List Int) (n t : Nat)
    (acc : List (DCODE_PARAM E.D)) (p : ParamText E.D) (q : List Int)
    (h : buff.drop t = p.text ++ q) (hv : IsNumeral E p.num p.value) (hq : FieldEnd q) :
    ReadApertureMacro.params E buff (n + 1) t acc
      = ReadApertureMacro.params E buff n (t + p.text.length + commaLen q)
          (acc ++ [p.param]) := by
  obtain ⟨x, xs, hx⟩ := List.exists_cons_of_ne_nil hv.ne
  have hx0 : x ≠ 0 := hv.noNul x (by rw [hx]; exact List.mem_cons_self _ _)
  have hx42 : x ≠ 42 := by
    have := hv.head.1
    rw [hx] at this
    simpa using this
  have hx36 : x ≠ 36 := by
    have := hv.head.2
    rw [hx] at this
    simpa using this
  cases hvar : p.isVar with
  | true =>
    have htext : p.text = 36 :: p.num := by simp [ParamText.text, hvar]
    rw [htext] at h
    have hpk := peek_of_getElem? (getElem?_of_drop (by simpa using h))
    have hd1 : buff.drop (t + 1) = p.num ++ q := drop_succ_of_drop (by simpa using h)
    have hrd := ReadDouble_field E buff (t + 1) p.num q p.value hd1 hv hq
    rw [ReadApertureMacro.params]
    simp only [hpk, Outcome.ok_bind, show ¬ ((36 : Int) = 0 ∨ (36 : Int) = 42) by decide,
      if_false, if_true, hrd, htext, List.length_cons, ParamText.param, hvar]
    simp [Nat.add_assoc, Nat.add_comm, Nat.add_left_comm]
  | false =>
    have htext : p.text = p.num := by simp [ParamText.text, hvar]
    rw [htext] at h
    have hpk := peek_of_getElem? (getElem?_of_drop (by simpa [hx] using h))
    have hrd := ReadDouble_field E buff t p.num q p.value h hv hq
    rw [ReadApertureMacro.params]
    simp only [hpk, Outcome.ok_bind, hx0, hx42, or_self, if_false, hx36, hrd, htext,
      ParamText.param, hvar]
    simp [hx36]

/-- The parameter loop reads as many well-written parameters as it is asked for. -/
theorem ReadApertureMacro.params_read (E : Env) (buff : List Int) :
    ∀ (ps : List (ParamText E.D)) (q : List Int) (acc : List (DCODE_PARAM E.D)) (b : Nat),
      buff.drop b = paramsText ps ++ q → (∀ p ∈ ps, IsNumeral E p.num p.value) → FieldEnd q →
      ReadApertureMacro.params E buff ps.length (b + commaLen (paramsText ps ++ q)) acc
        = Outcome.ok (acc ++ ps.map ParamText.param,
            b + (paramsText ps).length + commaLen q) := by
  intro ps
  induction ps with
  | nil =>
    intro q acc b _ _ _
    simp [ReadApertureMacro.params, paramsText]
  | cons p ps ih =>
    intro q acc b h hnum hq
    have hp := hnum p (List.mem_cons_self _ _)
    have hrest := fun x hx => hnum x (List.mem_cons_of_mem _ hx)
    have hq1 : FieldEnd (paramsText ps ++ q) := FieldEnd.params_append ps hq
    have hd1 : buff.drop (b + 1) = p.text ++ (paramsText ps ++ q) :=
      drop_succ_of_drop (by simpa [paramsText] using h)
    have hstep := ReadApertureMacro.params_step E buff ps.length (b + 1) acc p _ hd1 hp hq1
    have hd2 : buff.drop (b + 1 + p.text.length) = paramsText ps ++ q := drop_append_step hd1
    have := ih q (acc ++ [p.param]) (b + 1 + p.text.length) hd2 hrest hq
    have hc1 : commaLen (paramsText (p :: ps) ++ q) = 1 := by simp [commaLen, paramsText]
    rw [List.length_cons, hc1, hstep, this]
    simp [paramsText, Nat.add_assoc, Nat.add_comm, Nat.add_left_comm]

theorem paramsText_append {D : Type} (ps qs : List (ParamText D)) :
    paramsText (ps ++ qs) = paramsText ps ++ paramsText qs := by
  induction ps with
  | nil => simp [paramsText]
  | cons p ps ih => simp [paramsText, ih]

theorem commaLen_cons (c : Int) (tl : List Int) :
    commaLen (c :: tl) = if c = 44 then 1 else 0 := by
  simp [commaLen]

/-- One primitive record: the number, the parameters `ps1` that the table asks for
and, for an outline, the further parameters `ps2`. -/
theorem ReadApertureMacro.primitive_read (E : Env) (buff : List Int) (t : Nat)
    (id : List Int) (ps1 ps2 : List (ParamText E.D)) (q : List Int)
    (h : buff.drop t = id ++ (paramsText (ps1 ++ ps2) ++ q))
    (hne : id ≠ []) (hds : ∀ d ∈ id, isdigit d = true)
    (hfit : (digitsValue id : Int) ≤ 2147483647)
    (hnum : ∀ p ∈ ps1 ++ ps2, IsNumeral E p.num p.value) (hq : FieldEnd q)
    (hcount : ps1.length = (ReadApertureMacro.paramCount (digitsValue id)).toNat)
    (hextra : if (digitsValue id : Int) = AMP_OUTLINE
      then ∃ p, ps1[1]? = some p ∧ ps2.length = (E.truncInt p.value * 2 + 1).toNat
      else ps2 = []) :
    ReadApertureMacro.primitive E buff t
      = Outcome.ok (⟨(digitsValue id : Int), (ps1 ++ ps2).map ParamText.param⟩,
          t + id.length + (paramsText (ps1 ++ ps2)).length + commaLen q) := by
  have hq2 : FieldEnd (paramsText ps2 ++ q) := FieldEnd.params_append ps2 hq
  have hqall : FieldEnd (paramsText (ps1 ++ ps2) ++ q) := FieldEnd.params_append _ hq
  obtain ⟨c, tl, hctl, hc, _⟩ := hqall
  have hcd : isdigit c = false := by rcases hc with rfl | rfl <;> decide
  have hint := ReadInt_digits buff t id tl c (by rw [h, hctl]) hne hds hcd hfit
  rw [← commaLen_cons c tl, ← hctl] at hint
  have hb : buff.drop (t + id.length) = paramsText ps1 ++ (paramsText ps2 ++ q) := by
    rw [drop_append_step h, paramsText_append, List.append_assoc]
  have hn1 : ∀ p ∈ ps1, IsNumeral E p.num p.value :=
    fun p hp => hnum p (List.mem_append_left _ hp)
  have hn2 : ∀ p ∈ ps2, IsNumeral E p.num p.value :=
    fun p hp => hnum p (List.mem_append_right _ hp)
  have hr1 := ReadApertureMacro.params_read E buff ps1 (paramsText ps2 ++ q) [] (t + id.length)
    hb hn1 hq2
  rw [← List.append_assoc, ← paramsText_append, hcount] at hr1
  have hb2 : buff.drop (t + id.length + (paramsText ps1).length) = paramsText ps2 ++ q :=
    drop_append_step hb
  have hr2 := ReadApertureMacro.params_read E buff ps2 q ([] ++ ps1.map ParamText.param)
    (t + id.length + (paramsText ps1).length) hb2 hn2 hq
  unfold ReadApertureMacro.primitive
  simp only [hint, Outcome.ok_bind, hr1]
  by_cases hout : (digitsValue id : Int) = AMP_OUTLINE
  · rw [if_pos hout] at hextra
    obtain ⟨p, hp, hlen⟩ := hextra
    have hp1 : ([] ++ ps1.map ParamText.param)[1]? = some p.param := by
      simp [List.getElem?_map, hp]
    rw [hlen] at hr2
    simp only [hout, if_true, hp1, ParamText.param, hr2, Outcome.ok_bind, Outcome.pure_eq]
    simp [paramsText_append, Nat.add_assoc, ParamText.param, hout]
  · rw [if_neg hout] at hextra
    subst hextra
    simp only [hout, if_false, Outcome.pure_eq]
    simp [paramsText]

/-- C14: for a primitive whose number `id` is one of the kinds circle (4 parameters),
two-point line and 20-point line (7), center line and lower-left line (6), end of
macro (0), polygon (4), moire (9), thermal (6), written with as many parameters `ps`
as the table gives for it and followed by a comma (more parameters) or by `*`,
`ReadApertureMacro` builds the record of number `id` with exactly the parameters
`ps`, in text order; the `i`-th stored parameter is immediate exactly when the
`i`-th written one has no `$`. -/
theorem ReadApertureMacro_fixed_count (E : Env) (buff : List Int) (t : Nat) (id : List Int)
    (ps : List (ParamText E.D)) (sep : Int) (rest : List Int)
    (htext : buff.drop t = id ++ (paramsText ps ++ sep :: rest))
    (hne : id ≠ []) (hds : ∀ d ∈ id, isdigit d = true)
    (hkind : (digitsValue id : Int) ∈ fixedKinds)
    (hnum : ∀ p ∈ ps, IsNumeral E p.num p.value)
    (hlen : (ps.length : Int) = ReadApertureMacro.paramCount (digitsValue id))
    (hsep : sep = 44 ∨ sep = 42) (hnul : (0 : Int) ∈ rest) :
    ReadApertureMacro.primitive E buff t
        = Outcome.ok (⟨(digitsValue id : Int), ps.map ParamText.param⟩,
            t + id.length + (paramsText ps).length + (if sep = 44 then 1 else 0))
      ∧ (ps.map ParamText.param).length = ps.length
      ∧ (∀ (i : Nat) (p : ParamText E.D), ps[i]? = some p →
          ((ps.map ParamText.param)[i]?).map DCODE_PARAM.isImmediate = some (!p.isVar)
            ∧ ((ps.map ParamText.param)[i]?).map DCODE_PARAM.value = some p.value)
      ∧ (ReadApertureMacro.paramCount AMP_CIRCLE = 4
          ∧ ReadApertureMacro.paramCount AMP_LINE2 = 7
          ∧ ReadApertureMacro.paramCount AMP_LINE20 = 7
          ∧ ReadApertureMacro.paramCount AMP_LINE_CENTER = 6
          ∧ ReadApertureMacro.paramCount AMP_LINE_LOWER_LEFT = 6
          ∧ ReadApertureMacro.paramCount AMP_EOF = 0
          ∧ ReadApertureMacro.paramCount AMP_POLYGON = 4
          ∧ ReadApertureMacro.paramCount AMP_MOIRE = 9
          ∧ ReadApertureMacro.paramCount AMP_THERMAL = 6) := by
  refine ⟨?_, by simp, ?_, by decide⟩
  · have hfit : (digitsValue id : Int) ≤ 2147483647 := by
      simp only [fixedKinds, List.mem_cons, List.mem_singleton, List.not_mem_nil, or_false]
        at hkind
      rcases hkind with h | h | h | h | h | h | h | h | h <;> rw [h] <;> decide
    have hout : (digitsValue id : Int) ≠ AMP_OUTLINE := by
      simp only [fixedKinds, List.mem_cons, List.mem_singleton, List.not_mem_nil, or_false]
        at hkind
      rcases hkind with h | h | h | h | h | h | h | h | h <;> rw [h] <;> decide
    have := ReadApertureMacro.primitive_read E buff t id ps [] (sep :: rest)
      (by simpa using htext) hne hds hfit (by simpa using hnum)
      (FieldEnd.cons_sep sep rest hsep hnul) (by omega) (by simp [hout])
    simpa [commaLen_cons] using this
  · intro i p hp
    simp [List.getElem?_map, hp, ParamText.param]

/-- C13 (as amended): for an outline primitive (number 4) whose second parameter has
the integer value `n ≥ 0`, written with the `4 + (2n + 1)` parameters `ps` and
followed by a comma (when the text supplies more parameters) or by `*`,
`ReadApertureMacro` stores exactly the parameters `ps`, in text order, and the
cursor stops just after the last of them and the comma that follows it, if any:
it is on the `*` when the text supplies exactly `4 + (2n + 1)` parameters. -/
theorem ReadApertureMacro_outline_count (E : Env) (buff : List Int) (t : Nat) (id : List Int)
    (ps : List (ParamText E.D)) (sep : Int) (rest : List Int) (n : Nat) (p2 : ParamText E.D)
    (htext : buff.drop t = id ++ (paramsText ps ++ sep :: rest))
    (hne : id ≠ []) (hds : ∀ d ∈ id, isdigit d = true)
    (hkind : (digitsValue id : Int) = AMP_OUTLINE)
    (hnum : ∀ p ∈ ps, IsNumeral E p.num p.value)
    (hsecond : ps[1]? = some p2) (hn : E.truncInt p2.value = (n : Int))
    (hlen : ps.length = 4 + (2 * n + 1))
    (hsep : sep = 44 ∨ sep = 42) (hnul : (0 : Int) ∈ rest) :
    ReadApertureMacro.primitive E buff t
        = Outcome.ok (⟨AMP_OUTLINE, ps.map ParamText.param⟩,
            t + id.length + (paramsText ps).length + (if sep = 44 then 1 else 0))
      ∧ (ps.map ParamText.param).length = 4 + (2 * n + 1)
      ∧ (sep = 42 → buff[t + id.length + (paramsText ps).length + (if sep = 44 then 1 else 0)]?
            = some 42) := by
  have hsplit : ps = ps.take 4 ++ ps.drop 4 := (List.take_append_drop 4 ps).symm
  have hfit : (digitsValue id : Int) ≤ 2147483647 := by
    rw [hkind]
    decide
  have hcount : (ps.take 4).length
      = (ReadApertureMacro.paramCount (digitsValue id)).toNat := by
    rw [hkind, List.length_take]
    have : (ReadApertureMacro.paramCount AMP_OUTLINE).toNat = 4 := by decide
    omega
  have hp1 : (ps.take 4)[1]? = some p2 := by
    rw [List.getElem?_take_of_lt (by omega)]
    exact hsecond
  have hextra : if (digitsValue id : Int) = AMP_OUTLINE
      then ∃ p, (ps.take 4)[1]? = some p
        ∧ (ps.drop 4).length = (E.truncInt p.value * 2 + 1).toNat
      else ps.drop 4 = [] := by
    rw [if_pos hkind]
    refine ⟨p2, hp1, ?_⟩
    rw [hn, List.length_drop]
    omega
  have := ReadApertureMacro.primitive_read E buff t id (ps.take 4) (ps.drop 4) (sep :: rest)
    (by rw [← hsplit]; exact htext) hne hds hfit (by rw [← hsplit]; exact hnum)
    (FieldEnd.cons_sep sep rest hsep hnul) hcount hextra
  rw [← hsplit, hkind, commaLen_cons] at this
  refine ⟨this, by simp [hlen], ?_⟩
  intro h42
  subst h42
  have hd : buff.drop (t + (id ++ paramsText ps).length) = 42 :: rest :=
    drop_append_step (by rw [List.append_assoc]; exact htext)
  have := getElem?_of_drop hd
  simpa [Nat.add_assoc] using this

/-- Parameters written as plain digit strings are numerals of the executable platform. -/
theorem exact_numeral_params (fs : List Int → Option (List Int)) (ps : List (ParamText ℚ))
    (h : ∀ p ∈ ps, p.num ≠ [] ∧ (∀ d ∈ p.num, isdigit d = true)
      ∧ p.value = (digitsValue p.num : ℚ)) :
    ∀ p ∈ ps, IsNumeral (exactEnv fs) p.num p.value := by
  intro p hp
  obtain ⟨h1, h2, h3⟩ := h p hp
  rw [h3]
  exact exact_numeral_digits fs p.num h1 h2

/-- The circle primitive "1,1,$2,0,0*": four parameters are stored, the second one
as a variable reference, and the cursor stops on the `*`. -/
theorem ReadApertureMacro_fixed_count_witness :
    ReadApertureMacro.primitive (exactEnv noFiles) (cstring "1,1,$2,0,0*") 0
      = Outcome.ok (⟨AMP_CIRCLE, [⟨true, 1⟩, ⟨false, 2⟩, ⟨true, 0⟩, ⟨true, 0⟩]⟩, 10) :=
  (ReadApertureMacro_fixed_count (exactEnv noFiles) (cstring "1,1,$2,0,0*") 0 [49]
    [⟨false, [49], 1⟩, ⟨true, [50], 2⟩, ⟨false, [48], 0⟩, ⟨false, [48], 0⟩] 42 [0]
    (by decide) (by decide) (by decide) (by decide)
    (exact_numeral_params noFiles _ (by with_unfolding_all decide))
    (by decide) (by decide) (by decide)).1.trans (by with_unfolding_all decide)

/-- The outline "4,1,3,0,0,1,1,2,2,3,3,0*" with point count 3: eleven parameters are
stored and the cursor stops on the `*`. -/
theorem ReadApertureMacro_outline_count_witness :
    ReadApertureMacro.primitive (exactEnv noFiles) (cstring "4,1,3,0,0,1,1,2,2,3,3,0*") 0
      = Outcome.ok (⟨AMP_OUTLINE, [⟨true, 1⟩, ⟨true, 3⟩, ⟨true, 0⟩, ⟨true, 0⟩, ⟨true, 1⟩,
          ⟨true, 1⟩, ⟨true, 2⟩, ⟨true, 2⟩, ⟨true, 3⟩, ⟨true, 3⟩, ⟨true, 0⟩]⟩, 23)
      ∧ (cstring "4,1,3,0,0,1,1,2,2,3,3,0*")[23]? = some 42 :=
  ⟨(ReadApertureMacro_outline_count (exactEnv noFiles)
    (cstring "4,1,3,0,0,1,1,2,2,3,3,0*") 0 [52]
    [⟨false, [49], 1⟩, ⟨false, [51], 3⟩, ⟨false, [48], 0⟩, ⟨false, [48], 0⟩,
     ⟨false, [49], 1⟩, ⟨false, [49], 1⟩, ⟨false, [50], 2⟩, ⟨false, [50], 2⟩,
     ⟨false, [51], 3⟩, ⟨false, [51], 3⟩, ⟨false, [48], 0⟩] 42 [0] 3 ⟨false, [51], 3⟩
    (by decide) (by decide) (by decide) (by decide)
    (exact_numeral_params noFiles _ (by with_unfolding_all decide))
    rfl (by with_unfolding_all decide) (by decide) (by decide)
    (by decide)).1.trans (by with_unfolding_all decide), by decide⟩

/-- C13 (counterexample): on the outline "4,1,0,0,0,1,7*" the second parameter is 0,
the text supplies six parameters (at least 4 + 2·0 + 1 = 5) before the `*`, the
five parameters 1, 0, 0, 0, 1 are stored, and the cursor stops at index 12, on the
sixth parameter `7`, not on the `*` at index 13. -/
theorem ReadApertureMacro_outline_stops_before_star :
    ReadApertureMacro.primitive (exactEnv noFiles) (cstring "4,1,0,0,0,1,7*") 0
      = Outcome.ok (⟨AMP_OUTLINE, [⟨true, 1⟩, ⟨true, 0⟩, ⟨true, 0⟩, ⟨true, 0⟩, ⟨true, 1⟩]⟩, 12)
      ∧ (cstring "4,1,0,0,0,1,7*")[12]? = some 55
      ∧ (cstring "4,1,0,0,0,1,7*")[13]? = some 42 := by
  with_unfolding_all decide

/-! ## Whole macros -/

theorem ReadApertureMacro.name_run (nm body : List Int) (h : ∀ x ∈ nm, x ≠ 0 ∧ x ≠ 42) :
    ∀ (acc : List Int) (t : Nat),
      ReadApertureMacro.name (nm ++ 42 :: body) acc t = Outcome.ok (acc ++ nm, t + nm.length + 1) := by
  induction nm with
  | nil =>
    intro acc t
    simp [ReadApertureMacro.name]
  | cons x xs ih =>
    intro acc t
    have hx := h x (List.mem_cons_self _ _)
    rw [List.cons_append, ReadApertureMacro.name, if_neg hx.1, if_neg hx.2,
      ih (fun y hy => h y (List.mem_cons_of_mem _ hy))]
    simp
    omega

theorem ReadApertureMacro.primitive_wf (E : Env) (buff : List Int) (t : Nat) (p : PrimText E.D)
    (rest : List Int) (hwf : p.WellFormed E) (h : buff.drop t = p.text ++ 42 :: rest)
    (h0 : (0 : Int) ∈ rest) :
    ReadApertureMacro.primitive E buff t = Outcome.ok (p.record, t + p.text.length) := by
  have hsplit : p.params = p.params.take (ReadApertureMacro.paramCount (digitsValue p.id)).toNat
      ++ p.params.drop (ReadApertureMacro.paramCount (digitsValue p.id)).toNat :=
    (List.take_append_drop _ _).symm
  have hcnt := hwf.count
  unfold PrimText.count at hcnt
  have hcount : (p.params.take (ReadApertureMacro.paramCount (digitsValue p.id)).toNat).length
      = (ReadApertureMacro.paramCount (digitsValue p.id)).toNat := by
    rw [List.length_take]
    omega
  have hextra : if (digitsValue p.id : Int) = AMP_OUTLINE
      then ∃ q, (p.params.take (ReadApertureMacro.paramCount (digitsValue p.id)).toNat)[1]?
            = some q
        ∧ (p.params.drop (ReadApertureMacro.paramCount (digitsValue p.id)).toNat).length
            = (E.truncInt q.value * 2 + 1).toNat
      else p.params.drop (ReadApertureMacro.paramCount (digitsValue p.id)).toNat = [] := by
    by_cases hk : (digitsValue p.id : Int) = AMP_OUTLINE
    · rw [if_pos hk]
      rw [if_pos hk] at hcnt
      have h4 : (ReadApertureMacro.paramCount (digitsValue p.id)).toNat = 4 := by
        rw [hk]
        decide
      rw [h4] at hcnt ⊢
      have hlt : 1 < p.params.length := by omega
      have h1 : p.params[1]? = some (p.params.get ⟨1, hlt⟩) := by
        simp [List.getElem?_eq_getElem hlt]
      rw [h1] at hcnt
      dsimp only at hcnt
      refine ⟨p.params.get ⟨1, hlt⟩, ?_, ?_⟩
      · rw [List.getElem?_take_of_lt (by omega)]
        exact h1
      · rw [List.length_drop]
        exact Nat.sub_eq_of_eq_add (by rw [Nat.add_comm]; exact hcnt)
    · rw [if_neg hk]
      rw [if_neg hk] at hcnt
      apply List.eq_nil_of_length_eq_zero
      rw [List.length_drop]
      omega
  have := ReadApertureMacro.primitive_read E buff t p.id _ _ (42 :: rest)
    (by rw [← hsplit]; simpa [PrimText.text] using h) hwf.ne hwf.digits hwf.fits
    (by rw [← hsplit]; exact hwf.numerals)
    (FieldEnd.cons_sep 42 rest (Or.inr rfl) h0) hcount hextra
  rw [← hsplit, commaLen_cons] at this
  rw [this]
  simp [PrimText.record, PrimText.text, Nat.add_assoc]

theorem ReadApertureMacro.loop_skip_star (E : Env) (n : Nat) (buff : List Int) (t : Nat)
    (g : GERBER E.D) (am : APERTURE_MACRO E.D) (c : Int)
    (h42 : buff[t]? = some 42) (hc : buff[t + 1]? = some c) (hne : c ≠ 42) :
    ReadApertureMacro.loop E n ⟨buff, t, g⟩ am = ReadApertureMacro.loop E n ⟨buff, t + 1, g⟩ am := by
  cases n with
  | zero => rfl
  | succ n =>
    conv_lhs => rw [ReadApertureMacro.loop]
    conv_rhs => rw [ReadApertureMacro.loop]
    simp only [peek_of_getElem? h42, peek_of_getElem? hc, Outcome.ok_bind, if_true, if_neg hne]

theorem ReadApertureMacro.loop_percent (E : Env) (n : Nat) (buff : List Int) (t : Nat)
    (g : GERBER E.D) (am : APERTURE_MACRO E.D) (h : buff[t]? = some 37) :
    ReadApertureMacro.loop E (n + 1) ⟨buff, t, g⟩ am
      = Outcome.ok (true, ⟨buff, t,
          { g with m_aperture_macros := E.macroInsert am g.m_aperture_macros }⟩) := by
  rw [ReadApertureMacro.loop]
  simp [peek_of_getElem? h]

theorem ReadApertureMacro.loop_primitive (E : Env) (n : Nat) (buff : List Int) (t : Nat)
    (g : GERBER E.D) (am : APERTURE_MACRO E.D) (d : Int) (h : buff[t]? = some d)
    (hd : isdigit d = true) :
    ReadApertureMacro.loop E (n + 1) ⟨buff, t, g⟩ am
      = (ReadApertureMacro.primitive E buff t >>= fun p =>
          ReadApertureMacro.loop E n ⟨buff, p.2, g⟩
            { am with primitives := am.primitives ++ [p.1] }) := by
  have hr : 48 ≤ d ∧ d ≤ 57 := by simpa [isdigit] using hd
  have h42 : d ≠ 42 := by omega
  have h10 : d ≠ 10 := by omega
  have h0 : d ≠ 0 := by omega
  have h37 : d ≠ 37 := by omega
  rw [ReadApertureMacro.loop]
  simp [peek_of_getElem? h, h42, h10, h0, h37]

theorem ReadApertureMacro.loop_line_end_none (E : Env) (n : Nat) (buff : List Int) (t : Nat)
    (g : GERBER E.D) (am : APERTURE_MACRO E.D) (nl stale : List Int)
    (h : buff.drop t = nl ++ 0 :: stale) (hnl : nl = [] ∨ nl = [10])
    (hf : fgets buff g.m_Current_File = none) :
    ReadApertureMacro.loop E (n + 1) ⟨buff, t, g⟩ am = Outcome.ok (false, ⟨buff, 0, g⟩) := by
  rw [ReadApertureMacro.loop]
  rcases hnl with rfl | rfl
  · have h0 : buff[t]? = some 0 := getElem?_of_drop (by simpa using h)
    simp [peek_of_getElem? h0, hf]
  · have h0 : buff[t]? = some 10 := getElem?_of_drop (by simpa using h)
    have h1 : buff[t + 1]? = some 0 :=
      getElem?_of_drop (drop_succ_of_drop (by simpa using h))
    simp [peek_of_getElem? h0, peek_of_getElem? h1, hf]

theorem ReadApertureMacro.loop_line_end_some (E : Env) (n : Nat) (buff : List Int) (t : Nat)
    (g : GERBER E.D) (am : APERTURE_MACRO E.D) (nl stale : List Int)
    (l : List Int × List Int) (c : Int)
    (h : buff.drop t = nl ++ 0 :: stale) (hnl : nl = [] ∨ nl = [10])
    (hf : fgets buff g.m_Current_File = some l)
    (hc0 : l.1[0]? = some c) (h42 : c ≠ 42) (h10 : c ≠ 10) (hz : c ≠ 0) :
    ReadApertureMacro.loop E (n + 1) ⟨buff, t, g⟩ am
      = ReadApertureMacro.loop E (n + 1) ⟨l.1, 0, { g with m_Current_File := l.2 }⟩ am := by
  conv_lhs => rw [ReadApertureMacro.loop]
  conv_rhs => rw [ReadApertureMacro.loop]
  rcases hnl with rfl | rfl
  · have h0 : buff[t]? = some 0 := getElem?_of_drop (by simpa using h)
    simp [peek_of_getElem? h0, hf, peek_of_getElem? hc0, h42, h10, hz]
  · have h0 : buff[t]? = some 10 := getElem?_of_drop (by simpa using h)
    have h1 : buff[t + 1]? = some 0 :=
      getElem?_of_drop (drop_succ_of_drop (by simpa using h))
    simp [peek_of_getElem? h0, peek_of_getElem? h1, hf, peek_of_getElem? hc0, h42, h10, hz]

theorem PrimText.head_digit {E : Env} {p : PrimText E.D} (hwf : p.WellFormed E)
    {buff rest : List Int} {t : Nat} (h : buff.drop t = p.text ++ rest) :
    ∃ d, buff[t]? = some d ∧ isdigit d = true := by
  obtain ⟨d, ds, hid⟩ := List.exists_cons_of_ne_nil hwf.ne
  refine ⟨d, ?_, hwf.digits d (by rw [hid]; exact List.mem_cons_self _ _)⟩
  rw [PrimText.text, hid] at h
  exact getElem?_of_drop (by simpa using h)

theorem MacroBody.head_ne_star {E : Env} {e : Bool} {buff : List Int} {t : Nat}
    {file : List Int} {ps : List (PrimText E.D)} (hb : MacroBody e buff t file ps)
    (hwf : ∀ p ∈ ps, p.WellFormed E) : ∃ c, buff[t]? = some c ∧ c ≠ 42 := by
  cases hb with
  | percent _ _ _ tail h => exact ⟨37, getElem?_of_drop h, by decide⟩
  | exhausted _ _ _ nl stale h hnl hf =>
    rcases hnl with rfl | rfl
    · exact ⟨0, getElem?_of_drop (by simpa using h), by decide⟩
    · exact ⟨10, getElem?_of_drop (by simpa using h), by decide⟩
  | prim _ _ _ _ p ps rest h h0 hrest =>
    obtain ⟨d, hd, hdig⟩ := PrimText.head_digit (hwf p (List.mem_cons_self _ _)) h
    have hr : 48 ≤ d ∧ d ≤ 57 := by simpa [isdigit] using hdig
    exact ⟨d, hd, by omega⟩
  | line _ _ _ _ nl stale r _ h hnl hf hstart hrest =>
    rcases hnl with rfl | rfl
    · exact ⟨0, getElem?_of_drop (by simpa using h), by decide⟩
    · exact ⟨10, getElem?_of_drop (by simpa using h), by decide⟩

theorem ReadApertureMacro.loop_body (E : Env) (g : GERBER E.D) (name : List Int)
    {e : Bool} {buff : List Int} {t : Nat} {file : List Int} {ps : List (PrimText E.D)} :
    MacroBody e buff t file ps → (∀ p ∈ ps, p.WellFormed E) →
    ∀ (fuel : Nat) (acc : List (AM_PRIMITIVE E.D)), ps.length < fuel →
    ∃ bf tf ff,
      ReadApertureMacro.loop E fuel ⟨buff, t, { g with m_Current_File := file }⟩ ⟨name, acc⟩
        = Outcome.ok (e, ⟨bf, tf,
            if e = true then
              { g with
                m_Current_File := ff,
                m_aperture_macros :=
                  E.macroInsert ⟨name, acc ++ ps.map PrimText.record⟩ g.m_aperture_macros }
            else { g with m_Current_File := ff }⟩)
      ∧ (if e = true then bf[tf]? = some 37 else tf = 0 ∧ fgets bf ff = none) := by
  intro hb
  induction hb with
  | percent buff t file tail h =>
    intro _ fuel acc hfuel
    obtain ⟨n, rfl⟩ : ∃ n, fuel = n + 1 := ⟨fuel - 1, by omega⟩
    refine ⟨buff, t, file, ?_, ?_⟩
    · rw [ReadApertureMacro.loop_percent E n buff t _ _ (getElem?_of_drop h)]
      simp
    · simpa using getElem?_of_drop h
  | exhausted buff t file nl stale h hnl hf =>
    intro _ fuel acc hfuel
    obtain ⟨n, rfl⟩ : ∃ n, fuel = n + 1 := ⟨fuel - 1, by omega⟩
    refine ⟨buff, 0, file, ?_, ?_⟩
    · rw [ReadApertureMacro.loop_line_end_none E n buff t _ _ nl stale h hnl hf]
      simp
    · simpa using hf
  | prim e buff t file p ps rest h h0 hrest ih =>
    intro hwf fuel acc hfuel
    obtain ⟨n, rfl⟩ : ∃ n, fuel = n + 1 := ⟨fuel - 1, by omega⟩
    have hp := hwf p (List.mem_cons_self _ _)
    have hps : ∀ q ∈ ps, q.WellFormed E := fun q hq => hwf q (List.mem_cons_of_mem _ hq)
    obtain ⟨d, hd, hdig⟩ := PrimText.head_digit hp h
    obtain ⟨c, hc, hc42⟩ := MacroBody.head_ne_star hrest hps
    have hstar : buff[t + p.text.length]? = some 42 := getElem?_of_drop (drop_append_step h)
    obtain ⟨bf, tf, ff, hrun, hend⟩ := ih hps n (acc ++ [p.record])
      (by simp only [List.length_cons] at hfuel; omega)
    refine ⟨bf, tf, ff, ?_, hend⟩
    rw [ReadApertureMacro.loop_primitive E n buff t _ _ d hd hdig,
      ReadApertureMacro.primitive_wf E buff t p rest hp h h0, Outcome.ok_bind,
      ReadApertureMacro.loop_skip_star E n buff (t + p.text.length) _ _ c hstar hc hc42, hrun]
    simp
  | line e buff t file nl stale r ps h hnl hf hstart hrest ih =>
    intro hwf fuel acc hfuel
    obtain ⟨n, rfl⟩ : ∃ n, fuel = n + 1 := ⟨fuel - 1, by omega⟩
    obtain ⟨c, hc, hc42⟩ := MacroBody.head_ne_star hrest hwf
    have hhead : r.1.head? = some c := by
      rw [List.head?_eq_getElem?]
      exact hc
    have h10 : c ≠ 10 := fun e => hstart.1 (by rw [hhead, e])
    have hz : c ≠ 0 := fun e => hstart.2 (by rw [hhead, e])
    obtain ⟨bf, tf, ff, hrun, hend⟩ := ih hwf (n + 1) acc hfuel
    refine ⟨bf, tf, ff, ?_, hend⟩
    rw [ReadApertureMacro.loop_line_end_some E n buff t _ _ nl stale r c h hnl hf hc hc42 h10 hz]
    exact hrun

theorem ReadApertureMacro.loop_result (E : Env) :
    ∀ (fuel : Nat) (r : Reader E.D) (am : APERTURE_MACRO E.D) (res : Bool × Reader E.D),
      ReadApertureMacro.loop E fuel r am = Outcome.ok res →
      (res.1 = false → res.2.g.m_aperture_macros = r.g.m_aperture_macros
          ∧ fgets res.2.buff res.2.g.m_Current_File = none)
        ∧ (res.1 = true → res.2.buff[res.2.text]? = some 37) := by
  intro fuel
  induction fuel with
  | zero =>
    intro r am res h
    simp [ReadApertureMacro.loop] at h
  | succ n ih =>
    intro r am res h
    rw [ReadApertureMacro.loop] at h
    obtain ⟨c0, h0, h⟩ := Outcome.bind_eq_ok h
    obtain ⟨c1, h1, h⟩ := Outcome.bind_eq_ok h
    obtain ⟨c2, h2, h⟩ := Outcome.bind_eq_ok h
    have tail : ∀ r1 : Reader E.D, r1.g.m_aperture_macros = r.g.m_aperture_macros →
        (peek r1.buff r1.text >>= fun c3 =>
          if c3 = 37 then
            (pure (true, { r1 with g := { r1.g with
              m_aperture_macros := E.macroInsert am r1.g.m_aperture_macros } }) :
              Outcome (Bool × Reader E.D))
          else
            ReadApertureMacro.primitive E r1.buff r1.text >>= fun p =>
            ReadApertureMacro.loop E n { r1 with text := p.2 }
              { am with primitives := am.primitives ++ [p.1] }) = Outcome.ok res →
        (res.1 = false → res.2.g.m_aperture_macros = r.g.m_aperture_macros
            ∧ fgets res.2.buff res.2.g.m_Current_File = none)
          ∧ (res.1 = true → res.2.buff[res.2.text]? = some 37) := by
      intro r1 hm ht
      obtain ⟨c3, h3, ht⟩ := Outcome.bind_eq_ok ht
      by_cases hc3 : c3 = 37
      · rw [if_pos hc3] at ht
        cases ht
        subst hc3
        exact ⟨fun hf => (by cases hf), fun _ => peek_eq_ok h3⟩
      · rw [if_neg hc3] at ht
        obtain ⟨p, hp, ht⟩ := Outcome.bind_eq_ok ht
        have := ih _ _ _ ht
        exact ⟨fun hf => ⟨((this.1 hf).1).trans hm, (this.1 hf).2⟩, this.2⟩
    by_cases hc2 : c2 = 0
    · simp only [hc2, if_true] at h
      cases hf : fgets r.buff r.g.m_Current_File with
      | none =>
        simp only [hf] at h
        cases h
        exact ⟨fun _ => ⟨rfl, hf⟩, fun ht => by cases ht⟩
      | some l =>
        simp only [hf] at h
        exact tail ⟨l.1, 0, { r.g with m_Current_File := l.2 }⟩ rfl h
    · simp only [hc2, if_false] at h
      exact tail ⟨r.buff, if c1 = 10 then (if c0 = 42 then r.text + 1 else r.text) + 1
        else if c0 = 42 then r.text + 1 else r.text, r.g⟩ rfl h

/-- C15: on a macro text "<name>*<primitive>*...<primitive>*%" whose primitives are
well formed and which may be spread over several lines of the stream (`MacroBody true`),
`ReadApertureMacro` returns true with the cursor on the `%`, and the macro handed to
the insertion into the macro set has as name exactly the characters before the first
`*` and as primitives one record per written primitive, in text order; the other
members of the interpreter keep their values (the stream is read up to the line
that holds the `%`). -/
theorem ReadApertureMacro_reads_macro (E : Env) (fuel : Nat) (buff : List Int) (text : Nat)
    (g : GERBER E.D) (name body : List Int) (prims : List (PrimText E.D))
    (htext : buff.drop text = name ++ 42 :: body)
    (hname : ∀ x ∈ name, x ≠ 0 ∧ x ≠ 42)
    (hbody : MacroBody true buff (text + name.length + 1) g.m_Current_File prims)
    (hwf : ∀ p ∈ prims, p.WellFormed E)
    (hfuel : prims.length < fuel) :
    ∃ bf tf ff,
      ReadApertureMacro E fuel ⟨buff, text, g⟩
        = Outcome.ok (true, ⟨bf, tf, { g with
            m_Current_File := ff,
            m_aperture_macros :=
              E.macroInsert ⟨name, prims.map PrimText.record⟩ g.m_aperture_macros }⟩)
      ∧ bf[tf]? = some 37 := by
  obtain ⟨bf, tf, ff, hrun, hend⟩ :=
    ReadApertureMacro.loop_body E g name hbody hwf fuel [] hfuel
  refine ⟨bf, tf, ff, ?_, by simpa using hend⟩
  unfold ReadApertureMacro
  simp only [htext, ReadApertureMacro.name_run name body hname, Outcome.ok_bind,
    List.nil_append]
  refine hrun.trans ?_
  simp

/-- C16: when the stream is exhausted before a `%` is seen (`MacroBody false`: the name,
well-formed primitives, then the end of the last line, and `fgets` fails),
`ReadApertureMacro` returns false and the macro set, like every member other than the
stream, is what it was before the call.  More generally, whenever `ReadApertureMacro`
returns false the macro set is unchanged and `fgets` has failed on the final stream,
and whenever it returns true the cursor is on a `%`. -/
theorem ReadApertureMacro_stream_end (E : Env) (fuel : Nat) (buff : List Int) (text : Nat)
    (g : GERBER E.D) (name body : List Int) (prims : List (PrimText E.D))
    (htext : buff.drop text = name ++ 42 :: body)
    (hname : ∀ x ∈ name, x ≠ 0 ∧ x ≠ 42)
    (hbody : MacroBody false buff (text + name.length + 1) g.m_Current_File prims)
    (hwf : ∀ p ∈ prims, p.WellFormed E)
    (hfuel : prims.length < fuel) :
    (∃ bf ff,
      ReadApertureMacro E fuel ⟨buff, text, g⟩
          = Outcome.ok (false, ⟨bf, 0, { g with m_Current_File := ff }⟩)
        ∧ fgets bf ff = none)
      ∧ ∀ (n : Nat) (r : Reader E.D) (res : Bool × Reader E.D),
          ReadApertureMacro E n r = Outcome.ok res →
          (res.1 = false → res.2.g.m_aperture_macros = r.g.m_aperture_macros
              ∧ fgets res.2.buff res.2.g.m_Current_File = none)
            ∧ (res.1 = true → res.2.buff[res.2.text]? = some 37) := by
  constructor
  · obtain ⟨bf, tf, ff, hrun, hend⟩ :=
      ReadApertureMacro.loop_body E g name hbody hwf fuel [] hfuel
    simp only [Bool.false_eq_true, if_false] at hrun hend
    obtain ⟨rfl, hnone⟩ := hend
    refine ⟨bf, ff, ?_, hnone⟩
    unfold ReadApertureMacro
    simp only [htext, ReadApertureMacro.name_run name body hname, Outcome.ok_bind,
      List.nil_append]
    exact hrun
  · intro n r res h
    unfold ReadApertureMacro at h
    obtain ⟨nm, _, h⟩ := Outcome.bind_eq_ok h
    exact ReadApertureMacro.loop_result E n ⟨r.buff, nm.2, r.g⟩ _ res h

/-- The macro "%AMD*1,1,2,0,0*" whose second line "3*%" comes from the stream: the
reader returns true on the `%` of the second line, with the macro `D` of two
primitives, a circle and an end-of-macro record. -/
theorem ReadApertureMacro_reads_macro_witness :
    ∃ bf tf ff,
      ReadApertureMacro (exactEnv noFiles) 3
          ⟨cstring "%AMD*1,1,2,0,0*\n", 3, GERBER.init ℚ (chars "3*%\n")⟩
        = Outcome.ok (true, ⟨bf, tf, { GERBER.init ℚ (chars "3*%\n") with
            m_Current_File := ff,
            m_aperture_macros :=
              [⟨[68], [⟨1, [⟨true, 1⟩, ⟨true, 2⟩, ⟨true, 0⟩, ⟨true, 0⟩]⟩, ⟨3, []⟩]⟩] }⟩)
      ∧ bf[tf]? = some 37 :=
  ReadApertureMacro_reads_macro (exactEnv noFiles) 3 (cstring "%AMD*1,1,2,0,0*\n") 3
    (GERBER.init ℚ (chars "3*%\n")) [68] (chars "1,1,2,0,0*\n" ++ [0])
    [⟨[49], [⟨false, [49], 1⟩, ⟨false, [50], 2⟩, ⟨false, [48], 0⟩, ⟨false, [48], 0⟩]⟩,
     ⟨[51], []⟩]
    (by decide) (by decide)
    (MacroBody.prim true _ 5 _ _ _ [10, 0] (by decide) (by decide)
      (MacroBody.line true _ 15 _ [10] [] (chars "3*%\n" ++ 0 :: (chars "1,1,2,0,0*\n" ++ [0]), []) _
        (by decide) (Or.inr rfl) (by decide) (by decide)
        (MacroBody.prim true _ 0 _ _ _ (chars "%\n" ++ 0 :: (chars "1,1,2,0,0*\n" ++ [0])) (by decide) (by decide)
          (MacroBody.percent _ 2 _ (chars "\n" ++ 0 :: (chars "1,1,2,0,0*\n" ++ [0])) (by decide)))))
    (by
      intro p hp
      simp only [List.mem_cons, List.mem_singleton, List.not_mem_nil, or_false] at hp
      rcases hp with rfl | rfl
      · exact ⟨by decide, by decide, by decide,
          exact_numeral_params noFiles _ (by with_unfolding_all decide), by decide⟩
      · exact ⟨by decide, by decide, by decide,
          exact_numeral_params noFiles _ (by with_unfolding_all decide), by decide⟩)
    (by decide)

/-- The macro "%AMD*1,1,2,0,0*" at the end of the stream: the reader returns false and
the macro set stays empty. -/
theorem ReadApertureMacro_stream_end_witness :
    ∃ bf ff,
      ReadApertureMacro (exactEnv noFiles) 2
          ⟨cstring "%AMD*1,1,2,0,0*\n", 3, GERBER.init ℚ []⟩
        = Outcome.ok (false, ⟨bf, 0, { GERBER.init ℚ [] with m_Current_File := ff }⟩)
      ∧ fgets bf ff = none :=
  (ReadApertureMacro_stream_end (exactEnv noFiles) 2 (cstring "%AMD*1,1,2,0,0*\n") 3
    (GERBER.init ℚ []) [68] (chars "1,1,2,0,0*\n" ++ [0])
    [⟨[49], [⟨false, [49], 1⟩, ⟨false, [50], 2⟩, ⟨false, [48], 0⟩, ⟨false, [48], 0⟩]⟩]
    (by decide) (by decide)
    (MacroBody.prim false _ 5 _ _ _ [10, 0] (by decide) (by decide)
      (MacroBody.exhausted _ 15 _ [10] [] (by decide) (Or.inr rfl) (by decide)))
    (by
      intro p hp
      simp only [List.mem_singleton] at hp
      subst hp
      exact ⟨by decide, by decide, by decide,
        exact_numeral_params noFiles _ (by with_unfolding_all decide), by decide⟩)
    (by decide)).1

/-! ## Loops that make no progress -/

theorem FormatStatement_percent (E : Env) (buff : List Int) (text : Nat) (g : GERBER E.D)
    (h : buff[text]? = some 37) :
    ∀ (fuel : Nat) (ok : Bool),
      FormatStatement E fuel ⟨buff, text, g⟩ ok = Outcome.timeout := by
  intro fuel
  induction fuel with
  | zero =>
    intro ok
    rfl
  | succ n ih =>
    intro ok
    rw [FormatStatement]
    cases n with
    | zero => simp [peek_of_getElem? h, GetEndOfBlock]
    | succ m =>
      have hscan := GetEndOfBlock_on_terminator m buff text g.m_Current_File 37 h (Or.inr rfl)
      simp only [peek_of_getElem? h, Outcome.ok_bind, hscan]
      simpa using ih false

theorem OffsetLoop_stuck (E : Env) (scale : E.D) (buff : List Int) (text : Nat)
    (g : GERBER E.D) (c : Int) (h : buff[text]? = some c)
    (h42 : c ≠ 42) (h65 : c ≠ 65) (h66 : c ≠ 66) :
    ∀ fuel : Nat, OffsetLoop E scale fuel ⟨buff, text, g⟩ = Outcome.timeout := by
  intro fuel
  induction fuel with
  | zero => rfl
  | succ n ih =>
    rw [OffsetLoop]
    simp only [peek_of_getElem? h, Outcome.ok_bind, if_neg h42, if_neg h65, if_neg h66]
    exact ih

theorem ReadApertureMacro.loop_stuck (E : Env) (buff : List Int) (t : Nat) (g : GERBER E.D)
    (c : Int) (p : AM_PRIMITIVE E.D) (h : buff[t]? = some c)
    (h42 : c ≠ 42) (h10 : c ≠ 10) (h0 : c ≠ 0) (h37 : c ≠ 37)
    (hp : ReadApertureMacro.primitive E buff t = Outcome.ok (p, t)) :
    ∀ (fuel : Nat) (am : APERTURE_MACRO E.D),
      ReadApertureMacro.loop E fuel ⟨buff, t, g⟩ am = Outcome.timeout := by
  intro fuel
  induction fuel with
  | zero =>
    intro am
    rfl
  | succ n ih =>
    intro am
    rw [ReadApertureMacro.loop]
    simp only [peek_of_getElem? h, Outcome.ok_bind, if_neg h42, if_neg h10, if_neg h0,
      if_neg h37, hp]
    exact ih _

theorem ExecuteRS274XCommand.cases_OFFSET (E : Env) (fuel : Nat) (r : Reader E.D) :
    ExecuteRS274XCommand.cases E fuel OFFSET r
      = (OffsetLoop E (conv_scale E r.g.m_GerbMetric) fuel
          { r with g := { r.g with m_Offset := ⟨0, 0⟩ } } >>= fun r1 =>
          Outcome.ok (true, r1)) := by
  simp [ExecuteRS274XCommand.cases, OFFSET, FORMAT_STATEMENT, AXIS_SELECT, MIRROR_IMAGE,
    MODE_OF_UNITS, CODE]

theorem ExecuteRS274XCommand.cases_AP_MACRO (E : Env) (fuel : Nat) (r : Reader E.D) :
    ExecuteRS274XCommand.cases E fuel AP_MACRO r
      = (ReadApertureMacro E fuel r >>= fun m => Outcome.ok (true, m.2)) := by
  simp [ExecuteRS274XCommand.cases, AP_MACRO, SCALE_FACTOR, IMAGE_JUSTIFY, IMAGE_ROTATION,
    IMAGE_OFFSET, PLOTTER_FILM, LAYER_NAME, KNOCKOUT, STEP_AND_REPEAT, ROTATE,
    FORMAT_STATEMENT, AXIS_SELECT, MIRROR_IMAGE, MODE_OF_UNITS, OFFSET, IMAGE_NAME,
    IMAGE_POLARITY, LAYER_POLARITY, CODE]

/-- C21 (a dispatch that never returns): on the Format Statement "%FSLAX23Y23%", whose
`*` is missing, and on the Offset "%OF A1B2*%", whose fields follow a space,
`ExecuteRS274XCommand` does not return, whatever the platform and the interpreter:
its loop runs out of every number of rounds.  The Format Statement loop stays on the
`%` where `GetEndOfBlock` stops, and the Offset loop stays on the space, which its
switch has no case for. -/
theorem ExecuteRS274XCommand_never_returns (E : Env) (g : GERBER E.D) (fuel : Nat) :
    ExecuteRS274XCommand E fuel FORMAT_STATEMENT ⟨cstring "%FSLAX23Y23%", 3, g⟩
        = Outcome.timeout
      ∧ ExecuteRS274XCommand E fuel OFFSET ⟨cstring "%OF A1B2*%", 3, g⟩
        = Outcome.timeout := by
  constructor
  · have hfs : ExecuteRS274XCommand.cases E fuel FORMAT_STATEMENT
        ⟨cstring "%FSLAX23Y23%", 3, g⟩
        = FormatStatement E fuel ⟨cstring "%FSLAX23Y23%", 3, g⟩ true := by
      simp [ExecuteRS274XCommand.cases]
    have hrun : FormatStatement E fuel ⟨cstring "%FSLAX23Y23%", 3, g⟩ true
        = Outcome.timeout := by
      cases fuel with
      | zero => rfl
      | succ n =>
        rw [FormatStatement_L E n _ 3 g true (by decide)]
        cases n with
        | zero => rfl
        | succ n =>
          rw [FormatStatement_A E n _ 4 _ true (by decide)]
          cases n with
          | zero => rfl
          | succ n =>
            rw [FormatStatement_X E n _ 5 _ true 50 51 (by decide) (by decide) (by decide)]
            cases n with
            | zero => rfl
            | succ n =>
              rw [FormatStatement_Y E n _ 8 _ true 50 51 (by decide) (by decide)
                (by decide)]
              exact FormatStatement_percent E _ 11 _ (by decide) n true
    simp only [ExecuteRS274XCommand, hfs, hrun, Outcome.timeout_bind]
  · have hrun := OffsetLoop_stuck E (conv_scale E g.m_GerbMetric) (cstring "%OF A1B2*%") 3
      { g with m_Offset := ⟨0, 0⟩ } 32 (by decide) (by decide) (by decide) (by decide) fuel
    simp only [ExecuteRS274XCommand, ExecuteRS274XCommand.cases_OFFSET, hrun,
      Outcome.timeout_bind]

theorem ReadApertureMacro_of_name (E : Env) (fuel : Nat) (buff : List Int) (text : Nat)
    (g : GERBER E.D) (nm : List Int) (t : Nat)
    (h : ReadApertureMacro.name (buff.drop text) [] text = Outcome.ok (nm, t)) :
    ReadApertureMacro E fuel ⟨buff, text, g⟩
      = ReadApertureMacro.loop E fuel ⟨buff, t, g⟩ ⟨nm, []⟩ := by
  simp only [ReadApertureMacro, h, Outcome.ok_bind]

/-- C22 (a macro body that is never left): on the macros "%AMD*x*%" (a letter where a
primitive should begin), "%AMD* *%" (a space) and "%AMD*3*" followed by a carriage
return and a newline, `ReadApertureMacro` does not return, whatever the interpreter
and the stream: `ReadInt` and `ReadDouble` convert nothing and leave the cursor on
that character, a primitive of number 0 with four parameters 0 is stored, and the
next round of the loop starts in the same place. -/
theorem ReadApertureMacro_never_returns (g : GERBER ℚ) (fuel : Nat) :
    ReadApertureMacro (exactEnv noFiles) fuel ⟨cstring "%AMD*x*%", 3, g⟩ = Outcome.timeout
      ∧ ReadApertureMacro (exactEnv noFiles) fuel ⟨cstring "%AMD* *%", 3, g⟩
        = Outcome.timeout
      ∧ ReadApertureMacro (exactEnv noFiles) fuel ⟨cstring "%AMD*3*\r\n", 3, g⟩
        = Outcome.timeout
      ∧ ReadApertureMacro.primitive (exactEnv noFiles) (cstring "%AMD*x*%") 5
        = Outcome.ok (⟨0, [⟨true, 0⟩, ⟨true, 0⟩, ⟨true, 0⟩, ⟨true, 0⟩]⟩, 5)
      ∧ ReadApertureMacro.primitive (exactEnv noFiles) (cstring "%AMD* *%") 5
        = Outcome.ok (⟨0, [⟨true, 0⟩, ⟨true, 0⟩, ⟨true, 0⟩, ⟨true, 0⟩]⟩, 5)
      ∧ ReadApertureMacro.primitive (exactEnv noFiles) (cstring "%AMD*3*\r\n") 7
        = Outcome.ok (⟨0, [⟨true, 0⟩, ⟨true, 0⟩, ⟨true, 0⟩, ⟨true, 0⟩]⟩, 7) := by
  have hx : ReadApertureMacro.primitive (exactEnv noFiles) (cstring "%AMD*x*%") 5
      = Outcome.ok (⟨0, [⟨true, 0⟩, ⟨true, 0⟩, ⟨true, 0⟩, ⟨true, 0⟩]⟩, 5) := by
    with_unfolding_all decide
  have hs : ReadApertureMacro.primitive (exactEnv noFiles) (cstring "%AMD* *%") 5
      = Outcome.ok (⟨0, [⟨true, 0⟩, ⟨true, 0⟩, ⟨true, 0⟩, ⟨true, 0⟩]⟩, 5) := by
    with_unfolding_all decide
  have hr : ReadApertureMacro.primitive (exactEnv noFiles) (cstring "%AMD*3*\r\n") 7
      = Outcome.ok (⟨0, [⟨true, 0⟩, ⟨true, 0⟩, ⟨true, 0⟩, ⟨true, 0⟩]⟩, 7) := by
    with_unfolding_all decide
  refine ⟨?_, ?_, ?_, hx, hs, hr⟩
  · rw [ReadApertureMacro_of_name (exactEnv noFiles) fuel _ 3 g [68] 5 (by decide)]
    exact ReadApertureMacro.loop_stuck (exactEnv noFiles) _ 5 g 120 _ (by decide)
      (by decide) (by decide) (by decide) (by decide) hx fuel _
  · rw [ReadApertureMacro_of_name (exactEnv noFiles) fuel _ 3 g [68] 5 (by decide)]
    exact ReadApertureMacro.loop_stuck (exactEnv noFiles) _ 5 g 32 _ (by decide)
      (by decide) (by decide) (by decide) (by decide) hs fuel _
  · rw [ReadApertureMacro_of_name (exactEnv noFiles) fuel _ 3 g [68] 5 (by decide)]
    cases fuel with
    | zero => rfl
    | succ n =>
      have h3 : ReadApertureMacro.primitive (exactEnv noFiles) (cstring "%AMD*3*\r\n") 5
          = Outcome.ok (⟨3, []⟩, 6) := by
        with_unfolding_all decide
      rw [ReadApertureMacro.loop_primitive (exactEnv noFiles) n _ 5 g _ 51 (by decide)
        (by decide), h3, Outcome.ok_bind,
        ReadApertureMacro.loop_skip_star (exactEnv noFiles) n _ 6 g _ 13 (by decide)
          (by decide) (by decide)]
      exact ReadApertureMacro.loop_stuck (exactEnv noFiles) _ 7 g 13 _ (by decide)
        (by decide) (by decide) (by decide) (by decide) hr n _

/-- C23 (the lookup on a truncated outline): on the macros "%AMD*4*%" and "%AMD*4,1*%"
the first parameter loop stops at the `*` with no parameter, respectively one
parameter, in the primitive record, and `ReadApertureMacro` then reads
`prim.params[1]`, which the record does not hold: the run ends in the fault of an
indexed read out of bounds, whatever the interpreter and the stream. -/
theorem ReadApertureMacro_outline_lookup_fault (g : GERBER ℚ) (fuel : Nat) :
    ReadApertureMacro (exactEnv noFiles) (fuel + 1) ⟨cstring "%AMD*4*%", 3, g⟩
        = Outcome.fault
      ∧ ReadApertureMacro (exactEnv noFiles) (fuel + 1) ⟨cstring "%AMD*4,1*%", 3, g⟩
        = Outcome.fault
      ∧ ReadApertureMacro.params (exactEnv noFiles) (cstring "%AMD*4*%") 4 6 []
        = Outcome.ok ([], 6)
      ∧ ReadApertureMacro.params (exactEnv noFiles) (cstring "%AMD*4,1*%") 4 7 []
        = Outcome.ok ([⟨true, 1⟩], 8) := by
  refine ⟨?_, ?_, by with_unfolding_all decide, by with_unfolding_all decide⟩
  · have h4 : ReadApertureMacro.primitive (exactEnv noFiles) (cstring "%AMD*4*%") 5
        = Outcome.fault := by
      with_unfolding_all decide
    rw [ReadApertureMacro_of_name (exactEnv noFiles) (fuel + 1) _ 3 g [68] 5 (by decide),
      ReadApertureMacro.loop_primitive (exactEnv noFiles) fuel _ 5 g _ 52 (by decide)
        (by decide), h4, Outcome.fault_bind]
  · have h4 : ReadApertureMacro.primitive (exactEnv noFiles) (cstring "%AMD*4,1*%") 5
        = Outcome.fault := by
      with_unfolding_all decide
    rw [ReadApertureMacro_of_name (exactEnv noFiles) (fuel + 1) _ 3 g [68] 5 (by decide),
      ReadApertureMacro.loop_primitive (exactEnv noFiles) fuel _ 5 g _ 52 (by decide)
        (by decide), h4, Outcome.fault_bind]

/-! ## Offset -/

theorem axisOffset_nil (E : Env) (scale : E.D) (b : Bool) (d : Int) :
    axisOffset E scale b d [] = d := rfl

theorem axisOffset_cons (E : Env) (scale : E.D) (b : Bool) (d : Int) (f : OffsetField E.D)
    (fs : List (OffsetField E.D)) :
    axisOffset E scale b d (f :: fs)
      = axisOffset E scale b
          (if f.axisB = b then E.roundInt (E.mul f.value scale) else d) fs := by
  unfold axisOffset
  by_cases hf : f.axisB = b
  · simp only [hf, if_true, List.filter_cons, beq_self_eq_true]
    cases hl : List.filter (fun f => f.axisB == b) fs with
    | nil => simp
    | cons x xs => simp [List.getLast?_eq_getLast _ (List.cons_ne_nil x xs)]
  · have hb : (f.axisB == b) = false := by simpa using hf
    simp only [hf, if_false, List.filter_cons, hb]
    rfl

/-- `ReadDouble` on a number inside an Offset command. -/
theorem ReadDouble_offset (E : Env) (buff : List Int) (t : Nat) (nt tail : List Int)
    (c : Int) (v : E.D) (h : buff.drop t = nt ++ c :: tail) (hv : IsOffsetNumber E nt v)
    (hc : c = 65 ∨ c = 66 ∨ c = 42) (hnul : (0 : Int) ∈ tail) :
    ReadDouble E buff t = Outcome.ok (v, t + nt.length) := by
  obtain ⟨s, hs⟩ := cstr_of_mem tail hnul
  have hc0 : c ≠ 0 := by rcases hc with rfl | rfl | rfl <;> decide
  have h44 : c ≠ 44 := by rcases hc with rfl | rfl | rfl <;> decide
  have hcs : cstr (buff.drop t) = some (nt ++ c :: s) := by
    rw [h, cstr_append nt _ hv.noNul]
    simp [cstr, hc0, hs]
  have hpk : peek buff (t + nt.length) = Outcome.ok c :=
    peek_of_getElem? (getElem?_of_drop (drop_append_step h))
  simp only [ReadDouble, hcs, hv.reads c s hc, hpk, if_neg h44]

theorem offsetText_head {D : Type} (fs : List (OffsetField D)) (tail : List Int) :
    ∃ c rest, offsetText fs ++ 42 :: tail = c :: rest ∧ (c = 65 ∨ c = 66 ∨ c = 42)
      ∧ ((0 : Int) ∈ tail → (0 : Int) ∈ rest) := by
  cases fs with
  | nil => exact ⟨42, tail, rfl, Or.inr (Or.inr rfl), fun h => h⟩
  | cons f fs =>
    refine ⟨if f.axisB then 66 else 65, f.num ++ (offsetText fs ++ 42 :: tail), ?_, ?_, ?_⟩
    · simp [offsetText, OffsetField.text]
    · cases f.axisB <;> simp
    · intro h
      simp [h]

theorem OffsetLoop_fields (E : Env) (scale : E.D) (buff tail : List Int)
    (hnul : (0 : Int) ∈ tail) :
    ∀ (fs : List (OffsetField E.D)) (fuel t : Nat) (g : GERBER E.D),
      buff.drop t = offsetText fs ++ 42 :: tail →
      (∀ f ∈ fs, IsOffsetNumber E f.num f.value) → fs.length < fuel →
      OffsetLoop E scale fuel ⟨buff, t, g⟩
        = Outcome.ok ⟨buff, t + (offsetText fs).length, { g with
            m_Offset := ⟨axisOffset E scale false g.m_Offset.x fs,
              axisOffset E scale true g.m_Offset.y fs⟩ }⟩ := by
  intro fs
  induction fs with
  | nil =>
    intro fuel t g h _ hfuel
    obtain ⟨n, rfl⟩ : ∃ n, fuel = n + 1 := ⟨fuel - 1, by omega⟩
    have h42 : buff[t]? = some 42 := getElem?_of_drop (by simpa [offsetText] using h)
    rw [OffsetLoop]
    simp [peek_of_getElem? h42, offsetText, axisOffset_nil]
  | cons f fs ih =>
    intro fuel t g h hnum hfuel
    obtain ⟨n, rfl⟩ : ∃ n, fuel = n + 1 := ⟨fuel - 1, by omega⟩
    have hf := hnum f (List.mem_cons_self _ _)
    have hfs : ∀ x ∈ fs, IsOffsetNumber E x.num x.value :=
      fun x hx => hnum x (List.mem_cons_of_mem _ hx)
    obtain ⟨c, rest, hcr, hc, hrest⟩ := offsetText_head fs tail
    have hd : buff.drop t = (if f.axisB then 66 else 65) :: (f.num ++ c :: rest) := by
      rw [h, ← hcr]
      simp [offsetText, OffsetField.text]
    have hletter : buff[t]? = some (if f.axisB then 66 else 65) := getElem?_of_drop hd
    have hnext : buff.drop (t + 1) = f.num ++ c :: rest := drop_succ_of_drop hd
    have hread := ReadDouble_offset E buff (t + 1) f.num rest c f.value hnext hf hc
      (hrest hnul)
    have hafter : buff.drop (t + 1 + f.num.length) = offsetText fs ++ 42 :: tail := by
      rw [hcr]
      exact drop_append_step hnext
    have hlen : t + 1 + f.num.length + (offsetText fs).length
        = t + (offsetText (f :: fs)).length := by
      simp [offsetText, OffsetField.text]
      omega
    rw [OffsetLoop]
    cases hb : f.axisB with
    | false =>
      rw [hb] at hletter
      simp only [peek_of_getElem? hletter, Outcome.ok_bind, readLength, hread,
        Outcome.pure_eq]
      simp only [Bool.false_eq_true, if_false, show (65 : Int) ≠ 42 by decide, if_true]
      rw [ih n (t + 1 + f.num.length) _ hafter hfs (by simp at hfuel; omega), hlen]
      simp [axisOffset_cons, hb]
    | true =>
      rw [hb] at hletter
      simp only [peek_of_getElem? hletter, Outcome.ok_bind, readLength, hread,
        Outcome.pure_eq]
      simp only [if_true, show (66 : Int) ≠ 42 by decide, show (66 : Int) ≠ 65 by decide,
        if_false]
      rw [ih n (t + 1 + f.num.length) _ hafter hfs (by simp at hfuel; omega), hlen]
      simp [axisOffset_cons, hb]

theorem axisOffset_last (E : Env) (scale : E.D) (d : Int) (pre post : List (OffsetField E.D))
    (f : OffsetField E.D) (hpost : ∀ x ∈ post, x.axisB ≠ f.axisB) :
    axisOffset E scale f.axisB d (pre ++ f :: post) = E.roundInt (E.mul f.value scale) := by
  have hfilter : List.filter (fun x => x.axisB == f.axisB) post = [] := by
    rw [List.filter_eq_nil_iff]
    intro x hx
    simpa using hpost x hx
  unfold axisOffset
  rw [List.filter_append, List.filter_cons, hfilter]
  simp

theorem axisOffset_unnamed (E : Env) (scale : E.D) (b : Bool) (d : Int)
    (fs : List (OffsetField E.D)) (h : ∀ x ∈ fs, x.axisB ≠ b) :
    axisOffset E scale b d fs = d := by
  have hfilter : List.filter (fun x => x.axisB == b) fs = [] := by
    rw [List.filter_eq_nil_iff]
    intro x hx
    simpa using h x hx
  unfold axisOffset
  rw [hfilter]
  rfl

/-- A non-empty string of decimal digits is read whole by the decimal `strtod` when a
character follows that is no digit, no point and no exponent letter. -/
theorem Exact.strtod_digits (ds : List Int) (c : Int) (tail : List Int)
    (hne : ds ≠ []) (hds : ∀ d ∈ ds, isdigit d = true) (hcd : isdigit c = false)
    (hc46 : c ≠ 46) (hce : c ≠ 101 ∧ c ≠ 69) :
    Exact.strtod (ds ++ c :: tail) = ((digitsValue ds : ℚ), ds.length) := by
  obtain ⟨d, ds1, rfl⟩ := List.exists_cons_of_ne_nil hne
  have hd : isdigit d = true := hds d (List.mem_cons_self _ _)
  have hdr : 48 ≤ d ∧ d ≤ 57 := by
    simpa [isdigit] using hd
  have hsp : isspace d = false := isspace_of_isdigit hd
  have hdw : List.dropWhile isspace ((d :: ds1) ++ c :: tail) = (d :: ds1) ++ c :: tail := by
    rw [List.cons_append, List.dropWhile_cons_of_neg (by simp [hsp])]
  have hsg : dropSign ((d :: ds1) ++ c :: tail) = (d :: ds1) ++ c :: tail := by
    have h1 : d ≠ 45 := by omega
    have h2 : d ≠ 43 := by omega
    simp [dropSign, h1, h2]
  have htd := takeDigits_run (d :: ds1) c tail hds hcd
  have hex : Exact.exponent (c :: tail) = (0, c :: tail) := by
    simp [Exact.exponent, hce.1, hce.2]
  have h45 : d ≠ 45 := by omega
  simp only [Exact.strtod, hdw, hsg, htd, List.head?_cons, beq_iff_eq, Option.some.injEq,
    hc46, if_false, hex]
  simp [h45]
  omega

/-- Offset fields written with plain digit strings are numbers of the executable
platform. -/
theorem exact_offset_fields (fs : List Int → Option (List Int)) (l : List (OffsetField ℚ))
    (h : ∀ f ∈ l, f.num ≠ [] ∧ (∀ d ∈ f.num, isdigit d = true)
      ∧ f.value = (digitsValue f.num : ℚ)) :
    ∀ f ∈ l, IsOffsetNumber (exactEnv fs) f.num f.value := by
  intro f hf
  obtain ⟨h1, h2, h3⟩ := h f hf
  refine ⟨?_, ?_⟩
  · intro x hx h0
    have := h2 x hx
    rw [h0] at this
    exact absurd this (by decide)
  · intro c tail hc
    rw [h3]
    exact Exact.strtod_digits f.num c tail h1 h2
      (by rcases hc with rfl | rfl | rfl <;> decide)
      (by rcases hc with rfl | rfl | rfl <;> decide)
      (by rcases hc with rfl | rfl | rfl <;> decide)

/-- C24: for every prior state, dispatching `OFFSET` on a text made only of fields
`A<number>` and `B<number>` and then `*` returns true with the cursor on the `*`, and
the interpreter differs from the prior one in `m_Offset` only: each axis has the
offset `axisOffset` with default 0, which is `round( value * scale )` for the last field
that names the axis, `scale` being the scale of the active unit, and 0, not the
previous value, when no field names the axis. -/
theorem ExecuteRS274XCommand_OFFSET_fields (E : Env) (fuel : Nat) (buff : List Int)
    (text : Nat) (g : GERBER E.D) (fs : List (OffsetField E.D)) (tail : List Int)
    (htext : buff.drop text = offsetText fs ++ 42 :: tail)
    (hnul : (0 : Int) ∈ tail)
    (hnum : ∀ f ∈ fs, IsOffsetNumber E f.num f.value)
    (hfuel : fs.length < fuel) :
    ExecuteRS274XCommand E fuel OFFSET ⟨buff, text, g⟩
        = Outcome.ok (true, ⟨buff, text + (offsetText fs).length, { g with
            m_Offset := ⟨axisOffset E (conv_scale E g.m_GerbMetric) false 0 fs,
              axisOffset E (conv_scale E g.m_GerbMetric) true 0 fs⟩ }⟩)
      ∧ (∀ (pre post : List (OffsetField E.D)) (f : OffsetField E.D),
          fs = pre ++ f :: post → (∀ x ∈ post, x.axisB ≠ f.axisB) →
          axisOffset E (conv_scale E g.m_GerbMetric) f.axisB 0 fs
            = E.roundInt (E.mul f.value (conv_scale E g.m_GerbMetric)))
      ∧ (∀ b : Bool, (∀ x ∈ fs, x.axisB ≠ b) →
          axisOffset E (conv_scale E g.m_GerbMetric) b 0 fs = 0) := by
  refine ⟨?_, ?_, ?_⟩
  · have hloop := OffsetLoop_fields E (conv_scale E g.m_GerbMetric) buff tail hnul fs fuel
      text { g with m_Offset := ⟨0, 0⟩ } htext hnum hfuel
    have hcases : ExecuteRS274XCommand.cases E fuel OFFSET ⟨buff, text, g⟩
        = Outcome.ok (true, ⟨buff, text + (offsetText fs).length, { g with
            m_Offset := ⟨axisOffset E (conv_scale E g.m_GerbMetric) false 0 fs,
              axisOffset E (conv_scale E g.m_GerbMetric) true 0 fs⟩ }⟩) := by
      rw [ExecuteRS274XCommand.cases_OFFSET]
      refine (congrArg (fun x => x >>= fun r1 => Outcome.ok (true, r1)) hloop).trans ?_
      rfl
    have hd : buff.drop (text + (offsetText fs).length) = 42 :: tail :=
      drop_append_step htext
    have := ExecuteRS274XCommand_of_cases E fuel OFFSET ⟨buff, text, g⟩ _ true 0 hcases
      (by simp [hd, findTerminator]) (by omega)
    simpa using this
  · intro pre post f hfs hpost
    rw [hfs]
    exact axisOffset_last E _ 0 pre post f hpost
  · intro b hb
    exact axisOffset_unnamed E _ b 0 fs hb

/-- The blocks "%OFA1B2*%" and "%OFB2*%" read in inches with
`PCB_INTERNAL_UNIT = 10000` from the prior offset (7, 8): the offsets become
(10000, 20000) and (0, 20000). -/
theorem ExecuteRS274XCommand_OFFSET_fields_witness :
    ExecuteRS274XCommand (exactEnv noFiles) 3 OFFSET
        ⟨cstring "%OFA1B2*%", 3, { GERBER.init ℚ [] with m_Offset := ⟨7, 8⟩ }⟩
        = Outcome.ok (true, ⟨cstring "%OFA1B2*%", 7,
            { GERBER.init ℚ [] with m_Offset := ⟨10000, 20000⟩ }⟩)
      ∧ ExecuteRS274XCommand (exactEnv noFiles) 3 OFFSET
          ⟨cstring "%OFB2*%", 3, { GERBER.init ℚ [] with m_Offset := ⟨7, 8⟩ }⟩
        = Outcome.ok (true, ⟨cstring "%OFB2*%", 5,
            { GERBER.init ℚ [] with m_Offset := ⟨0, 20000⟩ }⟩) :=
  ⟨(ExecuteRS274XCommand_OFFSET_fields (exactEnv noFiles) 3 (cstring "%OFA1B2*%") 3
      { GERBER.init ℚ [] with m_Offset := ⟨7, 8⟩ }
      [⟨false, [49], 1⟩, ⟨true, [50], 2⟩] [37, 0] (by decide) (by decide)
      (exact_offset_fields noFiles _ (by with_unfolding_all decide)) (by decide)).1.trans
      (by
        simp only [axisOffset, conv_scale, offsetText, OffsetField.text]
        norm_num [Exact.roundInt, GERBER.init]),
    (ExecuteRS274XCommand_OFFSET_fields (exactEnv noFiles) 3 (cstring "%OFB2*%") 3
      { GERBER.init ℚ [] with m_Offset := ⟨7, 8⟩ }
      [⟨true, [50], 2⟩] [37, 0] (by decide) (by decide)
      (exact_offset_fields noFiles _ (by with_unfolding_all decide)) (by decide)).1.trans
      (by
        simp only [axisOffset, conv_scale, offsetText, OffsetField.text]
        norm_num [Exact.roundInt, GERBER.init])⟩

/-! ## Blocks whose commands stay inside their text -/

/-- A macro cut by the end of the stream: on "%AMD*1,1,2,0,0*" followed by a newline,
with nothing left in the stream, `ReadApertureMacro` puts the cursor back to the start
of the buffer and returns false, the dispatcher does not use that value, its scan for
the end of the block stops on the opening `%`, and `ReadRS274XCommand` returns true
with the cursor at index 1, just past the opening `%`. -/
theorem ReadRS274XCommand_macro_cut :
    ReadApertureMacro (exactEnv noFiles) 20
        ⟨cstring "%AMD*1,1,2,0,0*\n", 3, GERBER.init ℚ []⟩
        = Outcome.ok (false, ⟨cstring "%AMD*1,1,2,0,0*\n", 0, GERBER.init ℚ []⟩)
      ∧ ReadRS274XCommand (exactEnv noFiles) 20
          ⟨cstring "%AMD*1,1,2,0,0*\n", 0, GERBER.init ℚ []⟩
        = Outcome.ok (true, ⟨cstring "%AMD*1,1,2,0,0*\n", 1,
            { GERBER.init ℚ [] with m_CommandState := CommandState.CMD_IDLE }⟩) := by
  with_unfolding_all decide

end Gerbview
